import Mathlib

/-!
MAC grid of the PIC/FLIP fluid solver (`MACGrid.cpp`)

A shallow embedding of `scenes/inf585/project/src/MACGrid.cpp`.

Modelling conventions.

* `float` values are elements of an arbitrary linearly ordered field `F`
  (exact arithmetic); `std::sqrt` is a parameter `sqrt : F → F`.
* A `vcl::grid_2D<T>` is a function `ℤ → ℤ → T`; the dimensions of the seven
  grids are fixed by the constructor (`u` is `(xCellCount+1) × yCellCount`,
  `v` is `xCellCount × (yCellCount+1)`, all the others are
  `xCellCount × yCellCount`) and are recomputed from the two cell counts.
  A write touches one entry, `fill` touches the entries inside the dimensions.
* The cell counts are the positive `int` arguments of the constructor, so the
  conversions between `size_t` and `int` applied to dimensions keep the value;
  `dimension - 1` and `dimension - 2` are natural-number subtractions, which is
  what the `size_t` arithmetic computes on grids with at least two cells per
  axis.
* A counted loop is `loopN n k d body`: `n` iterations, the index starts at `k`
  and moves by `d`. The loops `for (k = from; k != to; k += d)` of `performSweep`
  run `|to - from|` times; `forNeFuel_eq_loopN` relates them to the literal loop.
* `static_cast<int>` of a `float` truncates towards zero and is undefined
  (`none`) outside the range of a 32-bit `int`.
* `set_boundary` comes from `boundaries.h`, which is not among the sources: it
  is a parameter of `divFreeField` and `update`; `specBoundary` is its
  description in the specification.
* The sampling functions `barycentricOnX`, `barycentricOnY` have a second copy
  in `float` arithmetic, the `_float` functions: the quotient and the
  difference are rounded by a function `rnd` (`roundFloat` is IEEE single
  precision on the rationals), and a conversion to `int` outside the range of
  `int` gives `INT_MIN`, as the x86-64 instruction does.
* Index safety is stated on a second copy of the loops, the `_checked`
  functions: every `grid(x, y)` read or write returns `none` outside the
  dimension of its grid, `&&` and `||` evaluate their right operand only when
  needed, and the loops of `performSweep` are the literal `k != stop` loops
  with fuel.
-/

namespace MACGridModel

/-! ## Grids and loops -/

/-- The three cell classifications. -/
inductive cellType where
  | FLUID_CELL
  | EMPTY_CELL
  | SOLID_CELL
  deriving DecidableEq

/-- A two-dimensional grid, addressed by `(x, y)`. -/
abbrev grid_2D (α : Type) := Int → Int → α

/-- The assignment `g(x, y) = a`. -/
def grid_2D.set {α : Type} (g : grid_2D α) (x y : Int) (a : α) : grid_2D α :=
  fun x' y' => if x' = x ∧ y' = y then a else g x' y'

/-- The call `g.fill(a)` on a grid of dimension `dimX × dimY`. -/
def grid_2D.fill {α : Type} (g : grid_2D α) (dimX dimY : Nat) (a : α) : grid_2D α :=
  fun x y => if 0 ≤ x ∧ x < dimX ∧ 0 ≤ y ∧ y < dimY then a else g x y

/-- Runs `body` `n` times; the index starts at `k` and moves by `d` each time. -/
def loopN {σ : Type} (n : Nat) (k d : Int) (body : Int → σ → σ) (s : σ) : σ :=
  match n with
  | 0 => s
  | n + 1 => loopN n (k + d) d body (body k s)

/-- The loop `for (i = lo; i < hi; i++) body(i)`. -/
def forLt {σ : Type} (lo hi : Nat) (body : Int → σ → σ) (s : σ) : σ :=
  loopN (hi - lo) lo 1 body s

/-- The literal loop `for (k = start; k != stop; k += d) body(k)`, with fuel. -/
def forNeFuel {σ : Type} (fuel : Nat) (k stop d : Int) (body : Int → σ → σ) (s : σ) :
    Option σ :=
  match fuel with
  | 0 => none
  | fuel + 1 => if k = stop then some s else forNeFuel fuel (k + d) stop d body (body k s)

/-- The function `MACGrid::performSweep`: `di`, `dj` point from `from` to `to`, and each of
the two loops `for (k = from; k != to; k += d)` runs `|to - from|` times. -/
def performSweep {σ : Type} (fromX toX fromY toY : Int)
    (function : Int → Int → Int → Int → σ → σ) (s : σ) : σ :=
  let di : Int := if fromX ≤ toX then 1 else -1
  let dj : Int := if fromY ≤ toY then 1 else -1
  loopN (toY - fromY).natAbs fromY dj
    (fun j s => loopN (toX - fromX).natAbs fromX di (fun i s => function i j di dj s) s) s

/-! ## The grid state -/

/-- The fields of `MACGrid`. -/
structure MACGrid (F : Type) where
  xCellCount : Nat
  yCellCount : Nat
  cellSize : F
  u : grid_2D F
  du : grid_2D F
  v : grid_2D F
  dv : grid_2D F
  cellTypes : grid_2D cellType
  distanceField : grid_2D F
  div : grid_2D F

variable {F : Type} [LinearOrderedField F]

set_option linter.unusedSectionVars false

/-- The function `MACGrid::saveFlipVelocities`. -/
def saveFlipVelocities (g : MACGrid F) : MACGrid F :=
  { g with du := g.u, dv := g.v }

/-- The function `MACGrid::updateExternalForces`. -/
def updateExternalForces (dt : F) (g : MACGrid F) : MACGrid F :=
  let gravity : F := 9.81
  { g with v := fun x y => g.v x y - dt * gravity }

/-- First loop of `MACGrid::updateBoundaries`: bottom and top rows of `cellTypes`. -/
def updateBoundaries_cellRows (g : MACGrid F) : MACGrid F :=
  forLt 0 g.xCellCount (fun i g =>
    let g := { g with cellTypes := g.cellTypes.set i 0 cellType.SOLID_CELL }
    { g with cellTypes :=
        g.cellTypes.set i ((g.yCellCount - 1 : Nat) : Int) cellType.SOLID_CELL }) g

/-- Second loop of `MACGrid::updateBoundaries`: left and right columns of `cellTypes`. -/
def updateBoundaries_cellColumns (g : MACGrid F) : MACGrid F :=
  forLt 0 g.yCellCount (fun i g =>
    let g := { g with cellTypes := g.cellTypes.set 0 i cellType.SOLID_CELL }
    { g with cellTypes :=
        g.cellTypes.set ((g.xCellCount - 1 : Nat) : Int) i cellType.SOLID_CELL }) g

/-- Third loop of `MACGrid::updateBoundaries`: the four outer columns of `u`, whose
dimension is `(xCellCount + 1, yCellCount)`. -/
def updateBoundaries_u (g : MACGrid F) : MACGrid F :=
  forLt 0 g.yCellCount (fun i g =>
    let g := { g with u := g.u.set 0 i 0 }
    let g := { g with u := g.u.set 1 i 0 }
    let g := { g with u := g.u.set ((g.xCellCount + 1 - 1 : Nat) : Int) i 0 }
    { g with u := g.u.set ((g.xCellCount + 1 - 2 : Nat) : Int) i 0 }) g

/-- Fourth loop of `MACGrid::updateBoundaries`: the four outer rows of `v`, whose
dimension is `(xCellCount, yCellCount + 1)`. -/
def updateBoundaries_v (g : MACGrid F) : MACGrid F :=
  forLt 0 g.xCellCount (fun i g =>
    let g := { g with v := g.v.set i 0 0 }
    let g := { g with v := g.v.set i 1 0 }
    let g := { g with v := g.v.set i ((g.yCellCount + 1 - 1 : Nat) : Int) 0 }
    { g with v := g.v.set i ((g.yCellCount + 1 - 2 : Nat) : Int) 0 }) g

/-- The function `MACGrid::updateBoundaries`. -/
def updateBoundaries (g : MACGrid F) : MACGrid F :=
  let g := updateBoundaries_cellRows g
  let g := updateBoundaries_cellColumns g
  let g := updateBoundaries_u g
  updateBoundaries_v g

/-- The constant `std::numeric_limits<float>::max()`. -/
def FLT_MAX : F := 340282346638528859811704183484516925440

/-- The per-cell rule `updateFunc` of `MACGrid::updateDistanceField`. -/
def updateDistanceField_updateFunc (sqrt : F → F) (i j di dj : Int) (g : MACGrid F) :
    MACGrid F :=
  if g.cellTypes i j ≠ cellType.FLUID_CELL then
    let a := g.distanceField (i - di) j
    let b := g.distanceField i (j - dj)
    let initDistance := min a b + 1
    let initDistance :=
      if initDistance > max a b then (a + b + sqrt (2 - (a - b) ^ 2)) / 2 else initDistance
    { g with distanceField := g.distanceField.set i j (min (g.distanceField i j) initDistance) }
  else g

/-- The seeding part of `MACGrid::updateDistanceField`: the fill and the loop over
`1 ≤ j < dimension.y - 1`, `1 ≤ i < dimension.x - 1`. -/
def updateDistanceField_seed (g : MACGrid F) : MACGrid F :=
  let g := { g with distanceField := g.distanceField.fill g.xCellCount g.yCellCount FLT_MAX }
  forLt 1 (g.yCellCount - 1) (fun j g =>
    forLt 1 (g.xCellCount - 1) (fun i g =>
      if g.cellTypes i j = cellType.FLUID_CELL then
        { g with distanceField := g.distanceField.set i j 0 }
      else g) g) g

/-- The four directional passes that `updateDistanceField`, `sweepU` and `sweepV` run in
each cycle, over the dimension of `distanceField`. -/
def sweepCycle (function : Int → Int → Int → Int → MACGrid F → MACGrid F) (g : MACGrid F) :
    MACGrid F :=
  let g := performSweep 1 g.xCellCount 1 g.yCellCount function g
  let g := performSweep 1 g.xCellCount ((g.yCellCount - 2 : Nat) : Int) 0 function g
  let g := performSweep ((g.xCellCount - 2 : Nat) : Int) 0 1 g.yCellCount function g
  performSweep ((g.xCellCount - 2 : Nat) : Int) 0 ((g.yCellCount - 2 : Nat) : Int) 0 function g

/-- The function `MACGrid::updateDistanceField`. -/
def updateDistanceField (sqrt : F → F) (g : MACGrid F) : MACGrid F :=
  let g := updateDistanceField_seed g
  forLt 0 4 (fun _ g => sweepCycle (updateDistanceField_updateFunc sqrt) g) g

/-- The blend coefficient of `sweepU`'s rule, from the two gaps `distanceDeltaI`,
`distanceDeltaJ`. -/
def sweepU_coeff (distanceDeltaI distanceDeltaJ : F) : F :=
  if distanceDeltaI + distanceDeltaJ = 0 then 0.5
  else distanceDeltaI / (distanceDeltaI + distanceDeltaJ)

/-- Division that reports a zero divisor instead of dividing. -/
def checkedDiv (a b : F) : Option F :=
  if b = 0 then none else some (a / b)

/-- The blend coefficient of `sweepU`'s rule with its division checked: `none` would be a
division by zero. -/
def sweepU_coeff_checked (distanceDeltaI distanceDeltaJ : F) : Option F :=
  if distanceDeltaI + distanceDeltaJ = 0 then some 0.5
  else checkedDiv distanceDeltaI (distanceDeltaI + distanceDeltaJ)

/-- The per-cell rule `updateFunc` of `MACGrid::sweepU`. -/
def sweepU_updateFunc (i j di dj : Int) (g : MACGrid F) : MACGrid F :=
  if g.cellTypes i j = cellType.EMPTY_CELL ∧ g.cellTypes (i - 1) j = cellType.EMPTY_CELL then
    let distanceDeltaI := g.distanceField i j - g.distanceField (i - di) j
    if distanceDeltaI < 0 then g
    else
      let distanceDeltaJ := g.distanceField i j - g.distanceField i (j - dj)
      if distanceDeltaJ < 0 then g
      else
        let coeff := sweepU_coeff distanceDeltaI distanceDeltaJ
        { g with u := g.u.set i j (coeff * g.u (i - di) j + (1 - coeff) * g.u i (j - dj)) }
  else g

/-- First replication loop of `MACGrid::sweepU`: rows `0` and `dimension[1] - 1` of `u`. -/
def sweepU_replicateRows (g : MACGrid F) : MACGrid F :=
  forLt 0 (g.xCellCount + 1) (fun i g =>
    let g := { g with u := g.u.set i 0 (g.u i 1) }
    let last : Int := ((g.yCellCount - 1 : Nat) : Int)
    { g with u := g.u.set i last (g.u i ((g.yCellCount - 2 : Nat) : Int)) }) g

/-- Second replication loop of `MACGrid::sweepU`: columns `0` and `dimension[0] - 1`
of `u`. -/
def sweepU_replicateColumns (g : MACGrid F) : MACGrid F :=
  forLt 0 g.yCellCount (fun i g =>
    let g := { g with u := g.u.set 0 i (g.u 1 i) }
    let last : Int := ((g.xCellCount + 1 - 1 : Nat) : Int)
    { g with u := g.u.set last i (g.u ((g.xCellCount + 1 - 2 : Nat) : Int) i) }) g

/-- The function `MACGrid::sweepU`. -/
def sweepU (g : MACGrid F) : MACGrid F :=
  let g := forLt 0 4 (fun _ g => sweepCycle sweepU_updateFunc g) g
  let g := sweepU_replicateRows g
  sweepU_replicateColumns g

/-- The blend coefficient of `sweepV`'s rule, from the two gaps `distanceDeltaI`,
`distanceDeltaJ`. -/
def sweepV_coeff (distanceDeltaI distanceDeltaJ : F) : F :=
  if distanceDeltaI + distanceDeltaJ = 0 then 0.5
  else distanceDeltaJ / (distanceDeltaI + distanceDeltaJ)

/-- The blend coefficient of `sweepV`'s rule with its division checked: `none` would be a
division by zero. -/
def sweepV_coeff_checked (distanceDeltaI distanceDeltaJ : F) : Option F :=
  if distanceDeltaI + distanceDeltaJ = 0 then some 0.5
  else checkedDiv distanceDeltaJ (distanceDeltaI + distanceDeltaJ)

/-- The per-cell rule `updateFunc` of `MACGrid::sweepV`. -/
def sweepV_updateFunc (i j di dj : Int) (g : MACGrid F) : MACGrid F :=
  if g.cellTypes i j = cellType.EMPTY_CELL ∧ g.cellTypes i (j - 1) = cellType.EMPTY_CELL then
    let distanceDeltaI := g.distanceField i j - g.distanceField i (j - dj)
    if distanceDeltaI < 0 then g
    else
      let distanceDeltaJ := g.distanceField i j - g.distanceField (i - di) j
      if distanceDeltaJ < 0 then g
      else
        let coeff := sweepV_coeff distanceDeltaI distanceDeltaJ
        { g with v := g.v.set i j (coeff * g.v (i - di) j + (1 - coeff) * g.v i (j - dj)) }
  else g

/-- First replication loop of `MACGrid::sweepV`: rows `0` and `dimension[1] - 1` of `v`. -/
def sweepV_replicateRows (g : MACGrid F) : MACGrid F :=
  forLt 0 g.xCellCount (fun i g =>
    let g := { g with v := g.v.set i 0 (g.v i 1) }
    let last : Int := ((g.yCellCount + 1 - 1 : Nat) : Int)
    { g with v := g.v.set i last (g.v i ((g.yCellCount + 1 - 2 : Nat) : Int)) }) g

/-- Second replication loop of `MACGrid::sweepV`: columns `0` and `dimension[0] - 1`
of `v`. -/
def sweepV_replicateColumns (g : MACGrid F) : MACGrid F :=
  forLt 0 (g.yCellCount + 1) (fun i g =>
    let g := { g with v := g.v.set 0 i (g.v 1 i) }
    let last : Int := ((g.xCellCount - 1 : Nat) : Int)
    { g with v := g.v.set last i (g.v ((g.xCellCount - 2 : Nat) : Int) i) }) g

/-- The function `MACGrid::sweepV`. -/
def sweepV (g : MACGrid F) : MACGrid F :=
  let g := forLt 0 2 (fun _ g => sweepCycle sweepV_updateFunc g) g
  let g := sweepV_replicateRows g
  sweepV_replicateColumns g

/-- The function `MACGrid::interpolateVelocities`. -/
def interpolateVelocities (g : MACGrid F) : MACGrid F :=
  sweepV (sweepU g)

/-- The function `MACGrid::calculateDiv`. -/
def calculateDiv (g : MACGrid F) : MACGrid F :=
  let g := { g with div := g.div.fill g.xCellCount g.yCellCount 0 }
  forLt 0 g.yCellCount (fun j g =>
    forLt 0 g.xCellCount (fun i g =>
      if g.cellTypes i j = cellType.FLUID_CELL then
        { g with div := g.div.set i j (g.u (i + 1) j - g.u i j + g.v i (j + 1) - g.v i j) }
      else g) g) g

/-- The function `set_boundary` is declared in `boundaries.h`, which is not among the
sources; `divFreeField` applies it to the potential `q`, to `u` and to `v`. The three
applications are parameters; each receives the dimension of the grid it is given. -/
structure BoundaryRules (F : Type) where
  potential : Nat → Nat → grid_2D F → grid_2D F
  velocityU : Nat → Nat → grid_2D F → grid_2D F
  velocityV : Nat → Nat → grid_2D F → grid_2D F

/-- One relaxation sweep of `MACGrid::divFreeField`: the two loops over
`1 ≤ x < dimension[0] - 1`, `1 ≤ y < dimension[1] - 1`, writing `q` in place. -/
def divFreeField_sweep (g : MACGrid F) (q : grid_2D F) : grid_2D F :=
  forLt 1 (g.xCellCount - 1) (fun x q =>
    forLt 1 (g.yCellCount - 1) (fun y q =>
      if g.cellTypes x y = cellType.FLUID_CELL then
        q.set x y ((q (x + 1) y + q (x - 1) y + q x (y + 1) + q x (y - 1) - g.div x y) / 4)
      else q) q) q

/-- The potential `q` of `MACGrid::divFreeField` after `n` rounds of its relaxation loop
(the function runs 50), started from the zero-filled, boundary-clamped grid. -/
def divFreeField_relax (sb : BoundaryRules F) (g : MACGrid F) (n : Nat) : grid_2D F :=
  let q : grid_2D F := fun _ _ => 0
  let q := q.fill g.xCellCount g.yCellCount 0
  let q := sb.potential g.xCellCount g.yCellCount q
  forLt 0 n (fun _ q =>
    let q := divFreeField_sweep g q
    sb.potential g.xCellCount g.yCellCount q) q

/-- The gradient correction of `u` in `MACGrid::divFreeField`. -/
def divFreeField_correctU (q : grid_2D F) (g : MACGrid F) : MACGrid F :=
  forLt 2 (g.xCellCount + 1 - 2) (fun x g =>
    forLt 1 (g.yCellCount - 1) (fun y g =>
      if (g.cellTypes x y = cellType.FLUID_CELL ∧ g.cellTypes (x - 1) y ≠ cellType.SOLID_CELL) ∨
          (g.cellTypes (x - 1) y = cellType.FLUID_CELL ∧ g.cellTypes x y ≠ cellType.SOLID_CELL)
      then { g with u := g.u.set x y (g.u x y - (q x y - q (x - 1) y)) }
      else g) g) g

/-- The gradient correction of `v` in `MACGrid::divFreeField`. -/
def divFreeField_correctV (q : grid_2D F) (g : MACGrid F) : MACGrid F :=
  forLt 1 (g.xCellCount - 1) (fun x g =>
    forLt 2 (g.yCellCount + 1 - 2) (fun y g =>
      if (g.cellTypes x y = cellType.FLUID_CELL ∧ g.cellTypes x (y - 1) ≠ cellType.SOLID_CELL) ∨
          (g.cellTypes x y ≠ cellType.SOLID_CELL ∧ g.cellTypes x (y - 1) = cellType.FLUID_CELL)
      then { g with v := g.v.set x y (g.v x y - (q x y - q x (y - 1))) }
      else g) g) g

/-- The function `MACGrid::divFreeField`. -/
def divFreeField (sb : BoundaryRules F) (g : MACGrid F) : MACGrid F :=
  let g := calculateDiv g
  let q := divFreeField_relax sb g 50
  let g := divFreeField_correctU q g
  let g := divFreeField_correctV q g
  let g := { g with u := sb.velocityU (g.xCellCount + 1) g.yCellCount g.u }
  { g with v := sb.velocityV g.xCellCount (g.yCellCount + 1) g.v }

/-- The function `MACGrid::updateVelocities`. -/
def updateVelocities (g : MACGrid F) : MACGrid F :=
  { g with du := fun x y => g.u x y - g.du x y, dv := fun x y => g.v x y - g.dv x y }

/-- The state of `MACGrid::update` just before its last call, `updateVelocities`. -/
def update_stages (sb : BoundaryRules F) (sqrt : F → F) (dt : F) (g : MACGrid F) : MACGrid F :=
  let g := saveFlipVelocities g
  let g := updateExternalForces dt g
  let g := updateDistanceField sqrt g
  let g := interpolateVelocities g
  let g := updateBoundaries g
  let g := divFreeField sb g
  interpolateVelocities g

/-- The function `MACGrid::update`. -/
def update (sb : BoundaryRules F) (sqrt : F → F) (dt : F) (g : MACGrid F) : MACGrid F :=
  updateVelocities (update_stages sb sqrt dt g)

/-- Modelled from the spec: `set_boundary` on the potential (`boundaries.h` is missing),
"clamps its boundary to 0": the outer ring of a `dimX × dimY` grid becomes 0. -/
def set_boundary_potential (dimX dimY : Nat) (q : grid_2D F) : grid_2D F :=
  fun x y =>
    if 0 ≤ x ∧ x < dimX ∧ 0 ≤ y ∧ y < dimY ∧
        (x = 0 ∨ x = ((dimX - 1 : Nat) : Int) ∨ y = 0 ∨ y = ((dimY - 1 : Nat) : Int))
    then 0 else q x y

/-- Modelled from the spec: `set_boundary` on `u` (`boundaries.h` is missing), "re-applies
the BoundaryEnforcer's zero-velocity boundary convention": the two outermost columns of
`u` on the left and on the right become 0. -/
def set_boundary_u (dimX dimY : Nat) (u : grid_2D F) : grid_2D F :=
  fun x y =>
    if 0 ≤ y ∧ y < dimY ∧
        (x = 0 ∨ x = 1 ∨ x = ((dimX - 1 : Nat) : Int) ∨ x = ((dimX - 2 : Nat) : Int))
    then 0 else u x y

/-- Modelled from the spec: `set_boundary` on `v` (`boundaries.h` is missing), "re-applies
the BoundaryEnforcer's zero-velocity boundary convention": the two outermost rows of `v`
at the bottom and at the top become 0. -/
def set_boundary_v (dimX dimY : Nat) (v : grid_2D F) : grid_2D F :=
  fun x y =>
    if 0 ≤ x ∧ x < dimX ∧
        (y = 0 ∨ y = 1 ∨ y = ((dimY - 1 : Nat) : Int) ∨ y = ((dimY - 2 : Nat) : Int))
    then 0 else v x y

/-- Modelled from the spec: the three applications of `set_boundary` in `divFreeField`
(`boundaries.h` is missing), as sections 4.5 and 4.6 of the specification describe them. -/
def specBoundary : BoundaryRules F where
  potential := set_boundary_potential
  velocityU := set_boundary_u
  velocityV := set_boundary_v

/-! ## Sampling coordinates -/

/-- The return type of `barycentricOnX` / `barycentricOnY`: a cell index and the
fractional offset inside the cell. -/
structure barycentricCoords (F : Type) where
  index : Nat
  weight : F

/-- Truncation towards zero, the rounding of a conversion from `float` to an integer. -/
def truncate [FloorRing F] (x : F) : Int :=
  if 0 ≤ x then ⌊x⌋ else ⌈x⌉

/-- The conversion `static_cast<int>(x)` of a `float`: the truncated value, undefined
(`none`) when it does not fit in a 32-bit `int`. -/
def floatToInt [FloorRing F] (x : F) : Option Int :=
  if -2147483648 ≤ truncate x ∧ truncate x ≤ 2147483647 then some (truncate x) else none

/-- The common body of `barycentricOnX` and `barycentricOnY`, for an axis of
`cellCount` cells. -/
def barycentricOnAxis [FloorRing F] (cellCount : Nat) (cellSize x : F) :
    Option (barycentricCoords F) :=
  let cellsCoord := x / cellSize
  match floatToInt cellsCoord with
  | none => none
  | some cellIndex =>
    if cellIndex < 0 then some ⟨0, 0⟩
    else if cellIndex > ((cellCount - 2 : Nat) : Int) then some ⟨cellCount - 2, 1⟩
    else some ⟨(truncate cellsCoord).toNat, cellsCoord - (⌊cellsCoord⌋ : Int)⟩

/-- The function `MACGrid::barycentricOnY`. -/
def barycentricOnY [FloorRing F] (g : MACGrid F) (y : F) : Option (barycentricCoords F) :=
  barycentricOnAxis g.yCellCount g.cellSize y

/-- The function `MACGrid::barycentricOnX`. -/
def barycentricOnX [FloorRing F] (g : MACGrid F) (x : F) : Option (barycentricCoords F) :=
  barycentricOnAxis g.xCellCount g.cellSize x

/-! ## The scenario of the specification -/

/-- The 4 × 4 grid of the specification's scenario: `cellSize = 1`, one `FLUID_CELL` at
`(1, 1)`, every other cell `EMPTY_CELL`, all velocities 0. -/
def scenarioGrid : MACGrid F where
  xCellCount := 4
  yCellCount := 4
  cellSize := 1
  u := fun _ _ => 0
  du := fun _ _ => 0
  v := fun _ _ => 0
  dv := fun _ _ => 0
  cellTypes := fun x y => if x = 1 ∧ y = 1 then cellType.FLUID_CELL else cellType.EMPTY_CELL
  distanceField := fun _ _ => 0
  div := fun _ _ => 0

/-- A 3 × 3 grid whose corner cell `(0, 0)` is a `FLUID_CELL`; every other cell is an
`EMPTY_CELL`, all velocities are 0. -/
def cornerFluidGrid : MACGrid F where
  xCellCount := 3
  yCellCount := 3
  cellSize := 1
  u := fun _ _ => 0
  du := fun _ _ => 0
  v := fun _ _ => 0
  dv := fun _ _ => 0
  cellTypes := fun x y => if x = 0 ∧ y = 0 then cellType.FLUID_CELL else cellType.EMPTY_CELL
  distanceField := fun _ _ => 0
  div := fun _ _ => 0

/-- A 3 × 3 grid of `EMPTY_CELL`s with a constant distance field, `u(x, y) = x` and
`v(x, y) = y`. -/
def flatEmptyGrid : MACGrid F where
  xCellCount := 3
  yCellCount := 3
  cellSize := 1
  u := fun x _ => (x : F)
  du := fun _ _ => 0
  v := fun _ y => (y : F)
  dv := fun _ _ => 0
  cellTypes := fun _ _ => cellType.EMPTY_CELL
  distanceField := fun _ _ => 1
  div := fun _ _ => 0

/-- A 5 × 5 grid with a `SOLID_CELL` ring, one `FLUID_CELL` at `(2, 2)` and `EMPTY_CELL`s
around it; `u(2, 2) = 1`, every other velocity is 0, the distance field is 0. -/
def walledGrid : MACGrid F where
  xCellCount := 5
  yCellCount := 5
  cellSize := 1
  u := fun x y => if x = 2 ∧ y = 2 then 1 else 0
  du := fun _ _ => 0
  v := fun _ _ => 0
  dv := fun _ _ => 0
  cellTypes := fun x y =>
    if x = 0 ∨ x = 4 ∨ y = 0 ∨ y = 4 then cellType.SOLID_CELL
    else if x = 2 ∧ y = 2 then cellType.FLUID_CELL else cellType.EMPTY_CELL
  distanceField := fun _ _ => 0
  div := fun _ _ => 0

/-- A 4 × 4 grid with two adjacent `FLUID_CELL`s `(1, 1)` and `(2, 1)`, `EMPTY_CELL`s
elsewhere, `div(1, 1) = 4` and 0 elsewhere, zero velocities. -/
def twoFluidGrid : MACGrid F where
  xCellCount := 4
  yCellCount := 4
  cellSize := 1
  u := fun _ _ => 0
  du := fun _ _ => 0
  v := fun _ _ => 0
  dv := fun _ _ => 0
  cellTypes := fun x y =>
    if (x = 1 ∨ x = 2) ∧ y = 1 then cellType.FLUID_CELL else cellType.EMPTY_CELL
  distanceField := fun _ _ => 0
  div := fun x y => if x = 1 ∧ y = 1 then 4 else 0

/-! ## Predicates used in the statements -/

/-- The cell `(x, y)` lies inside the `xCellCount × yCellCount` grid. -/
def inBounds (g : MACGrid F) (x y : Int) : Prop :=
  0 ≤ x ∧ x < g.xCellCount ∧ 0 ≤ y ∧ y < g.yCellCount

instance (g : MACGrid F) (x y : Int) : Decidable (inBounds g x y) := by
  unfold inBounds; infer_instance

/-- The cell `(x, y)` is an interior cell: `1 ≤ x ≤ xCellCount - 2`,
`1 ≤ y ≤ yCellCount - 2`. -/
def interior (g : MACGrid F) (x y : Int) : Prop :=
  1 ≤ x ∧ x + 1 < g.xCellCount ∧ 1 ≤ y ∧ y + 1 < g.yCellCount

instance (g : MACGrid F) (x y : Int) : Decidable (interior g x y) := by
  unfold interior; infer_instance

/-- The cell `(x, y)` lies on the outer ring of the grid. -/
def outerRing (g : MACGrid F) (x y : Int) : Prop :=
  inBounds g x y ∧
    (x = 0 ∨ x = (g.xCellCount : Int) - 1 ∨ y = 0 ∨ y = (g.yCellCount : Int) - 1)

instance (g : MACGrid F) (x y : Int) : Decidable (outerRing g x y) := by
  unfold outerRing; infer_instance

/-- The index `k` is visited by the loop `for (k = start; k != stop; k += d)` of
`performSweep`, and `d` is the direction that `performSweep` computes. -/
def sweepVisits (start stop k d : Int) : Prop :=
  (start ≤ stop ∧ d = 1 ∧ start ≤ k ∧ k < stop) ∨ (stop < start ∧ d = -1 ∧ stop < k ∧ k ≤ start)

instance (start stop k d : Int) : Decidable (sweepVisits start stop k d) := by
  unfold sweepVisits; infer_instance

/-- What the four passes of a sweep cycle guarantee about a call of the per-cell rule on
an `nx × ny` grid: the cell and its two upwind neighbours lie inside the grid. -/
def cycleVisits (nx ny : Nat) (i j di dj : Int) : Prop :=
  1 ≤ i ∧ i < nx ∧ 1 ≤ j ∧ j < ny ∧
    (di = 1 ∨ (di = -1 ∧ i + 1 < nx)) ∧ (dj = 1 ∨ (dj = -1 ∧ j + 1 < ny))

instance (nx ny : Nat) (i j di dj : Int) : Decidable (cycleVisits nx ny i j di dj) := by
  unfold cycleVisits; infer_instance

/-- The guard of the `u` correction in `divFreeField`: of the two cells `(x - 1, y)` and
`(x, y)` next to the face, one is a `FLUID_CELL` and none is a `SOLID_CELL`. -/
def correctsU (g : MACGrid F) (x y : Int) : Prop :=
  (g.cellTypes x y = cellType.FLUID_CELL ∧ g.cellTypes (x - 1) y ≠ cellType.SOLID_CELL) ∨
    (g.cellTypes (x - 1) y = cellType.FLUID_CELL ∧ g.cellTypes x y ≠ cellType.SOLID_CELL)

instance (g : MACGrid F) (x y : Int) : Decidable (correctsU g x y) := by
  unfold correctsU; infer_instance

/-- The guard of the `v` correction in `divFreeField`: of the two cells `(x, y - 1)` and
`(x, y)` next to the face, one is a `FLUID_CELL` and none is a `SOLID_CELL`. -/
def correctsV (g : MACGrid F) (x y : Int) : Prop :=
  (g.cellTypes x y = cellType.FLUID_CELL ∧ g.cellTypes x (y - 1) ≠ cellType.SOLID_CELL) ∨
    (g.cellTypes x y ≠ cellType.SOLID_CELL ∧ g.cellTypes x (y - 1) = cellType.FLUID_CELL)

instance (g : MACGrid F) (x y : Int) : Decidable (correctsV g x y) := by
  unfold correctsV; infer_instance

/-- Every cell of the outer ring is a `SOLID_CELL`. -/
def ringSolid (g : MACGrid F) : Prop :=
  ∀ i j : Int, outerRing g i j → g.cellTypes i j = cellType.SOLID_CELL

/-- The no-flow band of `u`: `u(i, j) = 0` for `i ∈ {0, 1, nx - 1, nx}` and every row
`j`. -/
def uBandZero (g : MACGrid F) : Prop :=
  ∀ i j : Int, 0 ≤ j → j < g.yCellCount →
    (i = 0 ∨ i = 1 ∨ i = (g.xCellCount : Int) - 1 ∨ i = g.xCellCount) → g.u i j = 0

/-- The no-flow band of `v`: `v(i, j) = 0` for `j ∈ {0, 1, ny - 1, ny}` and every column
`i`. -/
def vBandZero (g : MACGrid F) : Prop :=
  ∀ i j : Int, 0 ≤ i → i < g.xCellCount →
    (j = 0 ∨ j = 1 ∨ j = (g.yCellCount : Int) - 1 ∨ j = g.yCellCount) → g.v i j = 0

/-- The grid state with the two axes swapped: cell `(x, y)` of the result is cell `(y, x)`
of `g`, and the horizontal faces of the result are the vertical faces of `g`. -/
def transposed (g : MACGrid F) : MACGrid F where
  xCellCount := g.yCellCount
  yCellCount := g.xCellCount
  cellSize := g.cellSize
  u := fun x y => g.v y x
  du := fun x y => g.dv y x
  v := fun x y => g.u y x
  dv := fun x y => g.du y x
  cellTypes := fun x y => g.cellTypes y x
  distanceField := fun x y => g.distanceField y x
  div := fun x y => g.div y x

/-- The Jacobi sweep in the words of the specification: every interior `FLUID_CELL` gets
`(q(i+1, j) + q(i-1, j) + q(i, j+1) + q(i, j-1) - div(i, j)) / 4` computed from the
potential `q` of the previous iteration; the other cells keep their value. -/
def jacobiSweep (g : MACGrid F) (q : grid_2D F) : grid_2D F :=
  fun x y =>
    if interior g x y ∧ g.cellTypes x y = cellType.FLUID_CELL then
      (q (x + 1) y + q (x - 1) y + q x (y + 1) + q x (y - 1) - g.div x y) / 4
    else q x y

/-- The cell `(a, b)` comes before `(x, y)` in the order of the relaxation loops of
`divFreeField` (`x` outer, `y` inner, both increasing). -/
def sweptBefore (x y a b : Int) : Prop :=
  a < x ∨ (a = x ∧ b < y)

instance (x y a b : Int) : Decidable (sweptBefore x y a b) := by
  unfold sweptBefore; infer_instance

/-- The potential `qc` is what a relaxation sweep of `divFreeField`, started from `q`,
has produced when it reaches `(x, y)`: the interior `FLUID_CELL`s before `(x, y)` hold the
in-place update, every other cell still holds `q`. -/
def sweptUpTo (g : MACGrid F) (q : grid_2D F) (x y : Int) (qc : grid_2D F) : Prop :=
  (∀ a b : Int,
      ¬ (interior g a b ∧ g.cellTypes a b = cellType.FLUID_CELL ∧ sweptBefore x y a b) →
      qc a b = q a b) ∧
    (∀ a b : Int, interior g a b → g.cellTypes a b = cellType.FLUID_CELL → sweptBefore x y a b →
      qc a b = (q (a + 1) b + qc (a - 1) b + q a (b + 1) + qc a (b - 1) - g.div a b) / 4)

/-- The state `s` has the cell types and cell counts of `g`, and its distance field is
classified by them: 0 on the interior `FLUID_CELL`s, `FLT_MAX` on the `FLUID_CELL`s of the
outer ring, positive on every other cell of the grid. -/
def distanceClassified (g s : MACGrid F) : Prop :=
  (s.cellTypes = g.cellTypes ∧ s.xCellCount = g.xCellCount ∧ s.yCellCount = g.yCellCount) ∧
    ∀ x y : Int, inBounds g x y →
      (g.cellTypes x y = cellType.FLUID_CELL →
        (interior g x y → s.distanceField x y = 0) ∧
        (¬ interior g x y → s.distanceField x y = FLT_MAX)) ∧
      (g.cellTypes x y ≠ cellType.FLUID_CELL → 0 < s.distanceField x y)

/-! ## Bounds-checked accesses

The same loops with every `grid(x, y)` read and write checked against the dimension of the
grid: a checked function returns `none` when an index leaves the dimension, or when a loop
of `performSweep` has not stopped after `fuel` iterations. -/

/-- The read `g(x, y)` on a grid of dimension `dimX × dimY`: `none` outside the
dimension. -/
def grid_2D.read {α : Type} (g : grid_2D α) (dimX dimY : Nat) (x y : Int) : Option α :=
  if 0 ≤ x ∧ x < dimX ∧ 0 ≤ y ∧ y < dimY then some (g x y) else none

/-- The assignment `g(x, y) = a` on a grid of dimension `dimX × dimY`: `none` outside the
dimension. -/
def grid_2D.write {α : Type} (g : grid_2D α) (dimX dimY : Nat) (x y : Int) (a : α) :
    Option (grid_2D α) :=
  if 0 ≤ x ∧ x < dimX ∧ 0 ≤ y ∧ y < dimY then some (g.set x y a) else none

/-- Runs the checked `body` `n` times; stops with `none` at the first failed access. -/
def loopNChecked {σ : Type} (n : Nat) (k d : Int) (body : Int → σ → Option σ) (s : σ) :
    Option σ :=
  match n with
  | 0 => some s
  | n + 1 => (body k s).bind (loopNChecked n (k + d) d body)

/-- The loop `for (i = lo; i < hi; i++) body(i)` with a checked body. -/
def forLtChecked {σ : Type} (lo hi : Nat) (body : Int → σ → Option σ) (s : σ) : Option σ :=
  loopNChecked (hi - lo) lo 1 body s

/-- The literal loop `for (k = start; k != stop; k += d) body(k)` with a checked body:
`none` when the fuel runs out before `k` reaches `stop`, or at the first failed access. -/
def forNeChecked {σ : Type} (fuel : Nat) (k stop d : Int) (body : Int → σ → Option σ)
    (s : σ) : Option σ :=
  match fuel with
  | 0 => none
  | fuel + 1 =>
    if k = stop then some s else (body k s).bind (forNeChecked fuel (k + d) stop d body)

/-- The function `MACGrid::performSweep` with its two loops written literally and a checked
per-cell rule. -/
def performSweep_checked {σ : Type} (fuel : Nat) (fromX toX fromY toY : Int)
    (function : Int → Int → Int → Int → σ → Option σ) (s : σ) : Option σ :=
  let di : Int := if fromX ≤ toX then 1 else -1
  let dj : Int := if fromY ≤ toY then 1 else -1
  forNeChecked fuel fromY toY dj
    (fun j s => forNeChecked fuel fromX toX di (fun i s => function i j di dj s) s) s

/-- Checked read of `cellTypes`, of dimension `xCellCount × yCellCount`. -/
def MACGrid.readCellTypes (g : MACGrid F) (x y : Int) : Option cellType :=
  g.cellTypes.read g.xCellCount g.yCellCount x y

/-- Checked read of `distanceField`, of dimension `xCellCount × yCellCount`. -/
def MACGrid.readDistanceField (g : MACGrid F) (x y : Int) : Option F :=
  g.distanceField.read g.xCellCount g.yCellCount x y

/-- Checked read of `u`, of dimension `(xCellCount + 1) × yCellCount`. -/
def MACGrid.readU (g : MACGrid F) (x y : Int) : Option F :=
  g.u.read (g.xCellCount + 1) g.yCellCount x y

/-- Checked read of `v`, of dimension `xCellCount × (yCellCount + 1)`. -/
def MACGrid.readV (g : MACGrid F) (x y : Int) : Option F :=
  g.v.read g.xCellCount (g.yCellCount + 1) x y

/-- Checked read of `div`, of dimension `xCellCount × yCellCount`. -/
def MACGrid.readDiv (g : MACGrid F) (x y : Int) : Option F :=
  g.div.read g.xCellCount g.yCellCount x y

/-- Checked write of `cellTypes`. -/
def MACGrid.writeCellTypes (g : MACGrid F) (x y : Int) (a : cellType) : Option (MACGrid F) :=
  (g.cellTypes.write g.xCellCount g.yCellCount x y a).map (fun w => { g with cellTypes := w })

/-- Checked write of `distanceField`. -/
def MACGrid.writeDistanceField (g : MACGrid F) (x y : Int) (a : F) : Option (MACGrid F) :=
  (g.distanceField.write g.xCellCount g.yCellCount x y a).map
    (fun w => { g with distanceField := w })

/-- Checked write of `u`. -/
def MACGrid.writeU (g : MACGrid F) (x y : Int) (a : F) : Option (MACGrid F) :=
  (g.u.write (g.xCellCount + 1) g.yCellCount x y a).map (fun w => { g with u := w })

/-- Checked write of `v`. -/
def MACGrid.writeV (g : MACGrid F) (x y : Int) (a : F) : Option (MACGrid F) :=
  (g.v.write g.xCellCount (g.yCellCount + 1) x y a).map (fun w => { g with v := w })

/-- Checked write of `div`. -/
def MACGrid.writeDiv (g : MACGrid F) (x y : Int) (a : F) : Option (MACGrid F) :=
  (g.div.write g.xCellCount g.yCellCount x y a).map (fun w => { g with div := w })

/-- The four directional passes of a sweep cycle, with a checked per-cell rule. -/
def sweepCycle_checked (fuel : Nat)
    (function : Int → Int → Int → Int → MACGrid F → Option (MACGrid F)) (g : MACGrid F) :
    Option (MACGrid F) := do
  let g ← performSweep_checked fuel 1 g.xCellCount 1 g.yCellCount function g
  let g ← performSweep_checked fuel 1 g.xCellCount ((g.yCellCount - 2 : Nat) : Int) 0 function g
  let g ← performSweep_checked fuel ((g.xCellCount - 2 : Nat) : Int) 0 1 g.yCellCount function g
  performSweep_checked fuel ((g.xCellCount - 2 : Nat) : Int) 0 ((g.yCellCount - 2 : Nat) : Int) 0
    function g

/-- The short-circuit conjunction `a && b` of two checked conditions: `b` is evaluated only
when `a` holds. -/
def andChecked (a b : Option Bool) : Option Bool :=
  match a with
  | none => none
  | some true => b
  | some false => some false

/-- The short-circuit disjunction `a || b` of two checked conditions: `b` is evaluated only
when `a` does not hold. -/
def orChecked (a b : Option Bool) : Option Bool :=
  match a with
  | none => none
  | some true => some true
  | some false => b

/-- The comparison `cellTypes(x, y) == c`, with a checked read. -/
def MACGrid.cellIs (g : MACGrid F) (x y : Int) (c : cellType) : Option Bool :=
  (g.readCellTypes x y).map (fun t => decide (t = c))

/-- The comparison `cellTypes(x, y) != c`, with a checked read. -/
def MACGrid.cellIsNot (g : MACGrid F) (x y : Int) (c : cellType) : Option Bool :=
  (g.readCellTypes x y).map (fun t => decide (t ≠ c))

/-- First loop of `MACGrid::updateBoundaries`, checked. -/
def updateBoundaries_cellRows_checked (g : MACGrid F) : Option (MACGrid F) :=
  forLtChecked 0 g.xCellCount (fun i g => do
    let g ← g.writeCellTypes i 0 cellType.SOLID_CELL
    g.writeCellTypes i ((g.yCellCount - 1 : Nat) : Int) cellType.SOLID_CELL) g

/-- Second loop of `MACGrid::updateBoundaries`, checked. -/
def updateBoundaries_cellColumns_checked (g : MACGrid F) : Option (MACGrid F) :=
  forLtChecked 0 g.yCellCount (fun i g => do
    let g ← g.writeCellTypes 0 i cellType.SOLID_CELL
    g.writeCellTypes ((g.xCellCount - 1 : Nat) : Int) i cellType.SOLID_CELL) g

/-- Third loop of `MACGrid::updateBoundaries`, checked. -/
def updateBoundaries_u_checked (g : MACGrid F) : Option (MACGrid F) :=
  forLtChecked 0 g.yCellCount (fun i g => do
    let g ← g.writeU 0 i 0
    let g ← g.writeU 1 i 0
    let g ← g.writeU ((g.xCellCount + 1 - 1 : Nat) : Int) i 0
    g.writeU ((g.xCellCount + 1 - 2 : Nat) : Int) i 0) g

/-- Fourth loop of `MACGrid::updateBoundaries`, checked. -/
def updateBoundaries_v_checked (g : MACGrid F) : Option (MACGrid F) :=
  forLtChecked 0 g.xCellCount (fun i g => do
    let g ← g.writeV i 0 0
    let g ← g.writeV i 1 0
    let g ← g.writeV i ((g.yCellCount + 1 - 1 : Nat) : Int) 0
    g.writeV i ((g.yCellCount + 1 - 2 : Nat) : Int) 0) g

/-- The function `MACGrid::updateBoundaries`, checked. -/
def updateBoundaries_checked (g : MACGrid F) : Option (MACGrid F) := do
  let g ← updateBoundaries_cellRows_checked g
  let g ← updateBoundaries_cellColumns_checked g
  let g ← updateBoundaries_u_checked g
  updateBoundaries_v_checked g

/-- The per-cell rule `updateFunc` of `MACGrid::updateDistanceField`, checked. -/
def updateDistanceField_updateFunc_checked (sqrt : F → F) (i j di dj : Int) (g : MACGrid F) :
    Option (MACGrid F) := do
  if (← g.cellIsNot i j cellType.FLUID_CELL) then
    let a ← g.readDistanceField (i - di) j
    let b ← g.readDistanceField i (j - dj)
    let initDistance := min a b + 1
    let initDistance :=
      if initDistance > max a b then (a + b + sqrt (2 - (a - b) ^ 2)) / 2 else initDistance
    let current ← g.readDistanceField i j
    g.writeDistanceField i j (min current initDistance)
  else pure g

/-- The seeding part of `MACGrid::updateDistanceField`, checked. -/
def updateDistanceField_seed_checked (g : MACGrid F) : Option (MACGrid F) :=
  let g := { g with distanceField := g.distanceField.fill g.xCellCount g.yCellCount FLT_MAX }
  forLtChecked 1 (g.yCellCount - 1) (fun j g =>
    forLtChecked 1 (g.xCellCount - 1) (fun i g => do
      if (← g.cellIs i j cellType.FLUID_CELL) then g.writeDistanceField i j 0
      else pure g) g) g

/-- The function `MACGrid::updateDistanceField`, checked. -/
def updateDistanceField_checked (fuel : Nat) (sqrt : F → F) (g : MACGrid F) :
    Option (MACGrid F) := do
  let g ← updateDistanceField_seed_checked g
  forLtChecked 0 4
    (fun _ g => sweepCycle_checked fuel (updateDistanceField_updateFunc_checked sqrt) g) g

/-- The per-cell rule `updateFunc` of `MACGrid::sweepU`, checked. -/
def sweepU_updateFunc_checked (i j di dj : Int) (g : MACGrid F) : Option (MACGrid F) := do
  if (← andChecked (g.cellIs i j cellType.EMPTY_CELL)
      (g.cellIs (i - 1) j cellType.EMPTY_CELL)) then
    let here ← g.readDistanceField i j
    let upwindI ← g.readDistanceField (i - di) j
    let distanceDeltaI := here - upwindI
    if distanceDeltaI < 0 then pure g
    else
      let here ← g.readDistanceField i j
      let upwindJ ← g.readDistanceField i (j - dj)
      let distanceDeltaJ := here - upwindJ
      if distanceDeltaJ < 0 then pure g
      else
        let coeff := sweepU_coeff distanceDeltaI distanceDeltaJ
        let a ← g.readU (i - di) j
        let b ← g.readU i (j - dj)
        g.writeU i j (coeff * a + (1 - coeff) * b)
  else pure g

/-- First replication loop of `MACGrid::sweepU`, checked. -/
def sweepU_replicateRows_checked (g : MACGrid F) : Option (MACGrid F) :=
  forLtChecked 0 (g.xCellCount + 1) (fun i g => do
    let a ← g.readU i 1
    let g ← g.writeU i 0 a
    let last : Int := ((g.yCellCount - 1 : Nat) : Int)
    let b ← g.readU i ((g.yCellCount - 2 : Nat) : Int)
    g.writeU i last b) g

/-- Second replication loop of `MACGrid::sweepU`, checked. -/
def sweepU_replicateColumns_checked (g : MACGrid F) : Option (MACGrid F) :=
  forLtChecked 0 g.yCellCount (fun i g => do
    let a ← g.readU 1 i
    let g ← g.writeU 0 i a
    let last : Int := ((g.xCellCount + 1 - 1 : Nat) : Int)
    let b ← g.readU ((g.xCellCount + 1 - 2 : Nat) : Int) i
    g.writeU last i b) g

/-- The function `MACGrid::sweepU`, checked. -/
def sweepU_checked (fuel : Nat) (g : MACGrid F) : Option (MACGrid F) := do
  let g ← forLtChecked 0 4 (fun _ g => sweepCycle_checked fuel sweepU_updateFunc_checked g) g
  let g ← sweepU_replicateRows_checked g
  sweepU_replicateColumns_checked g

/-- The per-cell rule `updateFunc` of `MACGrid::sweepV`, checked. -/
def sweepV_updateFunc_checked (i j di dj : Int) (g : MACGrid F) : Option (MACGrid F) := do
  if (← andChecked (g.cellIs i j cellType.EMPTY_CELL)
      (g.cellIs i (j - 1) cellType.EMPTY_CELL)) then
    let here ← g.readDistanceField i j
    let upwindJ ← g.readDistanceField i (j - dj)
    let distanceDeltaI := here - upwindJ
    if distanceDeltaI < 0 then pure g
    else
      let here ← g.readDistanceField i j
      let upwindI ← g.readDistanceField (i - di) j
      let distanceDeltaJ := here - upwindI
      if distanceDeltaJ < 0 then pure g
      else
        let coeff := sweepV_coeff distanceDeltaI distanceDeltaJ
        let a ← g.readV (i - di) j
        let b ← g.readV i (j - dj)
        g.writeV i j (coeff * a + (1 - coeff) * b)
  else pure g

/-- First replication loop of `MACGrid::sweepV`, checked. -/
def sweepV_replicateRows_checked (g : MACGrid F) : Option (MACGrid F) :=
  forLtChecked 0 g.xCellCount (fun i g => do
    let a ← g.readV i 1
    let g ← g.writeV i 0 a
    let last : Int := ((g.yCellCount + 1 - 1 : Nat) : Int)
    let b ← g.readV i ((g.yCellCount + 1 - 2 : Nat) : Int)
    g.writeV i last b) g

/-- Second replication loop of `MACGrid::sweepV`, checked. -/
def sweepV_replicateColumns_checked (g : MACGrid F) : Option (MACGrid F) :=
  forLtChecked 0 (g.yCellCount + 1) (fun i g => do
    let a ← g.readV 1 i
    let g ← g.writeV 0 i a
    let last : Int := ((g.xCellCount - 1 : Nat) : Int)
    let b ← g.readV ((g.xCellCount - 2 : Nat) : Int) i
    g.writeV last i b) g

/-- The function `MACGrid::sweepV`, checked. -/
def sweepV_checked (fuel : Nat) (g : MACGrid F) : Option (MACGrid F) := do
  let g ← forLtChecked 0 2 (fun _ g => sweepCycle_checked fuel sweepV_updateFunc_checked g) g
  let g ← sweepV_replicateRows_checked g
  sweepV_replicateColumns_checked g

/-- The function `MACGrid::calculateDiv`, checked. -/
def calculateDiv_checked (g : MACGrid F) : Option (MACGrid F) :=
  let g := { g with div := g.div.fill g.xCellCount g.yCellCount 0 }
  forLtChecked 0 g.yCellCount (fun j g =>
    forLtChecked 0 g.xCellCount (fun i g => do
      if (← g.cellIs i j cellType.FLUID_CELL) then
        let right ← g.readU (i + 1) j
        let left ← g.readU i j
        let top ← g.readV i (j + 1)
        let bottom ← g.readV i j
        g.writeDiv i j (right - left + top - bottom)
      else pure g) g) g

/-- One relaxation sweep of `MACGrid::divFreeField`, checked; the potential `q` has the
dimension of `div`. -/
def divFreeField_sweep_checked (g : MACGrid F) (q : grid_2D F) : Option (grid_2D F) :=
  forLtChecked 1 (g.xCellCount - 1) (fun x q =>
    forLtChecked 1 (g.yCellCount - 1) (fun y q => do
      if (← g.cellIs x y cellType.FLUID_CELL) then
        let right ← q.read g.xCellCount g.yCellCount (x + 1) y
        let left ← q.read g.xCellCount g.yCellCount (x - 1) y
        let top ← q.read g.xCellCount g.yCellCount x (y + 1)
        let bottom ← q.read g.xCellCount g.yCellCount x (y - 1)
        let source ← g.readDiv x y
        q.write g.xCellCount g.yCellCount x y ((right + left + top + bottom - source) / 4)
      else pure q) q) q

/-- The relaxation loop of `MACGrid::divFreeField`, with checked sweeps. -/
def divFreeField_relax_checked (sb : BoundaryRules F) (g : MACGrid F) (n : Nat) :
    Option (grid_2D F) :=
  let q : grid_2D F := fun _ _ => 0
  let q := q.fill g.xCellCount g.yCellCount 0
  let q := sb.potential g.xCellCount g.yCellCount q
  forLtChecked 0 n (fun _ q => do
    let q ← divFreeField_sweep_checked g q
    pure (sb.potential g.xCellCount g.yCellCount q)) q

/-- The gradient correction of `u` in `MACGrid::divFreeField`, checked. -/
def divFreeField_correctU_checked (q : grid_2D F) (g : MACGrid F) : Option (MACGrid F) :=
  forLtChecked 2 (g.xCellCount + 1 - 2) (fun x g =>
    forLtChecked 1 (g.yCellCount - 1) (fun y g => do
      if (← orChecked
          (andChecked (g.cellIs x y cellType.FLUID_CELL)
            (g.cellIsNot (x - 1) y cellType.SOLID_CELL))
          (andChecked (g.cellIs (x - 1) y cellType.FLUID_CELL)
            (g.cellIsNot x y cellType.SOLID_CELL))) then
        let old ← g.readU x y
        let here ← q.read g.xCellCount g.yCellCount x y
        let back ← q.read g.xCellCount g.yCellCount (x - 1) y
        g.writeU x y (old - (here - back))
      else pure g) g) g

/-- The gradient correction of `v` in `MACGrid::divFreeField`, checked. -/
def divFreeField_correctV_checked (q : grid_2D F) (g : MACGrid F) : Option (MACGrid F) :=
  forLtChecked 1 (g.xCellCount - 1) (fun x g =>
    forLtChecked 2 (g.yCellCount + 1 - 2) (fun y g => do
      if (← orChecked
          (andChecked (g.cellIs x y cellType.FLUID_CELL)
            (g.cellIsNot x (y - 1) cellType.SOLID_CELL))
          (andChecked (g.cellIsNot x y cellType.SOLID_CELL)
            (g.cellIs x (y - 1) cellType.FLUID_CELL))) then
        let old ← g.readV x y
        let here ← q.read g.xCellCount g.yCellCount x y
        let back ← q.read g.xCellCount g.yCellCount x (y - 1)
        g.writeV x y (old - (here - back))
      else pure g) g) g

/-- The function `MACGrid::divFreeField`, with every access of its own loops checked;
`set_boundary` stays the parameter `sb`. -/
def divFreeField_checked (sb : BoundaryRules F) (g : MACGrid F) : Option (MACGrid F) := do
  let g ← calculateDiv_checked g
  let q ← divFreeField_relax_checked sb g 50
  let g ← divFreeField_correctU_checked q g
  let g ← divFreeField_correctV_checked q g
  let g := { g with u := sb.velocityU (g.xCellCount + 1) g.yCellCount g.u }
  pure { g with v := sb.velocityV g.xCellCount (g.yCellCount + 1) g.v }

/-! ## Sampling coordinates in `float` arithmetic

The same function with the two rounded operations of the source made explicit: the
quotient `x / cellSize` and the difference `cellsCoord - std::floor(cellsCoord)` are `float`
operations, each the exact result rounded by `rnd`; `std::floor` and the conversions of an
in-range value are exact. -/

/-- The conversion `static_cast<int>(x)` of a `float` as the compiled code performs it on
x86-64 (`cvttss2si`): the truncated value, and `INT_MIN = -2^31` when the truncated value
does not fit in a 32-bit `int`, a case the C++ standard leaves undefined. -/
def floatToInt_x86 [FloorRing F] (x : F) : Int :=
  if -2147483648 ≤ truncate x ∧ truncate x ≤ 2147483647 then truncate x else -2147483648

/-- The common body of `barycentricOnX` and `barycentricOnY` in `float` arithmetic, for an
axis of `cellCount` cells; `rnd` rounds an exact result to a `float`. -/
def barycentricOnAxis_float [FloorRing F] (rnd : F → F) (cellCount : Nat) (cellSize x : F) :
    barycentricCoords F :=
  let cellsCoord := rnd (x / cellSize)
  let cellIndex := floatToInt_x86 cellsCoord
  if cellIndex < 0 then ⟨0, 0⟩
  else if cellIndex > ((cellCount - 2 : Nat) : Int) then ⟨cellCount - 2, 1⟩
  else ⟨(truncate cellsCoord).toNat, rnd (cellsCoord - (⌊cellsCoord⌋ : Int))⟩

/-- The function `MACGrid::barycentricOnY` in `float` arithmetic. -/
def barycentricOnY_float [FloorRing F] (rnd : F → F) (g : MACGrid F) (y : F) :
    barycentricCoords F :=
  barycentricOnAxis_float rnd g.yCellCount g.cellSize y

/-- The function `MACGrid::barycentricOnX` in `float` arithmetic. -/
def barycentricOnX_float [FloorRing F] (rnd : F → F) (g : MACGrid F) (x : F) :
    barycentricCoords F :=
  barycentricOnAxis_float rnd g.xCellCount g.cellSize x

/-- Rounding of a rational to the nearest `float` (IEEE 754 single precision: 24-bit
significand, ties to even); overflow and subnormal numbers are not modelled. -/
def roundFloat (q : ℚ) : ℚ :=
  if q = 0 then 0
  else
    let ulp : ℚ := 2 ^ (Int.log 2 |q| - 23)
    let m : ℚ := q / ulp
    let f : Int := ⌊m⌋
    let n : Int :=
      if m - f < 1 / 2 then f
      else if 1 / 2 < m - f then f + 1
      else if f % 2 = 0 then f else f + 1
    n * ulp

/-- An 8 × 8 grid with `cellSize = 0.003f` (the `float` nearest to 0.003, which is
`6442451 / 2^31`), every cell `EMPTY_CELL`, all fields 0. -/
def fineGrid : MACGrid ℚ where
  xCellCount := 8
  yCellCount := 8
  cellSize := 6442451 / 2147483648
  u := fun _ _ => 0
  du := fun _ _ => 0
  v := fun _ _ => 0
  dv := fun _ _ => 0
  cellTypes := fun _ _ => cellType.EMPTY_CELL
  distanceField := fun _ _ => 0
  div := fun _ _ => 0

/-! ## Loop reasoning -/

/-- Loop invariant rule for `loopN`, with the iteration count in the invariant. -/
theorem loopN_induction {σ : Type} (P : Nat → σ → Prop) (body : Int → σ → σ) (d : Int) :
    ∀ (n : Nat) (k : Int) (s : σ), P 0 s →
      (∀ m s, m < n → P m s → P (m + 1) (body (k + m * d) s)) →
      P n (loopN n k d body s) := by
  intro n
  induction n generalizing P with
  | zero => intro k s h0 _; exact h0
  | succ n ih =>
    intro k s h0 hstep
    show P (n + 1) (loopN n (k + d) d body (body k s))
    refine ih (fun m s => P (m + 1) s) (k + d) (body k s) ?_ ?_
    · have := hstep 0 s (Nat.succ_pos n) h0
      simpa using this
    · intro m s hm hP
      have := hstep (m + 1) s (Nat.succ_lt_succ hm) hP
      have e : k + d + (m : Int) * d = k + ((m + 1 : Nat) : Int) * d := by push_cast; ring
      rw [e]; exact this

/-- Loop invariant rule for `for (i = lo; i < hi; i++)`. -/
theorem forLt_induction {σ : Type} (P : Int → σ → Prop) (body : Int → σ → σ)
    (lo hi : Nat) (hle : lo ≤ hi) (s : σ) (h0 : P lo s)
    (hstep : ∀ (i : Int) s, (lo : Int) ≤ i → i < hi → P i s → P (i + 1) (body i s)) :
    P hi (forLt lo hi body s) := by
  have h := loopN_induction (fun m s => P ((lo : Int) + m) s) body 1 (hi - lo) lo s
    (by simpa using h0)
    (by
      intro m s hm hP
      have := hstep ((lo : Int) + m) s (by omega) (by omega) hP
      simpa [add_assoc] using this)
  have e : (lo : Int) + ((hi - lo : Nat) : Int) = hi := by omega
  simpa [forLt, e] using h

/-- An invariant kept by every iteration is kept by the `for (i = lo; i < hi; i++)` loop. -/
theorem forLt_preserves {σ : Type} (P : σ → Prop) (body : Int → σ → σ)
    (lo hi : Nat) (s : σ) (h0 : P s)
    (hstep : ∀ (i : Int) s, (lo : Int) ≤ i → i < hi → P s → P (body i s)) :
    P (forLt lo hi body s) := by
  have h := loopN_induction (fun _ s => P s) body 1 (hi - lo) lo s h0
    (by
      intro m s hm hP
      exact hstep _ s (by omega) (by omega) hP)
  simpa [forLt] using h

theorem grid_2D.set_apply {α : Type} (g : grid_2D α) (x y : Int) (a : α) (x' y' : Int) :
    g.set x y a x' y' = if x' = x ∧ y' = y then a else g x' y' := rfl

theorem grid_2D.fill_apply {α : Type} (g : grid_2D α) (dimX dimY : Nat) (a : α) (x y : Int) :
    g.fill dimX dimY a x y = if 0 ≤ x ∧ x < dimX ∧ 0 ≤ y ∧ y < dimY then a else g x y := rfl

/-- A loop whose state after `i` is known in closed form. -/
theorem forLt_eq {σ : Type} (S : Int → σ) (body : Int → σ → σ)
    (lo hi : Nat) (hle : lo ≤ hi) (s : σ) (h0 : s = S lo)
    (hstep : ∀ (i : Int), (lo : Int) ≤ i → i < hi → body i (S i) = S (i + 1)) :
    forLt lo hi body s = S hi :=
  forLt_induction (fun i s => s = S i) body lo hi hle s h0
    (fun i s h1 h2 hs => by rw [hs]; exact hstep i h1 h2)

theorem updateBoundaries_cellRows_eq (g : MACGrid F) :
    updateBoundaries_cellRows g =
      { g with cellTypes := fun x y =>
          if 0 ≤ x ∧ x < g.xCellCount ∧ (y = 0 ∨ y = ((g.yCellCount - 1 : Nat) : Int))
          then cellType.SOLID_CELL else g.cellTypes x y } := by
  refine forLt_eq (fun k => { g with cellTypes := fun x y =>
      if 0 ≤ x ∧ x < k ∧ (y = 0 ∨ y = ((g.yCellCount - 1 : Nat) : Int))
      then cellType.SOLID_CELL else g.cellTypes x y }) _ 0 _ (Nat.zero_le _) g ?_ ?_
  · cases g; simp only [MACGrid.mk.injEq, true_and, and_true]
    funext x y
    split_ifs <;> first | rfl | (exfalso; omega)
  · intro i h0 h1
    simp only [MACGrid.mk.injEq, true_and, and_true]
    funext x y
    simp only [grid_2D.set_apply]
    split_ifs <;> first | rfl | (exfalso; omega)

theorem updateBoundaries_cellColumns_eq (g : MACGrid F) :
    updateBoundaries_cellColumns g =
      { g with cellTypes := fun x y =>
          if 0 ≤ y ∧ y < g.yCellCount ∧ (x = 0 ∨ x = ((g.xCellCount - 1 : Nat) : Int))
          then cellType.SOLID_CELL else g.cellTypes x y } := by
  refine forLt_eq (fun k => { g with cellTypes := fun x y =>
      if 0 ≤ y ∧ y < k ∧ (x = 0 ∨ x = ((g.xCellCount - 1 : Nat) : Int))
      then cellType.SOLID_CELL else g.cellTypes x y }) _ 0 _ (Nat.zero_le _) g ?_ ?_
  · cases g; simp only [MACGrid.mk.injEq, true_and, and_true]
    funext x y
    split_ifs <;> first | rfl | (exfalso; omega)
  · intro i h0 h1
    simp only [MACGrid.mk.injEq, true_and, and_true]
    funext x y
    simp only [grid_2D.set_apply]
    split_ifs <;> first | rfl | (exfalso; omega)

theorem updateBoundaries_u_eq (g : MACGrid F) :
    updateBoundaries_u g =
      { g with u := fun x y =>
          if 0 ≤ y ∧ y < g.yCellCount ∧
              (x = 0 ∨ x = 1 ∨ x = ((g.xCellCount + 1 - 1 : Nat) : Int) ∨
                x = ((g.xCellCount + 1 - 2 : Nat) : Int))
          then 0 else g.u x y } := by
  refine forLt_eq (fun k =>
    { g with
      u := fun x y =>
        if 0 ≤ y ∧ y < k ∧
            (x = 0 ∨ x = 1 ∨ x = ((g.xCellCount + 1 - 1 : Nat) : Int) ∨
              x = ((g.xCellCount + 1 - 2 : Nat) : Int))
        then 0 else g.u x y }) _ 0 _ (Nat.zero_le _) g ?_ ?_
  · cases g; simp only [MACGrid.mk.injEq, true_and, and_true]
    funext x y
    split_ifs <;> first | rfl | (exfalso; omega)
  · intro i h0 h1
    simp only [MACGrid.mk.injEq, true_and, and_true]
    funext x y
    simp only [grid_2D.set_apply]
    split_ifs <;> first | rfl | (exfalso; omega)

theorem updateBoundaries_v_eq (g : MACGrid F) :
    updateBoundaries_v g =
      { g with v := fun x y =>
          if 0 ≤ x ∧ x < g.xCellCount ∧
              (y = 0 ∨ y = 1 ∨ y = ((g.yCellCount + 1 - 1 : Nat) : Int) ∨
                y = ((g.yCellCount + 1 - 2 : Nat) : Int))
          then 0 else g.v x y } := by
  refine forLt_eq (fun k =>
    { g with
      v := fun x y =>
        if 0 ≤ x ∧ x < k ∧
            (y = 0 ∨ y = 1 ∨ y = ((g.yCellCount + 1 - 1 : Nat) : Int) ∨
              y = ((g.yCellCount + 1 - 2 : Nat) : Int))
        then 0 else g.v x y }) _ 0 _ (Nat.zero_le _) g ?_ ?_
  · cases g; simp only [MACGrid.mk.injEq, true_and, and_true]
    funext x y
    split_ifs <;> first | rfl | (exfalso; omega)
  · intro i h0 h1
    simp only [MACGrid.mk.injEq, true_and, and_true]
    funext x y
    simp only [grid_2D.set_apply]
    split_ifs <;> first | rfl | (exfalso; omega)

/-- The state after `updateBoundaries`, in closed form. -/
theorem updateBoundaries_eq (g : MACGrid F) :
    updateBoundaries g =
      { g with
        cellTypes := fun x y =>
          if 0 ≤ y ∧ y < g.yCellCount ∧ (x = 0 ∨ x = ((g.xCellCount - 1 : Nat) : Int))
          then cellType.SOLID_CELL
          else if 0 ≤ x ∧ x < g.xCellCount ∧ (y = 0 ∨ y = ((g.yCellCount - 1 : Nat) : Int))
          then cellType.SOLID_CELL else g.cellTypes x y
        u := fun x y =>
          if 0 ≤ y ∧ y < g.yCellCount ∧
              (x = 0 ∨ x = 1 ∨ x = ((g.xCellCount + 1 - 1 : Nat) : Int) ∨
                x = ((g.xCellCount + 1 - 2 : Nat) : Int))
          then 0 else g.u x y
        v := fun x y =>
          if 0 ≤ x ∧ x < g.xCellCount ∧
              (y = 0 ∨ y = 1 ∨ y = ((g.yCellCount + 1 - 1 : Nat) : Int) ∨
                y = ((g.yCellCount + 1 - 2 : Nat) : Int))
          then 0 else g.v x y } := by
  unfold updateBoundaries
  simp only [updateBoundaries_cellRows_eq, updateBoundaries_cellColumns_eq,
    updateBoundaries_u_eq, updateBoundaries_v_eq]

/-- After `updateBoundaries` on a grid with at least two cells per axis, every cell of the
outer ring is a `SOLID_CELL`. -/
theorem updateBoundaries_ring (g : MACGrid F)
    (hx : 2 ≤ g.xCellCount) (hy : 2 ≤ g.yCellCount) (i j : Int) (hr : outerRing g i j) :
    (updateBoundaries g).cellTypes i j = cellType.SOLID_CELL := by
  rw [updateBoundaries_eq]
  obtain ⟨⟨h1, h2, h3, h4⟩, h5⟩ := hr
  simp only
  split_ifs <;> first | rfl | (exfalso; omega)

/-- C1. After `updateBoundaries` on a grid with `xCellCount ≥ 2` and `yCellCount ≥ 2`, every
cell of the outer ring is `SOLID_CELL`, `u(i, j) = 0` for `i ∈ {0, 1, nx - 1, nx}` and every
row `j`, and `v(i, j) = 0` for `j ∈ {0, 1, ny - 1, ny}` and every column `i`. -/
theorem updateBoundaries_ring_solid_band_zero (g : MACGrid F)
    (hx : 2 ≤ g.xCellCount) (hy : 2 ≤ g.yCellCount) :
    (∀ i j : Int, outerRing g i j → (updateBoundaries g).cellTypes i j = cellType.SOLID_CELL) ∧
    (∀ i j : Int, 0 ≤ j → j < g.yCellCount →
      (i = 0 ∨ i = 1 ∨ i = (g.xCellCount : Int) - 1 ∨ i = g.xCellCount) →
      (updateBoundaries g).u i j = 0) ∧
    (∀ i j : Int, 0 ≤ i → i < g.xCellCount →
      (j = 0 ∨ j = 1 ∨ j = (g.yCellCount : Int) - 1 ∨ j = g.yCellCount) →
      (updateBoundaries g).v i j = 0) := by
  refine ⟨fun i j hr => updateBoundaries_ring g hx hy i j hr, ?_, ?_⟩
  · rw [updateBoundaries_eq]
    intro i j h1 h2 h3
    simp only
    split_ifs <;> first | rfl | (exfalso; omega)
  · rw [updateBoundaries_eq]
    intro i j h1 h2 h3
    simp only
    split_ifs <;> first | rfl | (exfalso; omega)

/-- An invariant kept by every call of the per-cell rule is kept by `performSweep`. -/
theorem performSweep_preserves {σ : Type} (P : σ → Prop)
    (function : Int → Int → Int → Int → σ → σ) (fromX toX fromY toY : Int) (s : σ) (h0 : P s)
    (hstep : ∀ i j di dj s, sweepVisits fromX toX i di → sweepVisits fromY toY j dj →
      P s → P (function i j di dj s)) :
    P (performSweep fromX toX fromY toY function s) := by
  unfold performSweep
  refine loopN_induction (fun _ s => P s) _ _ _ _ s h0 ?_
  intro m s hm hs
  refine loopN_induction (fun _ s => P s) _ _ _ _ s hs ?_
  intro m' s hm' hs
  refine hstep _ _ _ _ s ?_ ?_ hs
  · unfold sweepVisits
    by_cases h : fromX ≤ toX
    · left; rw [if_pos h]; exact ⟨h, rfl, by omega, by omega⟩
    · right; rw [if_neg h]; exact ⟨by omega, rfl, by omega, by omega⟩
  · unfold sweepVisits
    by_cases h : fromY ≤ toY
    · left; rw [if_pos h]; exact ⟨h, rfl, by omega, by omega⟩
    · right; rw [if_neg h]; exact ⟨by omega, rfl, by omega, by omega⟩

/-- An invariant that fixes the cell counts and is kept by every call of the per-cell
rule at a visited cell is kept by a whole sweep cycle. -/
theorem sweepCycle_preserves (P : MACGrid F → Prop)
    (function : Int → Int → Int → Int → MACGrid F → MACGrid F) (nx ny : Nat)
    (hx : 2 ≤ nx) (hy : 2 ≤ ny) (g : MACGrid F) (h0 : P g)
    (hcount : ∀ s, P s → s.xCellCount = nx ∧ s.yCellCount = ny)
    (hstep : ∀ i j di dj s, cycleVisits nx ny i j di dj → P s → P (function i j di dj s)) :
    P (sweepCycle function g) := by
  unfold sweepCycle
  have step : ∀ (fromX toX fromY toY : Int) (s : MACGrid F),
      (∀ i j di dj, sweepVisits fromX toX i di → sweepVisits fromY toY j dj →
        cycleVisits nx ny i j di dj) →
      P s → P (performSweep fromX toX fromY toY function s) := by
    intro fromX toX fromY toY s hv hs
    exact performSweep_preserves P function _ _ _ _ s hs
      (fun i j di dj s h1 h2 hs => hstep i j di dj s (hv i j di dj h1 h2) hs)
  have pass1 : ∀ s, P s → P (performSweep 1 s.xCellCount 1 s.yCellCount function s) := by
    intro s hs
    obtain ⟨e1, e2⟩ := hcount s hs
    refine step _ _ _ _ s ?_ hs
    intro i j di dj a b
    unfold sweepVisits at a b; unfold cycleVisits; omega
  have pass2 : ∀ s, P s →
      P (performSweep 1 s.xCellCount ((s.yCellCount - 2 : Nat) : Int) 0 function s) := by
    intro s hs
    obtain ⟨e1, e2⟩ := hcount s hs
    refine step _ _ _ _ s ?_ hs
    intro i j di dj a b
    unfold sweepVisits at a b; unfold cycleVisits; omega
  have pass3 : ∀ s, P s →
      P (performSweep ((s.xCellCount - 2 : Nat) : Int) 0 1 s.yCellCount function s) := by
    intro s hs
    obtain ⟨e1, e2⟩ := hcount s hs
    refine step _ _ _ _ s ?_ hs
    intro i j di dj a b
    unfold sweepVisits at a b; unfold cycleVisits; omega
  have pass4 : ∀ s, P s →
      P (performSweep ((s.xCellCount - 2 : Nat) : Int) 0 ((s.yCellCount - 2 : Nat) : Int) 0
        function s) := by
    intro s hs
    obtain ⟨e1, e2⟩ := hcount s hs
    refine step _ _ _ _ s ?_ hs
    intro i j di dj a b
    unfold sweepVisits at a b; unfold cycleVisits; omega
  exact pass4 _ (pass3 _ (pass2 _ (pass1 g h0)))

/-! ## Frame rules: what each stage leaves alone

An observation `obs` of the state that does not depend on the fields a stage writes has
the same value before and after the stage. -/

theorem forLt_obs {σ β : Type} (obs : σ → β) (body : Int → σ → σ) (lo hi : Nat) (s : σ)
    (hstep : ∀ i s, obs (body i s) = obs s) : obs (forLt lo hi body s) = obs s :=
  forLt_preserves (fun t => obs t = obs s) body lo hi s rfl
    (fun i t _ _ ht => (hstep i t).trans ht)

theorem performSweep_obs {σ β : Type} (obs : σ → β)
    (function : Int → Int → Int → Int → σ → σ) (fromX toX fromY toY : Int) (s : σ)
    (hstep : ∀ i j di dj s, obs (function i j di dj s) = obs s) :
    obs (performSweep fromX toX fromY toY function s) = obs s :=
  performSweep_preserves (fun t => obs t = obs s) function _ _ _ _ s rfl
    (fun i j di dj t _ _ ht => (hstep i j di dj t).trans ht)

theorem sweepCycle_obs {β : Type} (obs : MACGrid F → β)
    (function : Int → Int → Int → Int → MACGrid F → MACGrid F) (g : MACGrid F)
    (hstep : ∀ i j di dj s, obs (function i j di dj s) = obs s) :
    obs (sweepCycle function g) = obs g := by
  unfold sweepCycle
  simp only [performSweep_obs obs function _ _ _ _ _ hstep]

theorem updateDistanceField_updateFunc_obs {β : Type} (obs : MACGrid F → β)
    (hd : ∀ s w, obs { s with distanceField := w } = obs s)
    (sqrt : F → F) (i j di dj : Int) (s : MACGrid F) :
    obs (updateDistanceField_updateFunc sqrt i j di dj s) = obs s := by
  unfold updateDistanceField_updateFunc
  split_ifs
  · exact hd _ _
  · rfl

theorem updateDistanceField_seed_obs {β : Type} (obs : MACGrid F → β)
    (hd : ∀ s w, obs { s with distanceField := w } = obs s) (g : MACGrid F) :
    obs (updateDistanceField_seed g) = obs g := by
  unfold updateDistanceField_seed
  refine (forLt_obs obs _ _ _ _ ?_).trans (hd _ _)
  intro j s
  refine forLt_obs obs _ _ _ _ ?_
  intro i s
  split_ifs
  · exact hd _ _
  · rfl

theorem updateDistanceField_obs {β : Type} (obs : MACGrid F → β)
    (hd : ∀ s w, obs { s with distanceField := w } = obs s) (sqrt : F → F) (g : MACGrid F) :
    obs (updateDistanceField sqrt g) = obs g := by
  unfold updateDistanceField
  refine (forLt_obs obs _ _ _ _ ?_).trans (updateDistanceField_seed_obs obs hd g)
  intro _ s
  exact sweepCycle_obs obs _ s (updateDistanceField_updateFunc_obs obs hd sqrt)

theorem sweepU_updateFunc_obs {β : Type} (obs : MACGrid F → β)
    (hu : ∀ s w, obs { s with u := w } = obs s) (i j di dj : Int) (s : MACGrid F) :
    obs (sweepU_updateFunc i j di dj s) = obs s := by
  unfold sweepU_updateFunc
  simp only
  split_ifs
  · rfl
  · rfl
  · exact hu _ _
  · rfl

theorem sweepV_updateFunc_obs {β : Type} (obs : MACGrid F → β)
    (hv : ∀ s w, obs { s with v := w } = obs s) (i j di dj : Int) (s : MACGrid F) :
    obs (sweepV_updateFunc i j di dj s) = obs s := by
  unfold sweepV_updateFunc
  simp only
  split_ifs
  · rfl
  · rfl
  · exact hv _ _
  · rfl

theorem sweepU_obs {β : Type} (obs : MACGrid F → β)
    (hu : ∀ s w, obs { s with u := w } = obs s) (g : MACGrid F) :
    obs (sweepU g) = obs g := by
  unfold sweepU sweepU_replicateColumns sweepU_replicateRows
  refine (forLt_obs obs _ _ _ _ ?_).trans ((forLt_obs obs _ _ _ _ ?_).trans
    (forLt_obs obs _ _ _ _ ?_))
  · intro i s; exact (hu _ _).trans (hu _ _)
  · intro i s; exact (hu _ _).trans (hu _ _)
  · intro _ s; exact sweepCycle_obs obs _ s (sweepU_updateFunc_obs obs hu)

theorem sweepV_obs {β : Type} (obs : MACGrid F → β)
    (hv : ∀ s w, obs { s with v := w } = obs s) (g : MACGrid F) :
    obs (sweepV g) = obs g := by
  unfold sweepV sweepV_replicateColumns sweepV_replicateRows
  refine (forLt_obs obs _ _ _ _ ?_).trans ((forLt_obs obs _ _ _ _ ?_).trans
    (forLt_obs obs _ _ _ _ ?_))
  · intro i s; exact (hv _ _).trans (hv _ _)
  · intro i s; exact (hv _ _).trans (hv _ _)
  · intro _ s; exact sweepCycle_obs obs _ s (sweepV_updateFunc_obs obs hv)

theorem interpolateVelocities_obs {β : Type} (obs : MACGrid F → β)
    (hu : ∀ s w, obs { s with u := w } = obs s) (hv : ∀ s w, obs { s with v := w } = obs s)
    (g : MACGrid F) : obs (interpolateVelocities g) = obs g :=
  (sweepV_obs obs hv _).trans (sweepU_obs obs hu g)

theorem updateBoundaries_obs {β : Type} (obs : MACGrid F → β)
    (hc : ∀ s w, obs { s with cellTypes := w } = obs s)
    (hu : ∀ s w, obs { s with u := w } = obs s) (hv : ∀ s w, obs { s with v := w } = obs s)
    (g : MACGrid F) : obs (updateBoundaries g) = obs g := by
  unfold updateBoundaries
  rw [updateBoundaries_v_eq, hv, updateBoundaries_u_eq, hu, updateBoundaries_cellColumns_eq, hc,
    updateBoundaries_cellRows_eq, hc]

theorem calculateDiv_obs {β : Type} (obs : MACGrid F → β)
    (hd : ∀ s w, obs { s with div := w } = obs s) (g : MACGrid F) :
    obs (calculateDiv g) = obs g := by
  unfold calculateDiv
  refine (forLt_obs obs _ _ _ _ ?_).trans (hd _ _)
  intro j s
  refine forLt_obs obs _ _ _ _ ?_
  intro i s
  split_ifs
  · exact hd _ _
  · rfl

theorem divFreeField_correctU_obs {β : Type} (obs : MACGrid F → β)
    (hu : ∀ s w, obs { s with u := w } = obs s) (q : grid_2D F) (g : MACGrid F) :
    obs (divFreeField_correctU q g) = obs g := by
  unfold divFreeField_correctU
  refine forLt_obs obs _ _ _ _ ?_
  intro x s
  refine forLt_obs obs _ _ _ _ ?_
  intro y s
  split_ifs
  · exact hu _ _
  · rfl

theorem divFreeField_correctV_obs {β : Type} (obs : MACGrid F → β)
    (hv : ∀ s w, obs { s with v := w } = obs s) (q : grid_2D F) (g : MACGrid F) :
    obs (divFreeField_correctV q g) = obs g := by
  unfold divFreeField_correctV
  refine forLt_obs obs _ _ _ _ ?_
  intro x s
  refine forLt_obs obs _ _ _ _ ?_
  intro y s
  split_ifs
  · exact hv _ _
  · rfl

theorem divFreeField_obs {β : Type} (obs : MACGrid F → β)
    (hd : ∀ s w, obs { s with div := w } = obs s)
    (hu : ∀ s w, obs { s with u := w } = obs s) (hv : ∀ s w, obs { s with v := w } = obs s)
    (sb : BoundaryRules F) (g : MACGrid F) : obs (divFreeField sb g) = obs g := by
  exact (hv _ _).trans ((hu _ _).trans ((divFreeField_correctV_obs obs hv _ _).trans
    ((divFreeField_correctU_obs obs hu _ _).trans (calculateDiv_obs obs hd g))))

theorem updateExternalForces_obs {β : Type} (obs : MACGrid F → β)
    (hv : ∀ s w, obs { s with v := w } = obs s) (dt : F) (g : MACGrid F) :
    obs (updateExternalForces dt g) = obs g := hv _ _

/-- The stages of `update` between the snapshot and `updateVelocities` leave alone whatever
does not depend on `u`, `v`, `cellTypes`, `distanceField`, `div`. -/
theorem update_stages_obs {β : Type} (obs : MACGrid F → β)
    (hu : ∀ s w, obs { s with u := w } = obs s) (hv : ∀ s w, obs { s with v := w } = obs s)
    (hc : ∀ s w, obs { s with cellTypes := w } = obs s)
    (hd : ∀ s w, obs { s with distanceField := w } = obs s)
    (hdiv : ∀ s w, obs { s with div := w } = obs s)
    (sb : BoundaryRules F) (sqrt : F → F) (dt : F) (g : MACGrid F) :
    obs (update_stages sb sqrt dt g) = obs (saveFlipVelocities g) := by
  exact (interpolateVelocities_obs obs hu hv _).trans ((divFreeField_obs obs hdiv hu hv sb _).trans
    ((updateBoundaries_obs obs hc hu hv _).trans ((interpolateVelocities_obs obs hu hv _).trans
      ((updateDistanceField_obs obs hd sqrt _).trans (updateExternalForces_obs obs hv dt _)))))

theorem updateVelocities_du (s : MACGrid F) (i j : Int) :
    (updateVelocities s).du i j = s.u i j - s.du i j := rfl

theorem updateVelocities_dv (s : MACGrid F) (i j : Int) :
    (updateVelocities s).dv i j = s.v i j - s.dv i j := rfl

theorem updateVelocities_u (s : MACGrid F) : (updateVelocities s).u = s.u := rfl

theorem updateVelocities_v (s : MACGrid F) : (updateVelocities s).v = s.v := rfl

/-- C7. On a grid with at least two cells per axis (where the loops of the model are the
loops of the program), after `update(dt)`, `du(i, j)` is the final `u(i, j)` minus `u(i, j)`
at entry and `dv(i, j)` is the final `v(i, j)` minus `v(i, j)` at entry, at every face; the
snapshot taken by `saveFlipVelocities` is still in `du`, `dv` when `updateVelocities` runs,
and none of the stages in between changes `du` or `dv`. -/
theorem update_du_dv_delta (sb : BoundaryRules F) (sqrt : F → F) (dt : F) (g : MACGrid F)
    (_ : 2 ≤ g.xCellCount) (_ : 2 ≤ g.yCellCount) :
    (∀ i j : Int, (update sb sqrt dt g).du i j = (update sb sqrt dt g).u i j - g.u i j) ∧
    (∀ i j : Int, (update sb sqrt dt g).dv i j = (update sb sqrt dt g).v i j - g.v i j) ∧
    (update_stages sb sqrt dt g).du = g.u ∧ (update_stages sb sqrt dt g).dv = g.v ∧
    (∀ s : MACGrid F, 2 ≤ s.xCellCount → 2 ≤ s.yCellCount →
      ((updateExternalForces dt s).du = s.du ∧ (updateExternalForces dt s).dv = s.dv) ∧
      ((updateDistanceField sqrt s).du = s.du ∧ (updateDistanceField sqrt s).dv = s.dv) ∧
      ((interpolateVelocities s).du = s.du ∧ (interpolateVelocities s).dv = s.dv) ∧
      ((updateBoundaries s).du = s.du ∧ (updateBoundaries s).dv = s.dv) ∧
      ((divFreeField sb s).du = s.du ∧ (divFreeField sb s).dv = s.dv)) := by
  have hdu : (update_stages sb sqrt dt g).du = g.u :=
    update_stages_obs (fun s => s.du) (fun _ _ => rfl) (fun _ _ => rfl) (fun _ _ => rfl)
      (fun _ _ => rfl) (fun _ _ => rfl) sb sqrt dt g
  have hdv : (update_stages sb sqrt dt g).dv = g.v :=
    update_stages_obs (fun s => s.dv) (fun _ _ => rfl) (fun _ _ => rfl) (fun _ _ => rfl)
      (fun _ _ => rfl) (fun _ _ => rfl) sb sqrt dt g
  refine ⟨?_, ?_, hdu, hdv, ?_⟩
  · intro i j
    unfold update
    rw [updateVelocities_du, updateVelocities_u, hdu]
  · intro i j
    unfold update
    rw [updateVelocities_dv, updateVelocities_v, hdv]
  · intro s _ _
    exact ⟨⟨rfl, rfl⟩,
      ⟨updateDistanceField_obs (fun s => s.du) (fun _ _ => rfl) sqrt s,
        updateDistanceField_obs (fun s => s.dv) (fun _ _ => rfl) sqrt s⟩,
      ⟨interpolateVelocities_obs (fun s => s.du) (fun _ _ => rfl) (fun _ _ => rfl) s,
        interpolateVelocities_obs (fun s => s.dv) (fun _ _ => rfl) (fun _ _ => rfl) s⟩,
      ⟨updateBoundaries_obs (fun s => s.du) (fun _ _ => rfl) (fun _ _ => rfl) (fun _ _ => rfl) s,
        updateBoundaries_obs (fun s => s.dv) (fun _ _ => rfl) (fun _ _ => rfl) (fun _ _ => rfl) s⟩,
      ⟨divFreeField_obs (fun s => s.du) (fun _ _ => rfl) (fun _ _ => rfl) (fun _ _ => rfl) sb s,
        divFreeField_obs (fun s => s.dv) (fun _ _ => rfl) (fun _ _ => rfl) (fun _ _ => rfl) sb s⟩⟩

/-- Witness for C7 on the scenario grid (4 × 4) with `dt = 1 / 10`, at the faces `(2, 1)`. -/
theorem update_du_dv_delta_witness :
    (update specBoundary (fun x => x) (1 / 10) (scenarioGrid : MACGrid ℚ)).du 2 1 =
      (update specBoundary (fun x => x) (1 / 10) (scenarioGrid : MACGrid ℚ)).u 2 1 -
        (scenarioGrid : MACGrid ℚ).u 2 1 ∧
    (update specBoundary (fun x => x) (1 / 10) (scenarioGrid : MACGrid ℚ)).dv 2 1 =
      (update specBoundary (fun x => x) (1 / 10) (scenarioGrid : MACGrid ℚ)).v 2 1 -
        (scenarioGrid : MACGrid ℚ).v 2 1 :=
  have h := update_du_dv_delta specBoundary (fun x => x) (1 / 10) (scenarioGrid : MACGrid ℚ)
    (by decide) (by decide)
  ⟨h.1 2 1, h.2.1 2 1⟩

/-! ## The distance field -/

theorem FLT_MAX_pos : (0 : F) < FLT_MAX := by
  unfold FLT_MAX; norm_num

/-- One row of the seeding loop of `updateDistanceField`, in closed form. -/
theorem updateDistanceField_seed_row (s : MACGrid F) (hx : 2 ≤ s.xCellCount) (j : Int) :
    forLt 1 (s.xCellCount - 1) (fun i g =>
      if g.cellTypes i j = cellType.FLUID_CELL then
        { g with distanceField := g.distanceField.set i j 0 }
      else g) s =
    { s with
      distanceField := fun x y =>
        if y = j ∧ 1 ≤ x ∧ x + 1 < s.xCellCount ∧ s.cellTypes x y = cellType.FLUID_CELL then 0
        else s.distanceField x y } := by
  have h := forLt_eq (fun k =>
    { s with
      distanceField := fun x y =>
        if y = j ∧ 1 ≤ x ∧ x < k ∧ s.cellTypes x y = cellType.FLUID_CELL then 0
        else s.distanceField x y }) (fun i g =>
      if g.cellTypes i j = cellType.FLUID_CELL then
        { g with distanceField := g.distanceField.set i j 0 }
      else g) 1 (s.xCellCount - 1) (by omega) s ?_ ?_
  · rw [h]
    simp only [MACGrid.mk.injEq, true_and, and_true]
    funext x y
    refine if_congr ?_ rfl rfl
    constructor
    · rintro ⟨a, b, c, d⟩; exact ⟨a, b, by omega, d⟩
    · rintro ⟨a, b, c, d⟩; exact ⟨a, b, by omega, d⟩
  · cases s; simp only [MACGrid.mk.injEq, true_and, and_true]
    funext x y
    split_ifs with h
    · exfalso; omega
    · rfl
  · intro i h0 h1
    simp only
    by_cases hT : s.cellTypes i j = cellType.FLUID_CELL
    · rw [if_pos hT]
      simp only [MACGrid.mk.injEq, true_and, and_true]
      funext x y
      simp only [grid_2D.set_apply]
      by_cases hxy : x = i ∧ y = j
      · obtain ⟨rfl, rfl⟩ := hxy
        rw [if_pos ⟨rfl, rfl⟩, if_pos ⟨rfl, h0, by omega, hT⟩]
      · rw [if_neg hxy]
        by_cases hc : y = j ∧ 1 ≤ x ∧ x < i ∧ s.cellTypes x y = cellType.FLUID_CELL
        · rw [if_pos hc, if_pos ⟨hc.1, hc.2.1, by omega, hc.2.2.2⟩]
        · rw [if_neg hc, if_neg]
          rintro ⟨a, b, c, d⟩
          exact hc ⟨a, b, by
            rcases lt_or_eq_of_le (show x ≤ i by omega) with h | h
            · exact h
            · exact absurd ⟨h, a⟩ hxy, d⟩
    · rw [if_neg hT]
      simp only [MACGrid.mk.injEq, true_and, and_true]
      funext x y
      by_cases hc : y = j ∧ 1 ≤ x ∧ x < i ∧ s.cellTypes x y = cellType.FLUID_CELL
      · rw [if_pos hc, if_pos ⟨hc.1, hc.2.1, by omega, hc.2.2.2⟩]
      · rw [if_neg hc, if_neg]
        rintro ⟨a, b, c, d⟩
        rcases lt_or_eq_of_le (show x ≤ i by omega) with h | h
        · exact hc ⟨a, b, h, d⟩
        · subst h; subst a; exact hT d

/-- The state after the seeding part of `updateDistanceField`, in closed form: 0 on the
interior `FLUID_CELL`s, `FLT_MAX` on every other cell of the grid. -/
theorem updateDistanceField_seed_eq (g : MACGrid F)
    (hx : 2 ≤ g.xCellCount) (hy : 2 ≤ g.yCellCount) :
    updateDistanceField_seed g =
      { g with
        distanceField := fun x y =>
          if interior g x y ∧ g.cellTypes x y = cellType.FLUID_CELL then 0
          else if inBounds g x y then FLT_MAX else g.distanceField x y } := by
  unfold updateDistanceField_seed
  have h := forLt_eq (fun k =>
    { g with
      distanceField := fun x y =>
        if (1 ≤ y ∧ y < k) ∧ 1 ≤ x ∧ x + 1 < g.xCellCount ∧
            g.cellTypes x y = cellType.FLUID_CELL then 0
        else if inBounds g x y then FLT_MAX else g.distanceField x y })
    (fun j g =>
      forLt 1 (g.xCellCount - 1) (fun i g =>
        if g.cellTypes i j = cellType.FLUID_CELL then
          { g with distanceField := g.distanceField.set i j 0 }
        else g) g) 1 (g.yCellCount - 1) (by omega)
    { g with distanceField := g.distanceField.fill g.xCellCount g.yCellCount FLT_MAX } ?_ ?_
  · simp only at h ⊢
    rw [h]
    simp only [MACGrid.mk.injEq, true_and, and_true]
    funext x y
    refine if_congr ?_ rfl rfl
    unfold interior; constructor
    · rintro ⟨⟨a, b⟩, c, d, e⟩; exact ⟨⟨c, d, a, by omega⟩, e⟩
    · rintro ⟨⟨c, d, a, b⟩, e⟩; exact ⟨⟨a, by omega⟩, c, d, e⟩
  · simp only [MACGrid.mk.injEq, true_and, and_true]
    funext x y
    rw [if_neg (by omega)]
    rfl
  · intro j h0 h1
    have := updateDistanceField_seed_row
      { g with
        distanceField := fun x y =>
          if (1 ≤ y ∧ y < j) ∧ 1 ≤ x ∧ x + 1 < g.xCellCount ∧
              g.cellTypes x y = cellType.FLUID_CELL then 0
          else if inBounds g x y then FLT_MAX else g.distanceField x y } hx j
    simp only at this ⊢
    rw [this]
    simp only [MACGrid.mk.injEq, true_and, and_true]
    funext x y
    by_cases hc : y = j ∧ 1 ≤ x ∧ x + 1 < (g.xCellCount : Int) ∧
        g.cellTypes x y = cellType.FLUID_CELL
    · rw [if_pos hc, if_pos ⟨⟨by omega, by omega⟩, hc.2⟩]
    · rw [if_neg hc]
      by_cases hd : (1 ≤ y ∧ y < j) ∧ 1 ≤ x ∧ x + 1 < (g.xCellCount : Int) ∧
          g.cellTypes x y = cellType.FLUID_CELL
      · rw [if_pos hd, if_pos ⟨⟨hd.1.1, by omega⟩, hd.2⟩]
      · have hn : ¬ ((1 ≤ y ∧ y < j + 1) ∧ 1 ≤ x ∧ x + 1 < (g.xCellCount : Int) ∧
            g.cellTypes x y = cellType.FLUID_CELL) := by
          rintro ⟨⟨a, b⟩, c⟩
          rcases lt_or_eq_of_le (show y ≤ j by omega) with h | h
          · exact hd ⟨⟨a, h⟩, c⟩
          · exact hc ⟨h, c⟩
        rw [if_neg hd, if_neg hn]

/-- The candidate distance of `updateDistanceField`'s rule is positive when both upwind
neighbours are non-negative. -/
theorem candidate_pos (sqrt : F → F) (hsqrt : ∀ x : F, 0 < x → 0 < sqrt x) (a b : F)
    (ha : 0 ≤ a) (hb : 0 ≤ b) :
    0 < (if min a b + 1 > max a b then (a + b + sqrt (2 - (a - b) ^ 2)) / 2
      else min a b + 1) := by
  split_ifs with h
  · have h1 : a - b < 1 := by
      have := le_max_left a b
      have := min_le_right a b
      linarith
    have h2 : b - a < 1 := by
      have := le_max_right a b
      have := min_le_left a b
      linarith
    have h3 : (a - b) ^ 2 < 1 := by nlinarith
    have h4 : 0 < sqrt (2 - (a - b) ^ 2) := hsqrt _ (by linarith)
    have : 0 < a + b + sqrt (2 - (a - b) ^ 2) := by linarith
    exact div_pos this (by norm_num)
  · have : 0 ≤ min a b := le_min ha hb
    linarith

/-- The per-cell rule of `updateDistanceField`, called at a cell that a sweep cycle
visits, keeps the distance field classified. -/
theorem updateDistanceField_updateFunc_keeps (sqrt : F → F)
    (hsqrt : ∀ x : F, 0 < x → 0 < sqrt x) (g : MACGrid F) (i j di dj : Int) (s : MACGrid F)
    (hv : cycleVisits g.xCellCount g.yCellCount i j di dj) (hs : distanceClassified g s) :
    distanceClassified g (updateDistanceField_updateFunc sqrt i j di dj s) := by
  obtain ⟨hf, hd⟩ := hs
  refine ⟨?_, ?_⟩
  · exact (updateDistanceField_updateFunc_obs
      (fun t => t.cellTypes = g.cellTypes ∧ t.xCellCount = g.xCellCount ∧
        t.yCellCount = g.yCellCount) (fun _ _ => rfl) sqrt i j di dj s).mpr hf
  have nonneg : ∀ x y, inBounds g x y → 0 ≤ s.distanceField x y := by
    intro x y hb
    by_cases hT : g.cellTypes x y = cellType.FLUID_CELL
    · by_cases hi : interior g x y
      · exact le_of_eq ((hd x y hb).1 hT |>.1 hi).symm
      · rw [(hd x y hb).1 hT |>.2 hi]; exact le_of_lt FLT_MAX_pos
    · exact le_of_lt ((hd x y hb).2 hT)
  unfold updateDistanceField_updateFunc
  by_cases hT : s.cellTypes i j = cellType.FLUID_CELL
  · rw [if_neg (not_not.mpr hT)]; exact hd
  · rw [if_pos hT]
    simp only [grid_2D.set_apply]
    intro x y hb
    by_cases hxy : x = i ∧ y = j
    · obtain ⟨rfl, rfl⟩ := hxy
      rw [if_pos ⟨rfl, rfl⟩]
      rw [hf.1] at hT
      refine ⟨fun h => absurd h hT, fun _ => ?_⟩
      unfold cycleVisits at hv
      refine lt_min ((hd x y hb).2 hT) (candidate_pos sqrt hsqrt _ _ ?_ ?_)
      · exact nonneg _ _ (by unfold inBounds at hb ⊢; omega)
      · exact nonneg _ _ (by unfold inBounds at hb ⊢; omega)
    · rw [if_neg hxy]; exact hd x y hb

/-- The distance field after `updateDistanceField` on a grid with at least two cells per
axis is classified by the cell types: 0 on the interior `FLUID_CELL`s, the seed `FLT_MAX`
on the `FLUID_CELL`s of the outer ring, positive on every other cell of the grid. -/
theorem updateDistanceField_spec (sqrt : F → F) (hsqrt : ∀ x : F, 0 < x → 0 < sqrt x)
    (g : MACGrid F) (hx : 2 ≤ g.xCellCount) (hy : 2 ≤ g.yCellCount) :
    distanceClassified g (updateDistanceField sqrt g) := by
  unfold updateDistanceField
  refine forLt_preserves (distanceClassified g) _ 0 4 _ ?_ ?_
  · rw [updateDistanceField_seed_eq g hx hy]
    refine ⟨⟨rfl, rfl, rfl⟩, ?_⟩
    intro x y hb
    simp only
    refine ⟨fun hT => ⟨fun hi => ?_, fun hi => ?_⟩, fun hT => ?_⟩
    · rw [if_pos ⟨hi, hT⟩]
    · rw [if_neg (fun h => hi h.1), if_pos hb]
    · rw [if_neg (fun h => hT h.2), if_pos hb]; exact FLT_MAX_pos
  · intro _ s _ _ hs
    refine sweepCycle_preserves _ _ g.xCellCount g.yCellCount hx hy s hs ?_ ?_
    · intro t ht; exact ⟨ht.1.2.1, ht.1.2.2⟩
    · intro i j di dj t hv ht
      exact updateDistanceField_updateFunc_keeps sqrt hsqrt g i j di dj t hv ht

/-- The sweeps of `updateDistanceField` never write a `FLUID_CELL`: its distance is the
one the seeding left. -/
theorem updateDistanceField_fluid_kept (sqrt : F → F) (g : MACGrid F) (x y : Int)
    (hT : g.cellTypes x y = cellType.FLUID_CELL) :
    (updateDistanceField sqrt g).distanceField x y =
      (updateDistanceField_seed g).distanceField x y := by
  have hstep : ∀ (i j di dj : Int) (s : MACGrid F),
      (fun t : MACGrid F => (t.cellTypes, fun a b =>
        if t.cellTypes a b = cellType.FLUID_CELL then t.distanceField a b else 0))
        (updateDistanceField_updateFunc sqrt i j di dj s) =
      (fun t : MACGrid F => (t.cellTypes, fun a b =>
        if t.cellTypes a b = cellType.FLUID_CELL then t.distanceField a b else 0)) s := by
    intro i j di dj s
    unfold updateDistanceField_updateFunc
    by_cases h : s.cellTypes i j = cellType.FLUID_CELL
    · rw [if_neg (not_not.mpr h)]
    · rw [if_pos h]
      simp only [Prod.mk.injEq, true_and]
      funext a b
      by_cases hab : a = i ∧ b = j
      · obtain ⟨rfl, rfl⟩ := hab
        simp only [if_neg h]
      · simp only [grid_2D.set_apply, if_neg hab]
  have h := forLt_obs (fun t : MACGrid F => (t.cellTypes, fun a b =>
        if t.cellTypes a b = cellType.FLUID_CELL then t.distanceField a b else 0))
      (fun _ g => sweepCycle (updateDistanceField_updateFunc sqrt) g) 0 4
      (updateDistanceField_seed g)
      (fun _ s => sweepCycle_obs (fun t : MACGrid F => (t.cellTypes, fun a b =>
        if t.cellTypes a b = cellType.FLUID_CELL then t.distanceField a b else 0)) _ s hstep)
  have hc : (updateDistanceField_seed g).cellTypes = g.cellTypes :=
    updateDistanceField_seed_obs (fun t => t.cellTypes) (fun _ _ => rfl) g
  have e : updateDistanceField sqrt g =
      forLt 0 4 (fun _ g => sweepCycle (updateDistanceField_updateFunc sqrt) g)
        (updateDistanceField_seed g) := rfl
  rw [e]
  generalize forLt 0 4 (fun _ g => sweepCycle (updateDistanceField_updateFunc sqrt) g)
    (updateDistanceField_seed g) = r at h
  simp only [Prod.mk.injEq] at h
  have h2 := congrFun (congrFun h.2 x) y
  simp only [h.1, hc, hT, if_true] at h2
  exact h2

/-- On a grid with at least two cells per axis, an interior `FLUID_CELL` has distance 0
after `updateDistanceField`. -/
theorem updateDistanceField_seeded_zero (sqrt : F → F) (g : MACGrid F)
    (hx : 2 ≤ g.xCellCount) (hy : 2 ≤ g.yCellCount) (i j : Int) (hi : interior g i j)
    (hT : g.cellTypes i j = cellType.FLUID_CELL) :
    (updateDistanceField sqrt g).distanceField i j = 0 := by
  rw [updateDistanceField_fluid_kept sqrt g i j hT, updateDistanceField_seed_eq g hx hy]
  simp only
  rw [if_pos ⟨hi, hT⟩]

/-- C3. On a grid with `xCellCount ≥ 2` and `yCellCount ≥ 2`, every interior `FLUID_CELL`
has distance exactly 0 after `updateDistanceField`, whatever the other cells are; so when
every interior cell is a `FLUID_CELL`, the distance is 0 at every interior cell. -/
theorem updateDistanceField_interior_fluid_zero (sqrt : F → F) (g : MACGrid F)
    (hx : 2 ≤ g.xCellCount) (hy : 2 ≤ g.yCellCount) :
    (∀ i j : Int, interior g i j → g.cellTypes i j = cellType.FLUID_CELL →
      (updateDistanceField sqrt g).distanceField i j = 0) ∧
    ((∀ i j : Int, interior g i j → g.cellTypes i j = cellType.FLUID_CELL) →
      ∀ i j : Int, interior g i j → (updateDistanceField sqrt g).distanceField i j = 0) := by
  exact ⟨fun i j hi hT => updateDistanceField_seeded_zero sqrt g hx hy i j hi hT,
    fun hall i j hi => updateDistanceField_seeded_zero sqrt g hx hy i j hi (hall i j hi)⟩

/-- C3, on the scenario grid with the real square root: the interior `FLUID_CELL` `(1, 1)`
has distance 0. -/
theorem updateDistanceField_interior_fluid_zero_witness :
    (updateDistanceField Real.sqrt (scenarioGrid : MACGrid ℝ)).distanceField 1 1 = 0 :=
  (updateDistanceField_interior_fluid_zero Real.sqrt (scenarioGrid : MACGrid ℝ)
    (by decide) (by decide)).1 1 1 (by decide) (by simp [scenarioGrid])

/-- C2, as stated, fails: on the 3 × 3 grid whose corner `(0, 0)` is a `FLUID_CELL`, the
distance at `(0, 0)` after `updateDistanceField` is not 0. -/
theorem updateDistanceField_zero_iff_fluid_fails :
    ¬ ((updateDistanceField Real.sqrt (cornerFluidGrid : MACGrid ℝ)).distanceField 0 0 = 0 ↔
      (cornerFluidGrid : MACGrid ℝ).cellTypes 0 0 = cellType.FLUID_CELL) := by
  have hT : (cornerFluidGrid : MACGrid ℝ).cellTypes 0 0 = cellType.FLUID_CELL := by
    simp [cornerFluidGrid]
  have h := (updateDistanceField_spec Real.sqrt (fun x hx => Real.sqrt_pos.2 hx)
    (cornerFluidGrid : MACGrid ℝ) (by decide) (by decide)).2 0 0 (by decide)
  have h2 := (h.1 hT).2 (by decide)
  intro hiff
  have h3 := hiff.2 hT
  rw [h2] at h3
  exact absurd h3 (ne_of_gt FLT_MAX_pos)

/-- C2, amended. On a grid with `xCellCount ≥ 2` and `yCellCount ≥ 2`, with a square root
that is positive on positive arguments, after `updateDistanceField` every distance of the
grid is `≥ 0`, it is 0 exactly on the interior `FLUID_CELL`s, every cell that is not a
`FLUID_CELL` has a positive distance, and a `FLUID_CELL` of the outer ring keeps the
seed `FLT_MAX`. -/
theorem updateDistanceField_zero_iff_interior_fluid (sqrt : F → F)
    (hsqrt : ∀ x : F, 0 < x → 0 < sqrt x) (g : MACGrid F)
    (hx : 2 ≤ g.xCellCount) (hy : 2 ≤ g.yCellCount) :
    ∀ i j : Int, inBounds g i j →
      0 ≤ (updateDistanceField sqrt g).distanceField i j ∧
      ((updateDistanceField sqrt g).distanceField i j = 0 ↔
        (g.cellTypes i j = cellType.FLUID_CELL ∧ interior g i j)) ∧
      (g.cellTypes i j ≠ cellType.FLUID_CELL →
        0 < (updateDistanceField sqrt g).distanceField i j) ∧
      (g.cellTypes i j = cellType.FLUID_CELL → ¬ interior g i j →
        (updateDistanceField sqrt g).distanceField i j = FLT_MAX) := by
  intro i j hb
  obtain ⟨hfl, hnf⟩ := (updateDistanceField_spec sqrt hsqrt g hx hy).2 i j hb
  by_cases hT : g.cellTypes i j = cellType.FLUID_CELL
  · by_cases hi : interior g i j
    · have h0 := (hfl hT).1 hi
      exact ⟨le_of_eq h0.symm, ⟨fun _ => ⟨hT, hi⟩, fun _ => h0⟩, fun h => absurd hT h,
        fun _ h => absurd hi h⟩
    · have h0 := (hfl hT).2 hi
      refine ⟨?_, ⟨fun h => ?_, fun h => absurd h.2 hi⟩, fun h => absurd hT h, fun _ _ => h0⟩
      · rw [h0]; exact le_of_lt FLT_MAX_pos
      · rw [h0] at h; exact absurd h (ne_of_gt FLT_MAX_pos)
  · have h0 := hnf hT
    exact ⟨le_of_lt h0, ⟨fun h => absurd h (ne_of_gt h0), fun h => absurd h.1 hT⟩,
      fun _ => h0, fun h => absurd h hT⟩

/-- C2, amended, on the scenario grid with the real square root: the distance at the
interior `FLUID_CELL` `(1, 1)` is 0 and the distance at the empty cell `(2, 2)` is
positive. -/
theorem updateDistanceField_zero_iff_interior_fluid_witness :
    (updateDistanceField Real.sqrt (scenarioGrid : MACGrid ℝ)).distanceField 1 1 = 0 ∧
    0 < (updateDistanceField Real.sqrt (scenarioGrid : MACGrid ℝ)).distanceField 2 2 :=
  ⟨((updateDistanceField_zero_iff_interior_fluid Real.sqrt (fun x hx => Real.sqrt_pos.2 hx)
      (scenarioGrid : MACGrid ℝ) (by decide) (by decide) 1 1 (by decide)).2.1).2
        ⟨by simp [scenarioGrid], by decide⟩,
    (updateDistanceField_zero_iff_interior_fluid Real.sqrt (fun x hx => Real.sqrt_pos.2 hx)
      (scenarioGrid : MACGrid ℝ) (by decide) (by decide) 2 2 (by decide)).2.2.1
        (by simp [scenarioGrid])⟩

/-- C1, on the scenario grid: after `updateBoundaries` the ring cell `(3, 2)` is a
`SOLID_CELL`, and the faces `u(4, 2)`, `u(1, 2)`, `v(2, 4)`, `v(2, 1)` are 0. -/
theorem updateBoundaries_ring_solid_band_zero_witness :
    (updateBoundaries (scenarioGrid : MACGrid ℚ)).cellTypes 3 2 = cellType.SOLID_CELL ∧
    (updateBoundaries (scenarioGrid : MACGrid ℚ)).u 4 2 = 0 ∧
    (updateBoundaries (scenarioGrid : MACGrid ℚ)).u 1 2 = 0 ∧
    (updateBoundaries (scenarioGrid : MACGrid ℚ)).v 2 4 = 0 ∧
    (updateBoundaries (scenarioGrid : MACGrid ℚ)).v 2 1 = 0 :=
  ⟨(updateBoundaries_ring_solid_band_zero (scenarioGrid : MACGrid ℚ) (by decide) (by decide)).1
      3 2 (by decide),
    (updateBoundaries_ring_solid_band_zero (scenarioGrid : MACGrid ℚ) (by decide) (by decide)).2.1
      4 2 (by decide) (by decide) (by decide),
    (updateBoundaries_ring_solid_band_zero (scenarioGrid : MACGrid ℚ) (by decide) (by decide)).2.1
      1 2 (by decide) (by decide) (by decide),
    (updateBoundaries_ring_solid_band_zero (scenarioGrid : MACGrid ℚ) (by decide) (by decide)).2.2
      2 4 (by decide) (by decide) (by decide),
    (updateBoundaries_ring_solid_band_zero (scenarioGrid : MACGrid ℚ) (by decide) (by decide)).2.2
      2 1 (by decide) (by decide) (by decide)⟩

theorem updateVelocities_distanceField (s : MACGrid F) :
    (updateVelocities s).distanceField = s.distanceField := rfl

theorem updateVelocities_cellTypes (s : MACGrid F) :
    (updateVelocities s).cellTypes = s.cellTypes := rfl

theorem update_stages_eq (sb : BoundaryRules F) (sqrt : F → F) (dt : F) (g : MACGrid F) :
    update_stages sb sqrt dt g =
      interpolateVelocities (divFreeField sb (updateBoundaries (interpolateVelocities
        (updateDistanceField sqrt (updateExternalForces dt (saveFlipVelocities g)))))) := rfl

/-- The distance field at the end of `update` is the one `updateDistanceField` computed. -/
theorem update_distanceField (sb : BoundaryRules F) (sqrt : F → F) (dt : F) (g : MACGrid F) :
    (update sb sqrt dt g).distanceField =
      (updateDistanceField sqrt (updateExternalForces dt (saveFlipVelocities g))).distanceField := by
  unfold update
  rw [updateVelocities_distanceField, update_stages_eq]
  exact (interpolateVelocities_obs (fun s => s.distanceField) (fun _ _ => rfl) (fun _ _ => rfl) _).trans
    ((divFreeField_obs (fun s => s.distanceField) (fun _ _ => rfl) (fun _ _ => rfl)
        (fun _ _ => rfl) sb _).trans
      ((updateBoundaries_obs (fun s => s.distanceField) (fun _ _ => rfl) (fun _ _ => rfl)
          (fun _ _ => rfl) _).trans
        (interpolateVelocities_obs (fun s => s.distanceField) (fun _ _ => rfl)
          (fun _ _ => rfl) _)))

/-- The cell types at the end of `update` are the ones `updateBoundaries` left. -/
theorem update_cellTypes (sb : BoundaryRules F) (sqrt : F → F) (dt : F) (g : MACGrid F) :
    (update sb sqrt dt g).cellTypes = (updateBoundaries g).cellTypes := by
  have h1 : (update sb sqrt dt g).cellTypes =
      (updateBoundaries (interpolateVelocities (updateDistanceField sqrt
        (updateExternalForces dt (saveFlipVelocities g))))).cellTypes := by
    unfold update
    rw [updateVelocities_cellTypes, update_stages_eq]
    exact (interpolateVelocities_obs (fun s => s.cellTypes) (fun _ _ => rfl)
      (fun _ _ => rfl) _).trans
        (divFreeField_obs (fun s => s.cellTypes) (fun _ _ => rfl) (fun _ _ => rfl)
          (fun _ _ => rfl) sb _)
  have h2 : (fun s : MACGrid F => (s.cellTypes, s.xCellCount, s.yCellCount))
      (interpolateVelocities (updateDistanceField sqrt
        (updateExternalForces dt (saveFlipVelocities g)))) =
      (fun s : MACGrid F => (s.cellTypes, s.xCellCount, s.yCellCount)) g :=
    (interpolateVelocities_obs (fun s : MACGrid F => (s.cellTypes, s.xCellCount, s.yCellCount))
        (fun _ _ => rfl) (fun _ _ => rfl) _).trans
      (updateDistanceField_obs (fun s : MACGrid F => (s.cellTypes, s.xCellCount, s.yCellCount))
        (fun _ _ => rfl) sqrt _)
  rw [h1]
  generalize interpolateVelocities (updateDistanceField sqrt
        (updateExternalForces dt (saveFlipVelocities g))) = r at h2
  simp only [Prod.mk.injEq] at h2
  rw [updateBoundaries_eq, updateBoundaries_eq]
  simp only [h2.1, h2.2.1, h2.2.2]

/-- C10. On a grid with `xCellCount ≥ 3` and `yCellCount ≥ 3`, after `update(dt)` every
cell of the outer ring is a `SOLID_CELL`, every interior cell has the type it had at entry,
and an interior `FLUID_CELL` is still a `FLUID_CELL` with distance 0. -/
theorem update_ring_solid_interior_kept (sb : BoundaryRules F) (sqrt : F → F) (dt : F)
    (g : MACGrid F) (hx : 3 ≤ g.xCellCount) (hy : 3 ≤ g.yCellCount) :
    (∀ i j : Int, outerRing g i j →
      (update sb sqrt dt g).cellTypes i j = cellType.SOLID_CELL) ∧
    (∀ i j : Int, interior g i j → (update sb sqrt dt g).cellTypes i j = g.cellTypes i j) ∧
    (∀ i j : Int, interior g i j → g.cellTypes i j = cellType.FLUID_CELL →
      (update sb sqrt dt g).cellTypes i j = cellType.FLUID_CELL ∧
      (update sb sqrt dt g).distanceField i j = 0) := by
  have hint : ∀ i j : Int, interior g i j →
      (update sb sqrt dt g).cellTypes i j = g.cellTypes i j := by
    intro i j hi
    rw [update_cellTypes, updateBoundaries_eq]
    unfold interior at hi
    simp only
    rw [if_neg (by omega), if_neg (by omega)]
  refine ⟨?_, hint, ?_⟩
  · intro i j hr
    rw [update_cellTypes]
    exact updateBoundaries_ring g (by omega) (by omega) i j hr
  · intro i j hi hT
    refine ⟨(hint i j hi).trans hT, ?_⟩
    rw [update_distanceField]
    exact updateDistanceField_seeded_zero sqrt
      (updateExternalForces dt (saveFlipVelocities g)) (by show 2 ≤ g.xCellCount; omega)
      (by show 2 ≤ g.yCellCount; omega) i j hi hT

/-- C10, on the scenario of the specification (4 × 4 grid, `cellSize = 1`, one
`FLUID_CELL` at `(1, 1)`, `dt = 0.1`): after `update`, `cellTypes(1, 1)` is `FLUID_CELL`,
`distanceField(1, 1)` is 0, and each of the twelve cells of the outer ring is a
`SOLID_CELL`. -/
theorem update_ring_solid_interior_kept_witness :
    (update specBoundary Real.sqrt 0.1 (scenarioGrid : MACGrid ℝ)).cellTypes 1 1 =
      cellType.FLUID_CELL ∧
    (update specBoundary Real.sqrt 0.1 (scenarioGrid : MACGrid ℝ)).distanceField 1 1 = 0 ∧
    (update specBoundary Real.sqrt 0.1 (scenarioGrid : MACGrid ℝ)).cellTypes 0 0 =
      cellType.SOLID_CELL ∧
    (update specBoundary Real.sqrt 0.1 (scenarioGrid : MACGrid ℝ)).cellTypes 1 0 =
      cellType.SOLID_CELL ∧
    (update specBoundary Real.sqrt 0.1 (scenarioGrid : MACGrid ℝ)).cellTypes 2 0 =
      cellType.SOLID_CELL ∧
    (update specBoundary Real.sqrt 0.1 (scenarioGrid : MACGrid ℝ)).cellTypes 3 0 =
      cellType.SOLID_CELL ∧
    (update specBoundary Real.sqrt 0.1 (scenarioGrid : MACGrid ℝ)).cellTypes 0 1 =
      cellType.SOLID_CELL ∧
    (update specBoundary Real.sqrt 0.1 (scenarioGrid : MACGrid ℝ)).cellTypes 3 1 =
      cellType.SOLID_CELL ∧
    (update specBoundary Real.sqrt 0.1 (scenarioGrid : MACGrid ℝ)).cellTypes 0 2 =
      cellType.SOLID_CELL ∧
    (update specBoundary Real.sqrt 0.1 (scenarioGrid : MACGrid ℝ)).cellTypes 3 2 =
      cellType.SOLID_CELL ∧
    (update specBoundary Real.sqrt 0.1 (scenarioGrid : MACGrid ℝ)).cellTypes 0 3 =
      cellType.SOLID_CELL ∧
    (update specBoundary Real.sqrt 0.1 (scenarioGrid : MACGrid ℝ)).cellTypes 1 3 =
      cellType.SOLID_CELL ∧
    (update specBoundary Real.sqrt 0.1 (scenarioGrid : MACGrid ℝ)).cellTypes 2 3 =
      cellType.SOLID_CELL ∧
    (update specBoundary Real.sqrt 0.1 (scenarioGrid : MACGrid ℝ)).cellTypes 3 3 =
      cellType.SOLID_CELL :=
  ⟨((update_ring_solid_interior_kept specBoundary Real.sqrt 0.1 (scenarioGrid : MACGrid ℝ)
      (by decide) (by decide)).2.2 1 1 (by decide) (by simp [scenarioGrid])).1,
    ((update_ring_solid_interior_kept specBoundary Real.sqrt 0.1 (scenarioGrid : MACGrid ℝ)
      (by decide) (by decide)).2.2 1 1 (by decide) (by simp [scenarioGrid])).2,
    (update_ring_solid_interior_kept specBoundary Real.sqrt 0.1 (scenarioGrid : MACGrid ℝ)
      (by decide) (by decide)).1 0 0 (by decide),
    (update_ring_solid_interior_kept specBoundary Real.sqrt 0.1 (scenarioGrid : MACGrid ℝ)
      (by decide) (by decide)).1 1 0 (by decide),
    (update_ring_solid_interior_kept specBoundary Real.sqrt 0.1 (scenarioGrid : MACGrid ℝ)
      (by decide) (by decide)).1 2 0 (by decide),
    (update_ring_solid_interior_kept specBoundary Real.sqrt 0.1 (scenarioGrid : MACGrid ℝ)
      (by decide) (by decide)).1 3 0 (by decide),
    (update_ring_solid_interior_kept specBoundary Real.sqrt 0.1 (scenarioGrid : MACGrid ℝ)
      (by decide) (by decide)).1 0 1 (by decide),
    (update_ring_solid_interior_kept specBoundary Real.sqrt 0.1 (scenarioGrid : MACGrid ℝ)
      (by decide) (by decide)).1 3 1 (by decide),
    (update_ring_solid_interior_kept specBoundary Real.sqrt 0.1 (scenarioGrid : MACGrid ℝ)
      (by decide) (by decide)).1 0 2 (by decide),
    (update_ring_solid_interior_kept specBoundary Real.sqrt 0.1 (scenarioGrid : MACGrid ℝ)
      (by decide) (by decide)).1 3 2 (by decide),
    (update_ring_solid_interior_kept specBoundary Real.sqrt 0.1 (scenarioGrid : MACGrid ℝ)
      (by decide) (by decide)).1 0 3 (by decide),
    (update_ring_solid_interior_kept specBoundary Real.sqrt 0.1 (scenarioGrid : MACGrid ℝ)
      (by decide) (by decide)).1 1 3 (by decide),
    (update_ring_solid_interior_kept specBoundary Real.sqrt 0.1 (scenarioGrid : MACGrid ℝ)
      (by decide) (by decide)).1 2 3 (by decide),
    (update_ring_solid_interior_kept specBoundary Real.sqrt 0.1 (scenarioGrid : MACGrid ℝ)
      (by decide) (by decide)).1 3 3 (by decide)⟩

/-! ## Sampling coordinates -/

/-- Inside `0 ≤ x < (cellCount - 1) * cellSize` the sampling coordinate is the containing
cell and the fractional offset in it. -/
theorem barycentricOnAxis_inside [FloorRing F] (n : Nat) (h x : F)
    (hn : 2 ≤ n) (hmax : n ≤ 2147483647) (hh : 0 < h) (h0 : 0 ≤ x) (h1 : x < ((n : F) - 1) * h) :
    barycentricOnAxis n h x = some ⟨⌊x / h⌋.toNat, x / h - (⌊x / h⌋ : Int)⟩ := by
  have c0 : 0 ≤ x / h := div_nonneg h0 (le_of_lt hh)
  have c1 : x / h < (n : F) - 1 := by rw [div_lt_iff₀ hh]; exact h1
  have f0 : 0 ≤ ⌊x / h⌋ := Int.floor_nonneg.mpr c0
  have f1 : ⌊x / h⌋ < (n : Int) - 1 := by
    rw [Int.floor_lt]; push_cast; exact c1
  have ht : truncate (x / h) = ⌊x / h⌋ := by unfold truncate; rw [if_pos c0]
  unfold barycentricOnAxis floatToInt
  simp only [ht]
  rw [if_pos ⟨by omega, by omega⟩]
  simp only
  rw [if_neg (by omega), if_neg (by omega)]

/-- At or beyond `(cellCount - 1) * cellSize`, as long as the conversion to `int` is
defined, the sampling coordinate is `(cellCount - 2, 1)`. -/
theorem barycentricOnAxis_beyond [FloorRing F] (n : Nat) (h x : F)
    (hn : 2 ≤ n) (hh : 0 < h) (h1 : ((n : F) - 1) * h ≤ x) (h2 : x / h < 2147483648) :
    barycentricOnAxis n h x = some ⟨n - 2, 1⟩ := by
  have c1 : (n : F) - 1 ≤ x / h := by rw [le_div_iff₀ hh]; exact h1
  have c0 : 0 ≤ x / h := by
    have : (2 : F) ≤ n := by exact_mod_cast hn
    linarith
  have f1 : (n : Int) - 1 ≤ ⌊x / h⌋ := by
    rw [Int.le_floor]; push_cast; exact c1
  have f2 : ⌊x / h⌋ < 2147483648 := by
    rw [Int.floor_lt]; push_cast; exact h2
  have ht : truncate (x / h) = ⌊x / h⌋ := by unfold truncate; rw [if_pos c0]
  unfold barycentricOnAxis floatToInt
  simp only [ht]
  rw [if_pos ⟨by omega, by omega⟩]
  simp only
  rw [if_neg (by omega), if_pos (by omega)]

/-- Between `-cellSize` and 0 the conversion to `int` truncates to 0, and the sampling
coordinate is cell 0 with the offset `x / cellSize + 1`. -/
theorem barycentricOnAxis_just_below [FloorRing F] (n : Nat) (h x : F)
    (hh : 0 < h) (h0 : x < 0) (h1 : -h < x) :
    barycentricOnAxis n h x = some ⟨0, x / h + 1⟩ := by
  have c0 : x / h < 0 := div_neg_of_neg_of_pos h0 hh
  have c1 : -1 < x / h := by rw [lt_div_iff₀ hh]; linarith
  have hc : ⌈x / h⌉ = 0 := by
    rw [Int.ceil_eq_iff]; push_cast; constructor <;> linarith
  have hf : ⌊x / h⌋ = -1 := by
    rw [Int.floor_eq_iff]; push_cast; constructor <;> linarith
  have ht : truncate (x / h) = 0 := by unfold truncate; rw [if_neg (not_le.mpr c0)]; exact hc
  unfold barycentricOnAxis floatToInt
  simp only [ht, hf]
  rw [if_pos ⟨by omega, by omega⟩]
  simp only
  rw [if_neg (by omega), if_neg (by omega)]
  simp

/-- C4. Evaluation at `x = -1/2` on the scenario grid (4 cells per axis, `cellSize = 1`):
`barycentricOnX` and `barycentricOnY` return cell 0 with offset `1/2`, not `(0, 0)`; the
cast to `int` truncates `-1/2` to 0, so the test `cellIndex < 0` does not fire. -/
theorem barycentric_below_zero_eval :
    barycentricOnX (scenarioGrid : MACGrid ℚ) (-1 / 2) = some ⟨0, 1 / 2⟩ ∧
    barycentricOnY (scenarioGrid : MACGrid ℚ) (-1 / 2) = some ⟨0, 1 / 2⟩ := by
  have h := barycentricOnAxis_just_below 4 (1 : ℚ) (-1 / 2) (by norm_num) (by norm_num)
    (by norm_num)
  have e : (-1 / 2 : ℚ) / 1 + 1 = 1 / 2 := by norm_num
  rw [e] at h
  exact ⟨h, h⟩

/-- C5, as stated, fails: on the scenario grid (4 cells per axis, `cellSize = 1`) the
coordinate `x = 2 = (4 - 2) * 1` gives `(2, 0)`, not `(2, 1)`. -/
theorem barycentric_at_last_cell_not_one :
    barycentricOnX (scenarioGrid : MACGrid ℚ) 2 = some ⟨2, 0⟩ ∧
    barycentricOnX (scenarioGrid : MACGrid ℚ) 2 ≠ some ⟨2, 1⟩ := by
  have h : barycentricOnX (scenarioGrid : MACGrid ℚ) 2 = some ⟨2, 0⟩ := by
    have h := barycentricOnAxis_inside 4 (1 : ℚ) 2 (by norm_num) (by norm_num) (by norm_num)
      (by norm_num) (by norm_num)
    have e : ⌊(2 : ℚ) / 1⌋ = 2 := by
      rw [Int.floor_eq_iff]; norm_num
    rw [e] at h
    simpa using h
  refine ⟨h, ?_⟩
  rw [h]
  simp

/-- C5, amended. With `xCellCount, yCellCount ≥ 2` and `cellSize > 0`: for a coordinate
`x ≥ (cellCount - 1) * cellSize` whose quotient `x / cellSize` is below `2^31` (so that
the conversion to `int` is defined), `barycentricOnX` and `barycentricOnY` return
`(cellCount - 2, 1)`; for `(cellCount - 2) * cellSize ≤ x < (cellCount - 1) * cellSize`
(cell counts within `int`) they return cell `cellCount - 2` with the offset
`x / cellSize - (cellCount - 2)`. -/
theorem barycentric_beyond_last_cell [FloorRing F] (g : MACGrid F) (x : F)
    (hx : 2 ≤ g.xCellCount) (hy : 2 ≤ g.yCellCount) (hh : 0 < g.cellSize) :
    (((g.xCellCount : F) - 1) * g.cellSize ≤ x → x / g.cellSize < 2147483648 →
      barycentricOnX g x = some ⟨g.xCellCount - 2, 1⟩) ∧
    (((g.yCellCount : F) - 1) * g.cellSize ≤ x → x / g.cellSize < 2147483648 →
      barycentricOnY g x = some ⟨g.yCellCount - 2, 1⟩) ∧
    (g.xCellCount ≤ 2147483647 → ((g.xCellCount : F) - 2) * g.cellSize ≤ x →
      x < ((g.xCellCount : F) - 1) * g.cellSize →
      barycentricOnX g x = some ⟨g.xCellCount - 2, x / g.cellSize - ((g.xCellCount : F) - 2)⟩) ∧
    (g.yCellCount ≤ 2147483647 → ((g.yCellCount : F) - 2) * g.cellSize ≤ x →
      x < ((g.yCellCount : F) - 1) * g.cellSize →
      barycentricOnY g x = some ⟨g.yCellCount - 2, x / g.cellSize - ((g.yCellCount : F) - 2)⟩) := by
  have last : ∀ n : Nat, 2 ≤ n → n ≤ 2147483647 → ((n : F) - 2) * g.cellSize ≤ x →
      x < ((n : F) - 1) * g.cellSize →
      barycentricOnAxis n g.cellSize x = some ⟨n - 2, x / g.cellSize - ((n : F) - 2)⟩ := by
    intro n hn hmax h1 h2
    have hn2 : (2 : F) ≤ n := by exact_mod_cast hn
    have h0 : 0 ≤ x := le_trans (mul_nonneg (by linarith) (le_of_lt hh)) h1
    have hfl : ⌊x / g.cellSize⌋ = (n : Int) - 2 := by
      rw [Int.floor_eq_iff]; push_cast
      constructor
      · rw [le_div_iff₀ hh]; exact h1
      · rw [div_lt_iff₀ hh]
        have e : (n : F) - 2 + 1 = (n : F) - 1 := by ring
        rw [e]; exact h2
    rw [barycentricOnAxis_inside n g.cellSize x hn hmax hh h0 h2, hfl]
    have e1 : ((n : Int) - 2).toNat = n - 2 := by omega
    rw [e1]; push_cast; rfl
  exact ⟨fun h1 h2 => barycentricOnAxis_beyond _ _ _ hx hh h1 h2,
    fun h1 h2 => barycentricOnAxis_beyond _ _ _ hy hh h1 h2,
    fun hm h1 h2 => last _ hx hm h1 h2, fun hm h1 h2 => last _ hy hm h1 h2⟩

/-- C5, amended, on the scenario grid (4 cells per axis, `cellSize = 1`): `x = 3` gives
`(2, 1)` on both axes. -/
theorem barycentric_beyond_last_cell_witness :
    barycentricOnX (scenarioGrid : MACGrid ℚ) 3 = some ⟨2, 1⟩ ∧
    barycentricOnY (scenarioGrid : MACGrid ℚ) 3 = some ⟨2, 1⟩ :=
  ⟨(barycentric_beyond_last_cell (scenarioGrid : MACGrid ℚ) 3 (by decide) (by decide)
      (by norm_num [scenarioGrid])).1 (by norm_num [scenarioGrid]) (by norm_num [scenarioGrid]),
    (barycentric_beyond_last_cell (scenarioGrid : MACGrid ℚ) 3 (by decide) (by decide)
      (by norm_num [scenarioGrid])).2.1 (by norm_num [scenarioGrid])
      (by norm_num [scenarioGrid])⟩

/-! ## The extrapolation rule -/

/-- C9. In the per-cell rule of `sweepU` and of `sweepV`: when the cell passes the
`EMPTY_CELL` guard and the two upwind gaps are non-negative and sum to 0, the coefficient
is exactly `0.5` and the value written at `(i, j)` is `0.5 * w(i - di, j) + 0.5 * w(i, j -
dj)`; and the coefficient computed with a checked division always exists: the division is
only reached with a non-zero divisor. -/
theorem sweep_coeff_half_and_division_safe (g : MACGrid F) (i j di dj : Int) :
    (g.cellTypes i j = cellType.EMPTY_CELL → g.cellTypes (i - 1) j = cellType.EMPTY_CELL →
      0 ≤ g.distanceField i j - g.distanceField (i - di) j →
      0 ≤ g.distanceField i j - g.distanceField i (j - dj) →
      (g.distanceField i j - g.distanceField (i - di) j) +
        (g.distanceField i j - g.distanceField i (j - dj)) = 0 →
      sweepU_coeff (g.distanceField i j - g.distanceField (i - di) j)
        (g.distanceField i j - g.distanceField i (j - dj)) = 0.5 ∧
      (sweepU_updateFunc i j di dj g).u i j = 0.5 * g.u (i - di) j + 0.5 * g.u i (j - dj)) ∧
    (g.cellTypes i j = cellType.EMPTY_CELL → g.cellTypes i (j - 1) = cellType.EMPTY_CELL →
      0 ≤ g.distanceField i j - g.distanceField i (j - dj) →
      0 ≤ g.distanceField i j - g.distanceField (i - di) j →
      (g.distanceField i j - g.distanceField i (j - dj)) +
        (g.distanceField i j - g.distanceField (i - di) j) = 0 →
      sweepV_coeff (g.distanceField i j - g.distanceField i (j - dj))
        (g.distanceField i j - g.distanceField (i - di) j) = 0.5 ∧
      (sweepV_updateFunc i j di dj g).v i j = 0.5 * g.v (i - di) j + 0.5 * g.v i (j - dj)) ∧
    (∀ a b : F, sweepU_coeff_checked a b = some (sweepU_coeff a b)) ∧
    (∀ a b : F, sweepV_coeff_checked a b = some (sweepV_coeff a b)) := by
  have half : (1 : F) - 0.5 = 0.5 := by norm_num
  refine ⟨?_, ?_, ?_, ?_⟩
  · intro h1 h2 h3 h4 h5
    have hc : sweepU_coeff (g.distanceField i j - g.distanceField (i - di) j)
        (g.distanceField i j - g.distanceField i (j - dj)) = 0.5 := by
      unfold sweepU_coeff; rw [if_pos h5]
    refine ⟨hc, ?_⟩
    unfold sweepU_updateFunc
    simp only
    rw [if_pos ⟨h1, h2⟩, if_neg (not_lt.mpr h3), if_neg (not_lt.mpr h4), hc]
    simp only [grid_2D.set_apply, and_self, if_true, half]
  · intro h1 h2 h3 h4 h5
    have hc : sweepV_coeff (g.distanceField i j - g.distanceField i (j - dj))
        (g.distanceField i j - g.distanceField (i - di) j) = 0.5 := by
      unfold sweepV_coeff; rw [if_pos h5]
    refine ⟨hc, ?_⟩
    unfold sweepV_updateFunc
    simp only
    rw [if_pos ⟨h1, h2⟩, if_neg (not_lt.mpr h3), if_neg (not_lt.mpr h4), hc]
    simp only [grid_2D.set_apply, and_self, if_true, half]
  · intro a b
    unfold sweepU_coeff_checked sweepU_coeff checkedDiv
    by_cases h : a + b = 0
    · rw [if_pos h, if_pos h]
    · rw [if_neg h, if_neg h, if_neg h]
  · intro a b
    unfold sweepV_coeff_checked sweepV_coeff checkedDiv
    by_cases h : a + b = 0
    · rw [if_pos h, if_pos h]
    · rw [if_neg h, if_neg h, if_neg h]

/-- C9, on the 3 × 3 grid of `EMPTY_CELL`s with a constant distance field: the rule of
`sweepU` at `(1, 1)` with direction `(1, 1)` writes `0.5 * u(0, 1) + 0.5 * u(1, 0)`. -/
theorem sweep_coeff_half_and_division_safe_witness :
    (sweepU_updateFunc 1 1 1 1 (flatEmptyGrid : MACGrid ℚ)).u 1 1 =
      0.5 * (flatEmptyGrid : MACGrid ℚ).u (1 - 1) 1 + 0.5 * (flatEmptyGrid : MACGrid ℚ).u 1 (1 - 1) :=
  ((sweep_coeff_half_and_division_safe (flatEmptyGrid : MACGrid ℚ) 1 1 1 1).1
    (by simp [flatEmptyGrid]) (by simp [flatEmptyGrid]) (by simp [flatEmptyGrid])
    (by simp [flatEmptyGrid]) (by simp [flatEmptyGrid])).2

/-! ## Divergence and projection -/

/-- One row of the loop of `calculateDiv`, in closed form. -/
theorem calculateDiv_row (s : MACGrid F) (j : Int) :
    forLt 0 s.xCellCount (fun i g =>
      if g.cellTypes i j = cellType.FLUID_CELL then
        { g with div := g.div.set i j (g.u (i + 1) j - g.u i j + g.v i (j + 1) - g.v i j) }
      else g) s =
    { s with
      div := fun x y =>
        if y = j ∧ 0 ≤ x ∧ x < s.xCellCount ∧ s.cellTypes x y = cellType.FLUID_CELL then
          s.u (x + 1) y - s.u x y + s.v x (y + 1) - s.v x y
        else s.div x y } := by
  refine forLt_eq (fun k =>
    { s with
      div := fun x y =>
        if y = j ∧ 0 ≤ x ∧ x < k ∧ s.cellTypes x y = cellType.FLUID_CELL then
          s.u (x + 1) y - s.u x y + s.v x (y + 1) - s.v x y
        else s.div x y }) _ 0 s.xCellCount (Nat.zero_le _) s ?_ ?_
  · cases s; simp only [MACGrid.mk.injEq, true_and, and_true]
    funext x y
    split_ifs with h
    · exfalso; omega
    · rfl
  · intro i h0 h1
    simp only
    by_cases hT : s.cellTypes i j = cellType.FLUID_CELL
    · rw [if_pos hT]
      simp only [MACGrid.mk.injEq, true_and, and_true]
      funext x y
      simp only [grid_2D.set_apply]
      by_cases hxy : x = i ∧ y = j
      · obtain ⟨rfl, rfl⟩ := hxy
        rw [if_pos ⟨rfl, rfl⟩, if_pos ⟨rfl, by omega, by omega, hT⟩]
      · rw [if_neg hxy]
        by_cases hc : y = j ∧ 0 ≤ x ∧ x < i ∧ s.cellTypes x y = cellType.FLUID_CELL
        · rw [if_pos hc, if_pos ⟨hc.1, hc.2.1, by omega, hc.2.2.2⟩]
        · rw [if_neg hc, if_neg]
          rintro ⟨a, b, c, d⟩
          exact hc ⟨a, b, by
            rcases lt_or_eq_of_le (show x ≤ i by omega) with h | h
            · exact h
            · exact absurd ⟨h, a⟩ hxy, d⟩
    · rw [if_neg hT]
      simp only [MACGrid.mk.injEq, true_and, and_true]
      funext x y
      by_cases hc : y = j ∧ 0 ≤ x ∧ x < i ∧ s.cellTypes x y = cellType.FLUID_CELL
      · rw [if_pos hc, if_pos ⟨hc.1, hc.2.1, by omega, hc.2.2.2⟩]
      · rw [if_neg hc, if_neg]
        rintro ⟨a, b, c, d⟩
        rcases lt_or_eq_of_le (show x ≤ i by omega) with h | h
        · exact hc ⟨a, b, h, d⟩
        · subst h; subst a; exact hT d

/-- The state after `calculateDiv`, in closed form: inside the grid, the divergence of
`u`, `v` on the `FLUID_CELL`s and 0 on the other cells. -/
theorem calculateDiv_eq (g : MACGrid F) :
    calculateDiv g =
      { g with
        div := fun x y =>
          if inBounds g x y then
            (if g.cellTypes x y = cellType.FLUID_CELL then
              g.u (x + 1) y - g.u x y + g.v x (y + 1) - g.v x y
            else 0)
          else g.div x y } := by
  unfold calculateDiv
  have h := forLt_eq (fun k =>
    { g with
      div := fun x y =>
        if (0 ≤ y ∧ y < k) ∧ 0 ≤ x ∧ x < g.xCellCount ∧
            g.cellTypes x y = cellType.FLUID_CELL then
          g.u (x + 1) y - g.u x y + g.v x (y + 1) - g.v x y
        else if inBounds g x y then 0 else g.div x y })
    (fun j g =>
      forLt 0 g.xCellCount (fun i g =>
        if g.cellTypes i j = cellType.FLUID_CELL then
          { g with div := g.div.set i j (g.u (i + 1) j - g.u i j + g.v i (j + 1) - g.v i j) }
        else g) g) 0 g.yCellCount (Nat.zero_le _)
    { g with div := g.div.fill g.xCellCount g.yCellCount 0 } ?_ ?_
  · simp only at h ⊢
    rw [h]
    simp only [MACGrid.mk.injEq, true_and, and_true]
    funext x y
    unfold inBounds
    by_cases hb : 0 ≤ x ∧ x < (g.xCellCount : Int) ∧ 0 ≤ y ∧ y < (g.yCellCount : Int)
    · by_cases hT : g.cellTypes x y = cellType.FLUID_CELL
      · have h1 : (0 ≤ y ∧ y < (g.yCellCount : Int)) ∧ 0 ≤ x ∧ x < (g.xCellCount : Int) ∧
            g.cellTypes x y = cellType.FLUID_CELL := ⟨⟨hb.2.2.1, hb.2.2.2⟩, hb.1, hb.2.1, hT⟩
        simp only [if_pos h1, if_pos hb, if_pos hT]
      · have h1 : ¬ ((0 ≤ y ∧ y < (g.yCellCount : Int)) ∧ 0 ≤ x ∧ x < (g.xCellCount : Int) ∧
            g.cellTypes x y = cellType.FLUID_CELL) := fun h => hT h.2.2.2
        simp only [if_neg h1, if_pos hb, if_neg hT]
    · have h1 : ¬ ((0 ≤ y ∧ y < (g.yCellCount : Int)) ∧ 0 ≤ x ∧ x < (g.xCellCount : Int) ∧
          g.cellTypes x y = cellType.FLUID_CELL) := fun h => hb ⟨h.2.1, h.2.2.1, h.1.1, h.1.2⟩
      simp only [if_neg h1, if_neg hb]
  · simp only [MACGrid.mk.injEq, true_and, and_true]
    funext x y
    rw [if_neg (by omega)]
    rfl
  · intro j h0 h1
    have := calculateDiv_row
      { g with
        div := fun x y =>
          if (0 ≤ y ∧ y < j) ∧ 0 ≤ x ∧ x < g.xCellCount ∧
              g.cellTypes x y = cellType.FLUID_CELL then
            g.u (x + 1) y - g.u x y + g.v x (y + 1) - g.v x y
          else if inBounds g x y then 0 else g.div x y } j
    simp only at this ⊢
    rw [this]
    simp only [MACGrid.mk.injEq, true_and, and_true]
    funext x y
    by_cases hc : y = j ∧ 0 ≤ x ∧ x < (g.xCellCount : Int) ∧
        g.cellTypes x y = cellType.FLUID_CELL
    · rw [if_pos hc, if_pos ⟨⟨by omega, by omega⟩, hc.2⟩]
    · rw [if_neg hc]
      by_cases hd : (0 ≤ y ∧ y < j) ∧ 0 ≤ x ∧ x < (g.xCellCount : Int) ∧
          g.cellTypes x y = cellType.FLUID_CELL
      · rw [if_pos hd, if_pos ⟨⟨hd.1.1, by omega⟩, hd.2⟩]
      · have hn : ¬ ((0 ≤ y ∧ y < j + 1) ∧ 0 ≤ x ∧ x < (g.xCellCount : Int) ∧
            g.cellTypes x y = cellType.FLUID_CELL) := by
          rintro ⟨⟨a, b⟩, c⟩
          rcases lt_or_eq_of_le (show y ≤ j by omega) with h | h
          · exact hd ⟨⟨a, h⟩, c⟩
          · exact hc ⟨h, c⟩
        rw [if_neg hd, if_neg hn]

/-- With `set_boundary` as the specification describes it, zero divergence at the
`FLUID_CELL`s and a zero boundary band of `u`, `v`, the potential of `divFreeField` is 0
everywhere after any number of relaxation rounds. -/
theorem divFreeField_relax_zero (g : MACGrid F)
    (hdiv : ∀ x y : Int, inBounds g x y → g.cellTypes x y = cellType.FLUID_CELL →
      g.u (x + 1) y - g.u x y + g.v x (y + 1) - g.v x y = 0)
    (n : Nat) (x y : Int) :
    divFreeField_relax specBoundary (calculateDiv g) n x y = 0 := by
  have hd : ∀ a b : Int, 1 ≤ a → a < (((calculateDiv g).xCellCount - 1 : Nat) : Int) →
      1 ≤ b → b < (((calculateDiv g).yCellCount - 1 : Nat) : Int) →
      (calculateDiv g).div a b = 0 := by
    intro a b h1 h2 h3 h4
    rw [calculateDiv_eq] at h2 h4 ⊢
    simp only at h2 h4 ⊢
    have hb : inBounds g a b := by unfold inBounds; omega
    rw [if_pos hb]
    by_cases hT : g.cellTypes a b = cellType.FLUID_CELL
    · rw [if_pos hT]; exact hdiv a b hb hT
    · rw [if_neg hT]
  have hclamp : ∀ (dx dy : Nat) (q : grid_2D F), (∀ a b, q a b = 0) →
      ∀ a b, set_boundary_potential dx dy q a b = 0 := by
    intro dx dy q hq a b
    unfold set_boundary_potential
    split_ifs
    · rfl
    · exact hq a b
  unfold divFreeField_relax
  refine forLt_preserves (fun q : grid_2D F => ∀ a b, q a b = 0) _ 0 n _ ?_ ?_ x y
  · refine hclamp _ _ _ ?_
    intro a b
    rw [grid_2D.fill_apply]
    split_ifs <;> rfl
  · intro _ q _ _ hq
    refine hclamp _ _ _ ?_
    unfold divFreeField_sweep
    refine forLt_preserves (fun q : grid_2D F => ∀ a b, q a b = 0) _ _ _ _ hq ?_
    intro a q ha1 ha2 hq
    refine forLt_preserves (fun q : grid_2D F => ∀ a b, q a b = 0) _ _ _ _ hq ?_
    intro b q hb1 hb2 hq
    split_ifs
    · intro a' b'
      rw [grid_2D.set_apply]
      split_ifs
      · rw [hq, hq, hq, hq, hd a b (by simpa using ha1) ha2 (by simpa using hb1) hb2]
        simp
      · exact hq a' b'
    · exact hq

/-- With a potential that is 0 everywhere, the gradient corrections of `divFreeField`
change nothing. -/
theorem divFreeField_correct_zero (q : grid_2D F) (hq : ∀ a b, q a b = 0) (g : MACGrid F) :
    divFreeField_correctV q (divFreeField_correctU q g) = g := by
  have hU : divFreeField_correctU q g = g := by
    unfold divFreeField_correctU
    refine forLt_preserves (fun s => s = g) _ _ _ _ rfl ?_
    intro x s _ _ hs
    refine forLt_preserves (fun s => s = g) _ _ _ _ hs ?_
    intro y s _ _ hs
    subst hs
    split_ifs
    · cases s
      simp only [MACGrid.mk.injEq, true_and, and_true]
      funext a b
      rw [grid_2D.set_apply, hq, hq]
      split_ifs with h
      · obtain ⟨rfl, rfl⟩ := h; simp
      · rfl
    · rfl
  rw [hU]
  unfold divFreeField_correctV
  refine forLt_preserves (fun s => s = g) _ _ _ _ rfl ?_
  intro x s _ _ hs
  refine forLt_preserves (fun s => s = g) _ _ _ _ hs ?_
  intro y s _ _ hs
  subst hs
  split_ifs
  · cases s
    simp only [MACGrid.mk.injEq, true_and, and_true]
    funext a b
    rw [grid_2D.set_apply, hq, hq]
    split_ifs with h
    · obtain ⟨rfl, rfl⟩ := h; simp
    · rfl
  · rfl

/-- With `set_boundary` as the specification describes it, zero divergence at the
`FLUID_CELL`s and a zero boundary band of `u`, `v`, all that `divFreeField` does is
recompute `div`. -/
theorem divFreeField_eq_calculateDiv (g : MACGrid F) (hx : 2 ≤ g.xCellCount)
    (hy : 2 ≤ g.yCellCount)
    (hu : ∀ i j : Int, 0 ≤ j → j < g.yCellCount →
      (i = 0 ∨ i = 1 ∨ i = (g.xCellCount : Int) - 1 ∨ i = g.xCellCount) → g.u i j = 0)
    (hv : ∀ i j : Int, 0 ≤ i → i < g.xCellCount →
      (j = 0 ∨ j = 1 ∨ j = (g.yCellCount : Int) - 1 ∨ j = g.yCellCount) → g.v i j = 0)
    (hdiv : ∀ x y : Int, inBounds g x y → g.cellTypes x y = cellType.FLUID_CELL →
      g.u (x + 1) y - g.u x y + g.v x (y + 1) - g.v x y = 0) :
    divFreeField specBoundary g = calculateDiv g := by
  have hq := divFreeField_relax_zero g hdiv 50
  unfold divFreeField
  simp only
  rw [divFreeField_correct_zero _ hq]
  rw [calculateDiv_eq]
  simp only [specBoundary, MACGrid.mk.injEq, true_and, and_true]
  constructor
  · funext x y
    unfold set_boundary_u
    split_ifs with h
    · exact (hu x y h.1 h.2.1 (by omega)).symm
    · rfl
  · funext x y
    unfold set_boundary_v
    split_ifs with h
    · exact (hv x y h.1 h.2.1 (by omega)).symm
    · rfl

/-- C8. Zero-source case of the divergence property, with `set_boundary` as the
specification describes it. On a grid with at least two cells per axis whose boundary band
of `u` and `v` is 0 (the state `updateBoundaries` leaves), if `u(i+1, j) - u(i, j) +
v(i, j+1) - v(i, j) = 0` at every `FLUID_CELL`, then in `divFreeField` the potential `q` is
0 everywhere after each of the relaxation rounds, `u` and `v` come out unchanged, and
`calculateDiv` afterwards gives 0, hence a value within `1e-3` of 0, at every
`FLUID_CELL`. -/
theorem divFreeField_zero_source (g : MACGrid F) (hx : 2 ≤ g.xCellCount)
    (hy : 2 ≤ g.yCellCount)
    (hu : ∀ i j : Int, 0 ≤ j → j < g.yCellCount →
      (i = 0 ∨ i = 1 ∨ i = (g.xCellCount : Int) - 1 ∨ i = g.xCellCount) → g.u i j = 0)
    (hv : ∀ i j : Int, 0 ≤ i → i < g.xCellCount →
      (j = 0 ∨ j = 1 ∨ j = (g.yCellCount : Int) - 1 ∨ j = g.yCellCount) → g.v i j = 0)
    (hdiv : ∀ x y : Int, inBounds g x y → g.cellTypes x y = cellType.FLUID_CELL →
      g.u (x + 1) y - g.u x y + g.v x (y + 1) - g.v x y = 0) :
    (∀ (n : Nat) (x y : Int), n ≤ 50 →
      divFreeField_relax specBoundary (calculateDiv g) n x y = 0) ∧
    (divFreeField specBoundary g).u = g.u ∧ (divFreeField specBoundary g).v = g.v ∧
    (∀ x y : Int, inBounds g x y → g.cellTypes x y = cellType.FLUID_CELL →
      (calculateDiv (divFreeField specBoundary g)).div x y = 0 ∧
      |(calculateDiv (divFreeField specBoundary g)).div x y| ≤ 0.001) := by
  have he := divFreeField_eq_calculateDiv g hx hy hu hv hdiv
  have hzero : ∀ x y : Int, inBounds g x y → g.cellTypes x y = cellType.FLUID_CELL →
      (calculateDiv (divFreeField specBoundary g)).div x y = 0 := by
    intro x y hb hT
    rw [he, calculateDiv_eq (calculateDiv g), calculateDiv_eq g]
    simp only
    have hb' : inBounds
        { g with
          div := fun x y =>
            if inBounds g x y then
              (if g.cellTypes x y = cellType.FLUID_CELL then
                g.u (x + 1) y - g.u x y + g.v x (y + 1) - g.v x y
              else 0)
            else g.div x y } x y := hb
    rw [if_pos hb', if_pos hT]
    exact hdiv x y hb hT
  refine ⟨fun n x y _ => divFreeField_relax_zero g hdiv n x y, ?_, ?_, ?_⟩
  · rw [he]; exact calculateDiv_obs (fun s => s.u) (fun _ _ => rfl) g
  · rw [he]; exact calculateDiv_obs (fun s => s.v) (fun _ _ => rfl) g
  · intro x y hb hT
    refine ⟨hzero x y hb hT, ?_⟩
    rw [hzero x y hb hT, abs_zero]
    norm_num

/-- C8, on the scenario grid (zero velocities, one `FLUID_CELL` at `(1, 1)`): after
`divFreeField` the divergence that `calculateDiv` computes at `(1, 1)` is 0, and `q(1, 1)`
is 0 after the 50 rounds. -/
theorem divFreeField_zero_source_witness :
    (calculateDiv (divFreeField specBoundary (scenarioGrid : MACGrid ℚ))).div 1 1 = 0 ∧
    divFreeField_relax specBoundary (calculateDiv (scenarioGrid : MACGrid ℚ)) 50 1 1 = 0 :=
  ⟨((divFreeField_zero_source (scenarioGrid : MACGrid ℚ) (by decide) (by decide)
      (fun _ _ _ _ _ => rfl) (fun _ _ _ _ _ => rfl)
      (fun _ _ _ _ => by simp [scenarioGrid])).2.2.2 1 1 (by decide)
      (by simp [scenarioGrid])).1,
    (divFreeField_zero_source (scenarioGrid : MACGrid ℚ) (by decide) (by decide)
      (fun _ _ _ _ _ => rfl) (fun _ _ _ _ _ => rfl)
      (fun _ _ _ _ => by simp [scenarioGrid])).1 50 1 1 (le_refl 50)⟩

/-! ## The loops of `performSweep`, literally -/

theorem forNeFuel_steps {σ : Type} (body : Int → σ → σ) (stop d : Int) (hd : d ≠ 0) :
    ∀ (n : Nat) (k : Int) (s : σ) (fuel : Nat), stop = k + n * d → n < fuel →
      forNeFuel fuel k stop d body s = some (loopN n k d body s) := by
  intro n
  induction n with
  | zero =>
    intro k s fuel hk hf
    obtain ⟨f, rfl⟩ : ∃ f, fuel = f + 1 := ⟨fuel - 1, by omega⟩
    have : k = stop := by rw [hk]; simp
    unfold forNeFuel loopN
    rw [if_pos this]
  | succ n ih =>
    intro k s fuel hk hf
    obtain ⟨f, rfl⟩ : ∃ f, fuel = f + 1 := ⟨fuel - 1, by omega⟩
    have hne : k ≠ stop := by
      intro h
      rw [← h] at hk
      have h0 : ((n + 1 : Nat) : Int) * d = 0 := by linarith
      rcases mul_eq_zero.mp h0 with h1 | h1
      · omega
      · exact hd h1
    unfold forNeFuel loopN
    rw [if_neg hne]
    exact ih (k + d) (body k s) f (by rw [hk]; push_cast; ring) (by omega)

/-- The loop `for (k = start; k != stop; k += d)` of `performSweep`, with `d` the direction
that `performSweep` computes, terminates (any fuel above `|stop - start|` is enough) and
is the counted loop of the model. -/
theorem forNeFuel_eq_loopN {σ : Type} (body : Int → σ → σ) (start stop : Int) (s : σ)
    (fuel : Nat) (hf : (stop - start).natAbs < fuel) :
    forNeFuel fuel start stop (if start ≤ stop then 1 else -1) body s =
      some (loopN (stop - start).natAbs start (if start ≤ stop then 1 else -1) body s) := by
  refine forNeFuel_steps body stop _ ?_ _ start s fuel ?_ hf
  · split_ifs <;> decide
  · split_ifs with h
    · omega
    · omega

/-! ## The gradient correction -/

/-- A loop `for (i = lo; i < hi; i++)` with `hi ≤ lo` does nothing. -/
theorem forLt_of_le {σ : Type} (lo hi : Nat) (h : hi ≤ lo) (body : Int → σ → σ) (s : σ) :
    forLt lo hi body s = s := by
  unfold forLt
  rw [Nat.sub_eq_zero_of_le h]
  rfl

/-- One column of the `u` correction loop, in closed form. -/
theorem divFreeField_correctU_column (q : grid_2D F) (s : MACGrid F) (hy : 2 ≤ s.yCellCount)
    (x : Int) :
    forLt 1 (s.yCellCount - 1) (fun y g =>
      if (g.cellTypes x y = cellType.FLUID_CELL ∧ g.cellTypes (x - 1) y ≠ cellType.SOLID_CELL) ∨
          (g.cellTypes (x - 1) y = cellType.FLUID_CELL ∧ g.cellTypes x y ≠ cellType.SOLID_CELL)
      then { g with u := g.u.set x y (g.u x y - (q x y - q (x - 1) y)) }
      else g) s =
    { s with
      u := fun a b =>
        if a = x ∧ 1 ≤ b ∧ b + 1 < s.yCellCount ∧ correctsU s a b then
          s.u a b - (q a b - q (a - 1) b)
        else s.u a b } := by
  have h := forLt_eq (fun k =>
    { s with
      u := fun a b =>
        if a = x ∧ 1 ≤ b ∧ b < k ∧ correctsU s a b then s.u a b - (q a b - q (a - 1) b)
        else s.u a b }) (fun y g =>
      if (g.cellTypes x y = cellType.FLUID_CELL ∧ g.cellTypes (x - 1) y ≠ cellType.SOLID_CELL) ∨
          (g.cellTypes (x - 1) y = cellType.FLUID_CELL ∧ g.cellTypes x y ≠ cellType.SOLID_CELL)
      then { g with u := g.u.set x y (g.u x y - (q x y - q (x - 1) y)) }
      else g) 1 (s.yCellCount - 1) (by omega) s ?_ ?_
  · rw [h]
    simp only [MACGrid.mk.injEq, true_and, and_true]
    funext a b
    refine if_congr ?_ rfl rfl
    constructor
    · rintro ⟨h1, h2, h3, h4⟩; exact ⟨h1, h2, by omega, h4⟩
    · rintro ⟨h1, h2, h3, h4⟩; exact ⟨h1, h2, by omega, h4⟩
  · cases s; simp only [MACGrid.mk.injEq, true_and, and_true]
    funext a b
    split_ifs with h
    · exfalso; omega
    · rfl
  · intro k h0 h1
    simp only
    have hk : ¬ (1 ≤ k ∧ k < k ∧ correctsU s x k) := by omega
    by_cases hc : correctsU s x k
    · have hc' := hc
      unfold correctsU at hc'
      rw [if_pos hc']
      simp only [MACGrid.mk.injEq, true_and, and_true]
      funext a b
      simp only [grid_2D.set_apply, if_neg hk]
      by_cases hab : a = x ∧ b = k
      · obtain ⟨rfl, rfl⟩ := hab
        have h2 : 1 ≤ b ∧ b < b + 1 ∧ correctsU s a b := ⟨by omega, by omega, hc⟩
        simp only [and_self, if_true, true_and, if_pos h2]
      · rw [if_neg hab]
        refine if_congr ?_ rfl rfl
        constructor
        · rintro ⟨h1, h2, h3, h4⟩; exact ⟨h1, h2, by omega, h4⟩
        · rintro ⟨h1, h2, h3, h4⟩
          refine ⟨h1, h2, ?_, h4⟩
          rcases lt_or_eq_of_le (show b ≤ k by omega) with h | h
          · exact h
          · exact absurd ⟨h1, h⟩ hab
    · have hc' := hc
      unfold correctsU at hc'
      rw [if_neg hc']
      simp only [MACGrid.mk.injEq, true_and, and_true]
      funext a b
      refine if_congr ?_ rfl rfl
      constructor
      · rintro ⟨h1, h2, h3, h4⟩; exact ⟨h1, h2, by omega, h4⟩
      · rintro ⟨h1, h2, h3, h4⟩
        refine ⟨h1, h2, ?_, h4⟩
        rcases lt_or_eq_of_le (show b ≤ k by omega) with h | h
        · exact h
        · subst h1; subst h; exact absurd h4 hc

/-- The state after the `u` correction loops of `divFreeField`, in closed form: the faces
`2 ≤ x ≤ xCellCount - 2`, `1 ≤ y ≤ yCellCount - 2` that pass the guard lose
`q(x, y) - q(x - 1, y)`, every other entry of `u` is unchanged. -/
theorem divFreeField_correctU_eq (q : grid_2D F) (g : MACGrid F)
    (hx : 2 ≤ g.xCellCount) (hy : 2 ≤ g.yCellCount) :
    divFreeField_correctU q g =
      { g with
        u := fun a b =>
          if (2 ≤ a ∧ a + 1 < g.xCellCount) ∧ 1 ≤ b ∧ b + 1 < g.yCellCount ∧ correctsU g a b then
            g.u a b - (q a b - q (a - 1) b)
          else g.u a b } := by
  unfold divFreeField_correctU
  by_cases h3 : 3 ≤ g.xCellCount
  · have h := forLt_eq (fun k =>
      { g with
        u := fun a b =>
          if (2 ≤ a ∧ a < k) ∧ 1 ≤ b ∧ b + 1 < g.yCellCount ∧ correctsU g a b then
            g.u a b - (q a b - q (a - 1) b)
          else g.u a b })
      (fun x g =>
        forLt 1 (g.yCellCount - 1) (fun y g =>
          if (g.cellTypes x y = cellType.FLUID_CELL ∧
                g.cellTypes (x - 1) y ≠ cellType.SOLID_CELL) ∨
              (g.cellTypes (x - 1) y = cellType.FLUID_CELL ∧
                g.cellTypes x y ≠ cellType.SOLID_CELL)
          then { g with u := g.u.set x y (g.u x y - (q x y - q (x - 1) y)) }
          else g) g) 2 (g.xCellCount + 1 - 2) (by omega) g ?_ ?_
    · rw [h]
      simp only [MACGrid.mk.injEq, true_and, and_true]
      funext a b
      refine if_congr ?_ rfl rfl
      constructor
      · rintro ⟨⟨h1, h2⟩, r⟩; exact ⟨⟨h1, by omega⟩, r⟩
      · rintro ⟨⟨h1, h2⟩, r⟩; exact ⟨⟨h1, by omega⟩, r⟩
    · cases g; simp only [MACGrid.mk.injEq, true_and, and_true]
      funext a b
      split_ifs with h
      · exfalso; omega
      · rfl
    · intro k h0 h1
      have hcol := divFreeField_correctU_column q
        { g with
          u := fun a b =>
            if (2 ≤ a ∧ a < k) ∧ 1 ≤ b ∧ b + 1 < g.yCellCount ∧ correctsU g a b then
              g.u a b - (q a b - q (a - 1) b)
            else g.u a b } hy k
      simp only at hcol ⊢
      rw [hcol]
      simp only [MACGrid.mk.injEq, true_and, and_true]
      funext a b
      by_cases hc : a = k ∧ 1 ≤ b ∧ b + 1 < (g.yCellCount : Int) ∧ correctsU g a b
      · have hc' : a = k ∧ 1 ≤ b ∧ b + 1 < (g.yCellCount : Int) ∧
            correctsU
              { g with
                u := fun a b =>
                  if (2 ≤ a ∧ a < k) ∧ 1 ≤ b ∧ b + 1 < g.yCellCount ∧ correctsU g a b then
                    g.u a b - (q a b - q (a - 1) b)
                  else g.u a b } a b := hc
        have h1' : ¬ ((2 ≤ a ∧ a < k) ∧ 1 ≤ b ∧ b + 1 < (g.yCellCount : Int) ∧
            correctsU g a b) := by omega
        have h2' : (2 ≤ a ∧ a < k + 1) ∧ 1 ≤ b ∧ b + 1 < (g.yCellCount : Int) ∧
            correctsU g a b := ⟨⟨by omega, by omega⟩, hc.2⟩
        simp only [if_pos hc', if_neg h1', if_pos h2']
      · have hc' : ¬ (a = k ∧ 1 ≤ b ∧ b + 1 < (g.yCellCount : Int) ∧
            correctsU
              { g with
                u := fun a b =>
                  if (2 ≤ a ∧ a < k) ∧ 1 ≤ b ∧ b + 1 < g.yCellCount ∧ correctsU g a b then
                    g.u a b - (q a b - q (a - 1) b)
                  else g.u a b } a b) := hc
        simp only [if_neg hc']
        refine if_congr ?_ rfl rfl
        constructor
        · rintro ⟨⟨h1, h2⟩, r⟩; exact ⟨⟨h1, by omega⟩, r⟩
        · rintro ⟨⟨h1, h2⟩, r⟩
          refine ⟨⟨h1, ?_⟩, r⟩
          rcases lt_or_eq_of_le (show a ≤ k by omega) with h | h
          · exact h
          · exact absurd ⟨h, r⟩ hc
  · rw [forLt_of_le 2 _ (by omega)]
    cases g; simp only [MACGrid.mk.injEq, true_and, and_true]
    funext a b
    split_ifs with h
    · exfalso; simp only at h3; omega
    · rfl

/-- One column of the `v` correction loop, in closed form. -/
theorem divFreeField_correctV_column (q : grid_2D F) (s : MACGrid F) (x : Int) :
    forLt 2 (s.yCellCount + 1 - 2) (fun y g =>
      if (g.cellTypes x y = cellType.FLUID_CELL ∧ g.cellTypes x (y - 1) ≠ cellType.SOLID_CELL) ∨
          (g.cellTypes x y ≠ cellType.SOLID_CELL ∧ g.cellTypes x (y - 1) = cellType.FLUID_CELL)
      then { g with v := g.v.set x y (g.v x y - (q x y - q x (y - 1))) }
      else g) s =
    { s with
      v := fun a b =>
        if a = x ∧ 2 ≤ b ∧ b + 1 < s.yCellCount ∧ correctsV s a b then
          s.v a b - (q a b - q a (b - 1))
        else s.v a b } := by
  by_cases h3 : 3 ≤ s.yCellCount
  · have h := forLt_eq (fun k =>
      { s with
        v := fun a b =>
          if a = x ∧ 2 ≤ b ∧ b < k ∧ correctsV s a b then s.v a b - (q a b - q a (b - 1))
          else s.v a b }) (fun y g =>
        if (g.cellTypes x y = cellType.FLUID_CELL ∧
              g.cellTypes x (y - 1) ≠ cellType.SOLID_CELL) ∨
            (g.cellTypes x y ≠ cellType.SOLID_CELL ∧
              g.cellTypes x (y - 1) = cellType.FLUID_CELL)
        then { g with v := g.v.set x y (g.v x y - (q x y - q x (y - 1))) }
        else g) 2 (s.yCellCount + 1 - 2) (by omega) s ?_ ?_
    · rw [h]
      simp only [MACGrid.mk.injEq, true_and, and_true]
      funext a b
      refine if_congr ?_ rfl rfl
      constructor
      · rintro ⟨h1, h2, h3, h4⟩; exact ⟨h1, h2, by omega, h4⟩
      · rintro ⟨h1, h2, h3, h4⟩; exact ⟨h1, h2, by omega, h4⟩
    · cases s; simp only [MACGrid.mk.injEq, true_and, and_true]
      funext a b
      split_ifs with h
      · exfalso; omega
      · rfl
    · intro k h0 h1
      simp only
      have hk : ¬ (2 ≤ k ∧ k < k ∧ correctsV s x k) := by omega
      by_cases hc : correctsV s x k
      · have hc' := hc
        unfold correctsV at hc'
        rw [if_pos hc']
        simp only [MACGrid.mk.injEq, true_and, and_true]
        funext a b
        simp only [grid_2D.set_apply, if_neg hk]
        by_cases hab : a = x ∧ b = k
        · obtain ⟨rfl, rfl⟩ := hab
          have h2 : 2 ≤ b ∧ b < b + 1 ∧ correctsV s a b := ⟨by omega, by omega, hc⟩
          simp only [and_self, if_true, true_and, if_pos h2]
        · rw [if_neg hab]
          refine if_congr ?_ rfl rfl
          constructor
          · rintro ⟨h1, h2, h3, h4⟩; exact ⟨h1, h2, by omega, h4⟩
          · rintro ⟨h1, h2, h3, h4⟩
            refine ⟨h1, h2, ?_, h4⟩
            rcases lt_or_eq_of_le (show b ≤ k by omega) with h | h
            · exact h
            · exact absurd ⟨h1, h⟩ hab
      · have hc' := hc
        unfold correctsV at hc'
        rw [if_neg hc']
        simp only [MACGrid.mk.injEq, true_and, and_true]
        funext a b
        refine if_congr ?_ rfl rfl
        constructor
        · rintro ⟨h1, h2, h3, h4⟩; exact ⟨h1, h2, by omega, h4⟩
        · rintro ⟨h1, h2, h3, h4⟩
          refine ⟨h1, h2, ?_, h4⟩
          rcases lt_or_eq_of_le (show b ≤ k by omega) with h | h
          · exact h
          · subst h1; subst h; exact absurd h4 hc
  · rw [forLt_of_le 2 _ (by omega)]
    cases s; simp only [MACGrid.mk.injEq, true_and, and_true]
    funext a b
    split_ifs with h
    · exfalso; simp only at h3; omega
    · rfl

/-- The state after the `v` correction loops of `divFreeField`, in closed form: the faces
`1 ≤ x ≤ xCellCount - 2`, `2 ≤ y ≤ yCellCount - 2` that pass the guard lose
`q(x, y) - q(x, y - 1)`, every other entry of `v` is unchanged. -/
theorem divFreeField_correctV_eq (q : grid_2D F) (g : MACGrid F) (hx : 2 ≤ g.xCellCount) :
    divFreeField_correctV q g =
      { g with
        v := fun a b =>
          if (1 ≤ a ∧ a + 1 < g.xCellCount) ∧ 2 ≤ b ∧ b + 1 < g.yCellCount ∧ correctsV g a b then
            g.v a b - (q a b - q a (b - 1))
          else g.v a b } := by
  unfold divFreeField_correctV
  have h := forLt_eq (fun k =>
    { g with
      v := fun a b =>
        if (1 ≤ a ∧ a < k) ∧ 2 ≤ b ∧ b + 1 < g.yCellCount ∧ correctsV g a b then
          g.v a b - (q a b - q a (b - 1))
        else g.v a b })
    (fun x g =>
      forLt 2 (g.yCellCount + 1 - 2) (fun y g =>
        if (g.cellTypes x y = cellType.FLUID_CELL ∧
              g.cellTypes x (y - 1) ≠ cellType.SOLID_CELL) ∨
            (g.cellTypes x y ≠ cellType.SOLID_CELL ∧
              g.cellTypes x (y - 1) = cellType.FLUID_CELL)
        then { g with v := g.v.set x y (g.v x y - (q x y - q x (y - 1))) }
        else g) g) 1 (g.xCellCount - 1) (by omega) g ?_ ?_
  · rw [h]
    simp only [MACGrid.mk.injEq, true_and, and_true]
    funext a b
    refine if_congr ?_ rfl rfl
    constructor
    · rintro ⟨⟨h1, h2⟩, r⟩; exact ⟨⟨h1, by omega⟩, r⟩
    · rintro ⟨⟨h1, h2⟩, r⟩; exact ⟨⟨h1, by omega⟩, r⟩
  · cases g; simp only [MACGrid.mk.injEq, true_and, and_true]
    funext a b
    split_ifs with h
    · exfalso; omega
    · rfl
  · intro k h0 h1
    have hcol := divFreeField_correctV_column q
      { g with
        v := fun a b =>
          if (1 ≤ a ∧ a < k) ∧ 2 ≤ b ∧ b + 1 < g.yCellCount ∧ correctsV g a b then
            g.v a b - (q a b - q a (b - 1))
          else g.v a b } k
    simp only at hcol ⊢
    rw [hcol]
    simp only [MACGrid.mk.injEq, true_and, and_true]
    funext a b
    by_cases hc : a = k ∧ 2 ≤ b ∧ b + 1 < (g.yCellCount : Int) ∧ correctsV g a b
    · have hc' : a = k ∧ 2 ≤ b ∧ b + 1 < (g.yCellCount : Int) ∧
          correctsV
            { g with
              v := fun a b =>
                if (1 ≤ a ∧ a < k) ∧ 2 ≤ b ∧ b + 1 < g.yCellCount ∧ correctsV g a b then
                  g.v a b - (q a b - q a (b - 1))
                else g.v a b } a b := hc
      have h1' : ¬ ((1 ≤ a ∧ a < k) ∧ 2 ≤ b ∧ b + 1 < (g.yCellCount : Int) ∧
          correctsV g a b) := by omega
      have h2' : (1 ≤ a ∧ a < k + 1) ∧ 2 ≤ b ∧ b + 1 < (g.yCellCount : Int) ∧
          correctsV g a b := ⟨⟨by omega, by omega⟩, hc.2⟩
      simp only [if_pos hc', if_neg h1', if_pos h2']
    · have hc' : ¬ (a = k ∧ 2 ≤ b ∧ b + 1 < (g.yCellCount : Int) ∧
          correctsV
            { g with
              v := fun a b =>
                if (1 ≤ a ∧ a < k) ∧ 2 ≤ b ∧ b + 1 < g.yCellCount ∧ correctsV g a b then
                  g.v a b - (q a b - q a (b - 1))
                else g.v a b } a b) := hc
      simp only [if_neg hc']
      refine if_congr ?_ rfl rfl
      constructor
      · rintro ⟨⟨h1, h2⟩, r⟩; exact ⟨⟨h1, by omega⟩, r⟩
      · rintro ⟨⟨h1, h2⟩, r⟩
        refine ⟨⟨h1, ?_⟩, r⟩
        rcases lt_or_eq_of_le (show a ≤ k by omega) with h | h
        · exact h
        · exact absurd ⟨h, r⟩ hc

/-- With a `SOLID_CELL` ring, a cell of the grid that is not a `SOLID_CELL` is interior. -/
theorem interior_of_not_solid (g : MACGrid F)
    (hring : ∀ i j : Int, outerRing g i j → g.cellTypes i j = cellType.SOLID_CELL)
    (x y : Int) (hb : inBounds g x y) (hT : g.cellTypes x y ≠ cellType.SOLID_CELL) :
    interior g x y := by
  by_contra hi
  apply hT
  apply hring
  unfold interior at hi
  unfold outerRing
  refine ⟨hb, ?_⟩
  unfold inBounds at hb
  omega

/-- The two correction loops of `divFreeField`, one after the other, in closed form. -/
theorem divFreeField_correct_eq (q : grid_2D F) (g : MACGrid F)
    (hx : 2 ≤ g.xCellCount) (hy : 2 ≤ g.yCellCount) :
    divFreeField_correctV q (divFreeField_correctU q g) =
      { g with
        u := fun a b =>
          if (2 ≤ a ∧ a + 1 < g.xCellCount) ∧ 1 ≤ b ∧ b + 1 < g.yCellCount ∧ correctsU g a b then
            g.u a b - (q a b - q (a - 1) b)
          else g.u a b
        v := fun a b =>
          if (1 ≤ a ∧ a + 1 < g.xCellCount) ∧ 2 ≤ b ∧ b + 1 < g.yCellCount ∧ correctsV g a b then
            g.v a b - (q a b - q a (b - 1))
          else g.v a b } := by
  rw [divFreeField_correctU_eq q g hx hy]
  exact divFreeField_correctV_eq q _ hx

/-- Gradient correction of `divFreeField` on a grid (at least two cells per axis)
whose outer ring is `SOLID_CELL`, for any potential `q`. A `u` face `(x, y)` with two
adjacent cells `(x - 1, y)`, `(x, y)` becomes `u - (q(x, y) - q(x - 1, y))` when these
cells contain a `FLUID_CELL` and no `SOLID_CELL`, and is unchanged otherwise; every other
entry of `u` is unchanged. A `v` face `(x, y)` with two adjacent cells `(x, y - 1)`,
`(x, y)` becomes `v - (q(x, y) - q(x, y - 1))` when these cells contain a `FLUID_CELL` and
no `SOLID_CELL`, and is unchanged otherwise; every other entry of `v` is unchanged. -/
theorem divFreeField_correct_faces (q : grid_2D F) (g : MACGrid F)
    (hx : 2 ≤ g.xCellCount) (hy : 2 ≤ g.yCellCount)
    (hring : ∀ i j : Int, outerRing g i j → g.cellTypes i j = cellType.SOLID_CELL) :
    (∀ x y : Int, 1 ≤ x → x < g.xCellCount → 0 ≤ y → y < g.yCellCount →
      (divFreeField_correctV q (divFreeField_correctU q g)).u x y =
        if (g.cellTypes (x - 1) y = cellType.FLUID_CELL ∨ g.cellTypes x y = cellType.FLUID_CELL) ∧
            g.cellTypes (x - 1) y ≠ cellType.SOLID_CELL ∧ g.cellTypes x y ≠ cellType.SOLID_CELL
        then g.u x y - (q x y - q (x - 1) y) else g.u x y) ∧
    (∀ x y : Int, ¬ (1 ≤ x ∧ x < g.xCellCount ∧ 0 ≤ y ∧ y < g.yCellCount) →
      (divFreeField_correctV q (divFreeField_correctU q g)).u x y = g.u x y) ∧
    (∀ x y : Int, 0 ≤ x → x < g.xCellCount → 1 ≤ y → y < g.yCellCount →
      (divFreeField_correctV q (divFreeField_correctU q g)).v x y =
        if (g.cellTypes x (y - 1) = cellType.FLUID_CELL ∨ g.cellTypes x y = cellType.FLUID_CELL) ∧
            g.cellTypes x (y - 1) ≠ cellType.SOLID_CELL ∧ g.cellTypes x y ≠ cellType.SOLID_CELL
        then g.v x y - (q x y - q x (y - 1)) else g.v x y) ∧
    (∀ x y : Int, ¬ (0 ≤ x ∧ x < g.xCellCount ∧ 1 ≤ y ∧ y < g.yCellCount) →
      (divFreeField_correctV q (divFreeField_correctU q g)).v x y = g.v x y) := by
  rw [divFreeField_correct_eq q g hx hy]
  refine ⟨?_, ?_, ?_, ?_⟩
  · intro x y h1 h2 h3 h4
    simp only
    refine if_congr ?_ rfl rfl
    unfold correctsU
    constructor
    · rintro ⟨_, _, _, hc⟩
      rcases hc with ⟨a, b⟩ | ⟨a, b⟩
      · exact ⟨Or.inr a, b, by rw [a]; decide⟩
      · exact ⟨Or.inl a, by rw [a]; decide, b⟩
    · rintro ⟨hf, ha, hb⟩
      have i1 := interior_of_not_solid g hring (x - 1) y (by unfold inBounds; omega) ha
      have i2 := interior_of_not_solid g hring x y (by unfold inBounds; omega) hb
      unfold interior at i1 i2
      refine ⟨⟨by omega, by omega⟩, by omega, by omega, ?_⟩
      rcases hf with hf | hf
      · exact Or.inr ⟨hf, hb⟩
      · exact Or.inl ⟨hf, ha⟩
  · intro x y h
    simp only
    rw [if_neg]
    rintro ⟨⟨a, b⟩, c, d, _⟩
    exact h ⟨by omega, by omega, by omega, by omega⟩
  · intro x y h1 h2 h3 h4
    simp only
    refine if_congr ?_ rfl rfl
    unfold correctsV
    constructor
    · rintro ⟨_, _, _, hc⟩
      rcases hc with ⟨a, b⟩ | ⟨a, b⟩
      · exact ⟨Or.inr a, b, by rw [a]; decide⟩
      · exact ⟨Or.inl b, by rw [b]; decide, a⟩
    · rintro ⟨hf, ha, hb⟩
      have i1 := interior_of_not_solid g hring x (y - 1) (by unfold inBounds; omega) ha
      have i2 := interior_of_not_solid g hring x y (by unfold inBounds; omega) hb
      unfold interior at i1 i2
      refine ⟨⟨by omega, by omega⟩, by omega, by omega, ?_⟩
      rcases hf with hf | hf
      · exact Or.inr ⟨hb, hf⟩
      · exact Or.inl ⟨hf, ha⟩
  · intro x y h
    simp only
    rw [if_neg]
    rintro ⟨⟨a, b⟩, c, d, _⟩
    exact h ⟨by omega, by omega, by omega, by omega⟩

/-- C13. Gradient correction of `divFreeField` on a grid (at least two cells per axis)
whose outer ring is `SOLID_CELL`, for any potential `q`. A `u` face `(x, y)` with two
adjacent cells `(x - 1, y)`, `(x, y)` becomes `u - (q(x, y) - q(x - 1, y))` when these
cells contain a `FLUID_CELL` and no `SOLID_CELL`, and is unchanged otherwise; every other
entry of `u` is unchanged. A `v` face `(x, y)` with two adjacent cells `(x, y - 1)`,
`(x, y)` becomes `v - (q(x, y) - q(x, y - 1))` when these cells contain a `FLUID_CELL` and
no `SOLID_CELL`, and is unchanged otherwise; every other entry of `v` is unchanged. -/
theorem divFreeField_correction_faces (q : grid_2D F) (g : MACGrid F)
    (hx : 2 ≤ g.xCellCount) (hy : 2 ≤ g.yCellCount)
    (hring : ∀ i j : Int, outerRing g i j → g.cellTypes i j = cellType.SOLID_CELL) :
    (∀ x y : Int, 1 ≤ x → x < g.xCellCount → 0 ≤ y → y < g.yCellCount →
      (divFreeField_correctV q (divFreeField_correctU q g)).u x y =
        if (g.cellTypes (x - 1) y = cellType.FLUID_CELL ∨ g.cellTypes x y = cellType.FLUID_CELL) ∧
            g.cellTypes (x - 1) y ≠ cellType.SOLID_CELL ∧ g.cellTypes x y ≠ cellType.SOLID_CELL
        then g.u x y - (q x y - q (x - 1) y) else g.u x y) ∧
    (∀ x y : Int, ¬ (1 ≤ x ∧ x < g.xCellCount ∧ 0 ≤ y ∧ y < g.yCellCount) →
      (divFreeField_correctV q (divFreeField_correctU q g)).u x y = g.u x y) ∧
    (∀ x y : Int, 0 ≤ x → x < g.xCellCount → 1 ≤ y → y < g.yCellCount →
      (divFreeField_correctV q (divFreeField_correctU q g)).v x y =
        if (g.cellTypes x (y - 1) = cellType.FLUID_CELL ∨ g.cellTypes x y = cellType.FLUID_CELL) ∧
            g.cellTypes x (y - 1) ≠ cellType.SOLID_CELL ∧ g.cellTypes x y ≠ cellType.SOLID_CELL
        then g.v x y - (q x y - q x (y - 1)) else g.v x y) ∧
    (∀ x y : Int, ¬ (0 ≤ x ∧ x < g.xCellCount ∧ 1 ≤ y ∧ y < g.yCellCount) →
      (divFreeField_correctV q (divFreeField_correctU q g)).v x y = g.v x y) :=
  divFreeField_correct_faces q g hx hy hring

/-- The outer ring of `walledGrid` is `SOLID_CELL`. -/
theorem walledGrid_ring (i j : Int) (h : outerRing (walledGrid : MACGrid F) i j) :
    (walledGrid : MACGrid F).cellTypes i j = cellType.SOLID_CELL := by
  obtain ⟨_, h⟩ := h
  have h' : i = 0 ∨ i = 4 ∨ j = 0 ∨ j = 4 := by
    simp only [walledGrid] at h
    omega
  simp only [walledGrid, if_pos h']

/-- C13, on `walledGrid` with the potential `q(x, y) = x`: the face `u(2, 2)`, between the
`EMPTY_CELL` `(1, 2)` and the `FLUID_CELL` `(2, 2)`, becomes `u(2, 2) - (q(2, 2) - q(1, 2))`,
and the face `u(1, 2)`, next to the `SOLID_CELL` `(0, 2)`, is unchanged. -/
theorem divFreeField_correction_faces_witness :
    (divFreeField_correctV (fun x _ => (x : ℚ))
        (divFreeField_correctU (fun x _ => (x : ℚ)) (walledGrid : MACGrid ℚ))).u 2 2 =
      (walledGrid : MACGrid ℚ).u 2 2 - ((2 : ℚ) - 1) ∧
    (divFreeField_correctV (fun x _ => (x : ℚ))
        (divFreeField_correctU (fun x _ => (x : ℚ)) (walledGrid : MACGrid ℚ))).u 1 2 =
      (walledGrid : MACGrid ℚ).u 1 2 := by
  have h := (divFreeField_correction_faces (fun x _ => (x : ℚ)) (walledGrid : MACGrid ℚ)
    (by decide) (by decide) walledGrid_ring).1
  constructor
  · have h2 := h 2 2 (by decide) (by decide) (by decide) (by decide)
    rw [h2]
    simp [walledGrid]
  · have h2 := h 1 2 (by decide) (by decide) (by decide) (by decide)
    rw [h2]
    simp [walledGrid]

/-- The divergence of the corrected velocities at a `FLUID_CELL` without `SOLID_CELL`
neighbour, on a grid whose outer ring is `SOLID_CELL`, for any potential `q`. -/
theorem divFreeField_corrected_divergence (q : grid_2D F) (g : MACGrid F)
    (hx : 2 ≤ g.xCellCount) (hy : 2 ≤ g.yCellCount)
    (hring : ∀ i j : Int, outerRing g i j → g.cellTypes i j = cellType.SOLID_CELL)
    (i j : Int) (hb : inBounds g i j) (hT : g.cellTypes i j = cellType.FLUID_CELL)
    (hl : g.cellTypes (i - 1) j ≠ cellType.SOLID_CELL)
    (hr : g.cellTypes (i + 1) j ≠ cellType.SOLID_CELL)
    (hd : g.cellTypes i (j - 1) ≠ cellType.SOLID_CELL)
    (ht : g.cellTypes i (j + 1) ≠ cellType.SOLID_CELL) :
    (divFreeField_correctV q (divFreeField_correctU q g)).u (i + 1) j -
        (divFreeField_correctV q (divFreeField_correctU q g)).u i j +
        (divFreeField_correctV q (divFreeField_correctU q g)).v i (j + 1) -
        (divFreeField_correctV q (divFreeField_correctU q g)).v i j =
      (g.u (i + 1) j - g.u i j + g.v i (j + 1) - g.v i j) -
        (q (i + 1) j + q (i - 1) j + q i (j + 1) + q i (j - 1) - 4 * q i j) := by
  have hns : g.cellTypes i j ≠ cellType.SOLID_CELL := by rw [hT]; decide
  have i0 := interior_of_not_solid g hring i j hb hns
  unfold interior at i0
  unfold inBounds at hb
  have il := interior_of_not_solid g hring (i - 1) j (by unfold inBounds; omega) hl
  have ir := interior_of_not_solid g hring (i + 1) j (by unfold inBounds; omega) hr
  have id := interior_of_not_solid g hring i (j - 1) (by unfold inBounds; omega) hd
  have it := interior_of_not_solid g hring i (j + 1) (by unfold inBounds; omega) ht
  unfold interior at il ir id it
  have e := divFreeField_correct_faces q g hx hy hring
  rw [e.1 (i + 1) j (by omega) (by omega) (by omega) (by omega),
    e.1 i j (by omega) (by omega) (by omega) (by omega),
    e.2.2.1 i (j + 1) (by omega) (by omega) (by omega) (by omega),
    e.2.2.1 i j (by omega) (by omega) (by omega) (by omega)]
  simp only [add_sub_cancel_right]
  rw [if_pos ⟨Or.inl hT, hns, hr⟩, if_pos ⟨Or.inr hT, hl, hns⟩, if_pos ⟨Or.inl hT, hns, ht⟩,
    if_pos ⟨Or.inr hT, hd, hns⟩]
  ring

/-- C16. In `divFreeField` on a grid (at least two cells per axis) whose outer ring is
`SOLID_CELL`, with `div` the divergence that `calculateDiv` computed at entry and `q` the
potential after the 50 relaxation rounds: at a `FLUID_CELL` `(i, j)` none of whose four
neighbours is a `SOLID_CELL`, the divergence of `u`, `v` after the two correction loops is
`div(i, j) - (q(i+1, j) + q(i-1, j) + q(i, j+1) + q(i, j-1) - 4 q(i, j))`; it is 0 exactly
when `q(i, j) = (q(i+1, j) + q(i-1, j) + q(i, j+1) + q(i, j-1) - div(i, j)) / 4`. -/
theorem divFreeField_residual_divergence (sb : BoundaryRules F) (g : MACGrid F)
    (hx : 2 ≤ g.xCellCount) (hy : 2 ≤ g.yCellCount)
    (hring : ∀ i j : Int, outerRing g i j → g.cellTypes i j = cellType.SOLID_CELL)
    (i j : Int) (hb : inBounds g i j) (hT : g.cellTypes i j = cellType.FLUID_CELL)
    (hl : g.cellTypes (i - 1) j ≠ cellType.SOLID_CELL)
    (hr : g.cellTypes (i + 1) j ≠ cellType.SOLID_CELL)
    (hd : g.cellTypes i (j - 1) ≠ cellType.SOLID_CELL)
    (ht : g.cellTypes i (j + 1) ≠ cellType.SOLID_CELL) :
    ((divFreeField_correctV (divFreeField_relax sb (calculateDiv g) 50)
          (divFreeField_correctU (divFreeField_relax sb (calculateDiv g) 50)
            (calculateDiv g))).u (i + 1) j -
        (divFreeField_correctV (divFreeField_relax sb (calculateDiv g) 50)
          (divFreeField_correctU (divFreeField_relax sb (calculateDiv g) 50)
            (calculateDiv g))).u i j +
        (divFreeField_correctV (divFreeField_relax sb (calculateDiv g) 50)
          (divFreeField_correctU (divFreeField_relax sb (calculateDiv g) 50)
            (calculateDiv g))).v i (j + 1) -
        (divFreeField_correctV (divFreeField_relax sb (calculateDiv g) 50)
          (divFreeField_correctU (divFreeField_relax sb (calculateDiv g) 50)
            (calculateDiv g))).v i j =
      (calculateDiv g).div i j -
        (divFreeField_relax sb (calculateDiv g) 50 (i + 1) j +
          divFreeField_relax sb (calculateDiv g) 50 (i - 1) j +
          divFreeField_relax sb (calculateDiv g) 50 i (j + 1) +
          divFreeField_relax sb (calculateDiv g) 50 i (j - 1) -
          4 * divFreeField_relax sb (calculateDiv g) 50 i j)) ∧
    ((divFreeField_correctV (divFreeField_relax sb (calculateDiv g) 50)
          (divFreeField_correctU (divFreeField_relax sb (calculateDiv g) 50)
            (calculateDiv g))).u (i + 1) j -
        (divFreeField_correctV (divFreeField_relax sb (calculateDiv g) 50)
          (divFreeField_correctU (divFreeField_relax sb (calculateDiv g) 50)
            (calculateDiv g))).u i j +
        (divFreeField_correctV (divFreeField_relax sb (calculateDiv g) 50)
          (divFreeField_correctU (divFreeField_relax sb (calculateDiv g) 50)
            (calculateDiv g))).v i (j + 1) -
        (divFreeField_correctV (divFreeField_relax sb (calculateDiv g) 50)
          (divFreeField_correctU (divFreeField_relax sb (calculateDiv g) 50)
            (calculateDiv g))).v i j = 0 ↔
      divFreeField_relax sb (calculateDiv g) 50 i j =
        (divFreeField_relax sb (calculateDiv g) 50 (i + 1) j +
          divFreeField_relax sb (calculateDiv g) 50 (i - 1) j +
          divFreeField_relax sb (calculateDiv g) 50 i (j + 1) +
          divFreeField_relax sb (calculateDiv g) 50 i (j - 1) -
          (calculateDiv g).div i j) / 4) := by
  generalize divFreeField_relax sb (calculateDiv g) 50 = q
  have hdiv : (calculateDiv g).div i j = g.u (i + 1) j - g.u i j + g.v i (j + 1) - g.v i j := by
    rw [calculateDiv_eq]
    simp only
    rw [if_pos hb, if_pos hT]
  have hc : (calculateDiv g).cellTypes = g.cellTypes :=
    calculateDiv_obs (fun s => s.cellTypes) (fun _ _ => rfl) g
  have hnx : (calculateDiv g).xCellCount = g.xCellCount :=
    calculateDiv_obs (fun s => s.xCellCount) (fun _ _ => rfl) g
  have hny : (calculateDiv g).yCellCount = g.yCellCount :=
    calculateDiv_obs (fun s => s.yCellCount) (fun _ _ => rfl) g
  have hu : (calculateDiv g).u = g.u := calculateDiv_obs (fun s => s.u) (fun _ _ => rfl) g
  have hv : (calculateDiv g).v = g.v := calculateDiv_obs (fun s => s.v) (fun _ _ => rfl) g
  have key2 := divFreeField_corrected_divergence q (calculateDiv g) (by rw [hnx]; exact hx)
    (by rw [hny]; exact hy)
    (by
      intro a b hab
      rw [hc]
      apply hring
      unfold outerRing inBounds at hab ⊢
      rw [hnx, hny] at hab
      exact hab)
    i j (by unfold inBounds at hb ⊢; rw [hnx, hny]; exact hb) (by rw [hc]; exact hT)
    (by rw [hc]; exact hl) (by rw [hc]; exact hr) (by rw [hc]; exact hd) (by rw [hc]; exact ht)
  rw [hu, hv, ← hdiv] at key2
  refine ⟨key2, ?_⟩
  rw [key2]
  constructor
  · intro h
    field_simp
    linarith
  · intro h
    rw [h]
    field_simp

/-- C16, on `walledGrid` (`FLUID_CELL` at `(2, 2)`, `u(2, 2) = 1`), with `set_boundary` as
the specification describes it: the divergence after the two correction loops at `(2, 2)`
is `div(2, 2)` minus the five-point sum of `q`. -/
theorem divFreeField_residual_divergence_witness :
    (divFreeField_correctV (divFreeField_relax specBoundary (calculateDiv walledGrid) 50)
          (divFreeField_correctU (divFreeField_relax specBoundary (calculateDiv walledGrid) 50)
            (calculateDiv (walledGrid : MACGrid ℚ)))).u (2 + 1) 2 -
        (divFreeField_correctV (divFreeField_relax specBoundary (calculateDiv walledGrid) 50)
          (divFreeField_correctU (divFreeField_relax specBoundary (calculateDiv walledGrid) 50)
            (calculateDiv (walledGrid : MACGrid ℚ)))).u 2 2 +
        (divFreeField_correctV (divFreeField_relax specBoundary (calculateDiv walledGrid) 50)
          (divFreeField_correctU (divFreeField_relax specBoundary (calculateDiv walledGrid) 50)
            (calculateDiv (walledGrid : MACGrid ℚ)))).v 2 (2 + 1) -
        (divFreeField_correctV (divFreeField_relax specBoundary (calculateDiv walledGrid) 50)
          (divFreeField_correctU (divFreeField_relax specBoundary (calculateDiv walledGrid) 50)
            (calculateDiv (walledGrid : MACGrid ℚ)))).v 2 2 =
      (calculateDiv (walledGrid : MACGrid ℚ)).div 2 2 -
        (divFreeField_relax specBoundary (calculateDiv (walledGrid : MACGrid ℚ)) 50 (2 + 1) 2 +
          divFreeField_relax specBoundary (calculateDiv (walledGrid : MACGrid ℚ)) 50 (2 - 1) 2 +
          divFreeField_relax specBoundary (calculateDiv (walledGrid : MACGrid ℚ)) 50 2 (2 + 1) +
          divFreeField_relax specBoundary (calculateDiv (walledGrid : MACGrid ℚ)) 50 2 (2 - 1) -
          4 * divFreeField_relax specBoundary (calculateDiv (walledGrid : MACGrid ℚ)) 50 2 2) :=
  (divFreeField_residual_divergence specBoundary (walledGrid : MACGrid ℚ) (by decide)
    (by decide) walledGrid_ring 2 2 (by decide) (by simp [walledGrid]) (by simp [walledGrid])
    (by simp [walledGrid]) (by simp [walledGrid]) (by simp [walledGrid])).1

/-! ## The relaxation sweep -/

/-- One step of the inner relaxation loop moves the sweep from `(x, y)` to `(x, y + 1)`. -/
theorem divFreeField_sweep_step (g : MACGrid F) (q qc : grid_2D F) (x y : Int)
    (hi : interior g x y) (h : sweptUpTo g q x y qc) :
    sweptUpTo g q x (y + 1)
      (if g.cellTypes x y = cellType.FLUID_CELL then
        qc.set x y ((qc (x + 1) y + qc (x - 1) y + qc x (y + 1) + qc x (y - 1) - g.div x y) / 4)
      else qc) := by
  obtain ⟨h1, h2⟩ := h
  by_cases hT : g.cellTypes x y = cellType.FLUID_CELL
  · rw [if_pos hT]
    have e1 : qc (x + 1) y = q (x + 1) y :=
      h1 _ _ (by rintro ⟨_, _, hs⟩; unfold sweptBefore at hs; omega)
    have e2 : qc x (y + 1) = q x (y + 1) :=
      h1 _ _ (by rintro ⟨_, _, hs⟩; unfold sweptBefore at hs; omega)
    refine ⟨?_, ?_⟩
    · intro a b hab
      have hne : ¬ (a = x ∧ b = y) := by
        rintro ⟨rfl, rfl⟩
        exact hab ⟨hi, hT, by unfold sweptBefore; omega⟩
      rw [grid_2D.set_apply, if_neg hne]
      refine h1 a b ?_
      rintro ⟨p1, p2, p3⟩
      exact hab ⟨p1, p2, by unfold sweptBefore at p3 ⊢; omega⟩
    · intro a b ia Ta sa
      unfold sweptBefore at sa
      have n1 : ¬ (a - 1 = x ∧ b = y) := by omega
      have n2 : ¬ (a = x ∧ b - 1 = y) := by omega
      by_cases hab : a = x ∧ b = y
      · simp only [grid_2D.set_apply, if_pos hab, if_neg n1, if_neg n2]
        obtain ⟨rfl, rfl⟩ := hab
        rw [e1, e2]
      · simp only [grid_2D.set_apply, if_neg hab, if_neg n1, if_neg n2]
        exact h2 a b ia Ta (by unfold sweptBefore; omega)
  · rw [if_neg hT]
    refine ⟨?_, ?_⟩
    · intro a b hab
      refine h1 a b ?_
      rintro ⟨p1, p2, p3⟩
      exact hab ⟨p1, p2, by unfold sweptBefore at p3 ⊢; omega⟩
    · intro a b ia Ta sa
      refine h2 a b ia Ta ?_
      unfold sweptBefore at sa ⊢
      have hne : ¬ (a = x ∧ b = y) := by
        rintro ⟨rfl, rfl⟩; exact hT Ta
      omega

/-- A relaxation sweep of `divFreeField` updates in place: at an interior `FLUID_CELL` the
new value is computed from the new values of `(x - 1, y)` and `(x, y - 1)` and the old
values of `(x + 1, y)` and `(x, y + 1)`; every other cell keeps its value. -/
theorem divFreeField_sweep_spec (g : MACGrid F) (q : grid_2D F)
    (hx : 2 ≤ g.xCellCount) (hy : 2 ≤ g.yCellCount) :
    (∀ x y : Int, interior g x y → g.cellTypes x y = cellType.FLUID_CELL →
      divFreeField_sweep g q x y =
        (q (x + 1) y + divFreeField_sweep g q (x - 1) y + q x (y + 1) +
          divFreeField_sweep g q x (y - 1) - g.div x y) / 4) ∧
    (∀ x y : Int, ¬ (interior g x y ∧ g.cellTypes x y = cellType.FLUID_CELL) →
      divFreeField_sweep g q x y = q x y) := by
  have key : sweptUpTo g q ((g.xCellCount - 1 : Nat) : Int) 1 (divFreeField_sweep g q) := by
    unfold divFreeField_sweep
    refine forLt_induction (fun x qc => sweptUpTo g q x 1 qc) _ 1 (g.xCellCount - 1) (by omega)
      q ?_ ?_
    · refine ⟨fun _ _ _ => rfl, ?_⟩
      intro a b ia _ sa
      unfold interior at ia; unfold sweptBefore at sa
      exfalso; push_cast at sa; omega
    · intro x qc hx1 hx2 hqc
      have inner : sweptUpTo g q x ((g.yCellCount - 1 : Nat) : Int)
          (forLt 1 (g.yCellCount - 1) (fun y q =>
            if g.cellTypes x y = cellType.FLUID_CELL then
              q.set x y ((q (x + 1) y + q (x - 1) y + q x (y + 1) + q x (y - 1) - g.div x y) / 4)
            else q) qc) := by
        refine forLt_induction (fun y qc => sweptUpTo g q x y qc) _ 1 (g.yCellCount - 1)
          (by omega) qc (by simpa using hqc) ?_
        intro y qc hy1 hy2 hqc
        exact divFreeField_sweep_step g q qc x y
          (by unfold interior; push_cast at hx1 hy1; omega) hqc
      obtain ⟨i1, i2⟩ := inner
      refine ⟨?_, ?_⟩
      · intro a b hab
        refine i1 a b ?_
        rintro ⟨p1, p2, p3⟩
        refine hab ⟨p1, p2, ?_⟩
        unfold sweptBefore at p3 ⊢; unfold interior at p1; omega
      · intro a b ia Ta sa
        refine i2 a b ia Ta ?_
        unfold sweptBefore at sa ⊢; unfold interior at ia; omega
  obtain ⟨k1, k2⟩ := key
  refine ⟨?_, ?_⟩
  · intro x y ix Tx
    refine k2 x y ix Tx ?_
    unfold sweptBefore; unfold interior at ix; omega
  · intro x y h
    exact k1 x y (fun p => h ⟨p.1, p.2.1⟩)

/-- C11, as stated, fails: on `twoFluidGrid` (adjacent `FLUID_CELL`s `(1, 1)`, `(2, 1)`,
`div(1, 1) = 4`), one sweep from `q = 0` gives `q(2, 1) = -1/4`, because it reads the
value `-1` just written at `(1, 1)`; the Jacobi update from the previous iterate gives 0. -/
theorem divFreeField_sweep_not_jacobi :
    divFreeField_sweep (twoFluidGrid : MACGrid ℚ) (fun _ _ => 0) 2 1 = -1 / 4 ∧
    jacobiSweep (twoFluidGrid : MACGrid ℚ) (fun _ _ => 0) 2 1 = 0 ∧
    divFreeField_sweep (twoFluidGrid : MACGrid ℚ) (fun _ _ => 0) 2 1 ≠
      jacobiSweep (twoFluidGrid : MACGrid ℚ) (fun _ _ => 0) 2 1 := by
  obtain ⟨h1, h2⟩ := divFreeField_sweep_spec (twoFluidGrid : MACGrid ℚ) (fun _ _ => 0)
    (by decide) (by decide)
  have a01 := h2 0 1 (by rintro ⟨h, _⟩; revert h; decide)
  have a10 := h2 1 0 (by rintro ⟨h, _⟩; revert h; decide)
  have a20 := h2 2 0 (by rintro ⟨h, _⟩; revert h; decide)
  have a11 := h1 1 1 (by decide) (by simp [twoFluidGrid])
  have a21 := h1 2 1 (by decide) (by simp [twoFluidGrid])
  simp only [show (1 : Int) - 1 = 0 by norm_num, show (2 : Int) - 1 = 1 by norm_num] at a11 a21
  rw [a01, a10] at a11
  rw [a11, a20] at a21
  have s : divFreeField_sweep (twoFluidGrid : MACGrid ℚ) (fun _ _ => 0) 2 1 = -1 / 4 := by
    rw [a21]; simp [twoFluidGrid]
  have j : jacobiSweep (twoFluidGrid : MACGrid ℚ) (fun _ _ => 0) 2 1 = 0 := by
    simp [jacobiSweep, twoFluidGrid]
  refine ⟨s, j, ?_⟩
  rw [s, j]; norm_num

/-- C11, amended. On a grid with at least two cells per axis, a relaxation sweep of
`divFreeField` is an in-place update: at every interior `FLUID_CELL` the new value is
`(q(i+1, j) + q'(i-1, j) + q(i, j+1) + q'(i, j-1) - div(i, j)) / 4`, where `q` is the
potential before the sweep and `q'` the potential the sweep produces (the cells `(i-1, j)`
and `(i, j-1)` have already been visited); every cell that is not an interior `FLUID_CELL`
keeps the value it had before the sweep. -/
theorem divFreeField_sweep_in_place (g : MACGrid F) (q : grid_2D F)
    (hx : 2 ≤ g.xCellCount) (hy : 2 ≤ g.yCellCount) :
    (∀ x y : Int, interior g x y → g.cellTypes x y = cellType.FLUID_CELL →
      divFreeField_sweep g q x y =
        (q (x + 1) y + divFreeField_sweep g q (x - 1) y + q x (y + 1) +
          divFreeField_sweep g q x (y - 1) - g.div x y) / 4) ∧
    (∀ x y : Int, ¬ (interior g x y ∧ g.cellTypes x y = cellType.FLUID_CELL) →
      divFreeField_sweep g q x y = q x y) :=
  divFreeField_sweep_spec g q hx hy

/-- C11, amended, on `twoFluidGrid` from `q = 0`: the new value at `(2, 1)` uses the new
value at `(1, 1)`. -/
theorem divFreeField_sweep_in_place_witness :
    divFreeField_sweep (twoFluidGrid : MACGrid ℚ) (fun _ _ => 0) 2 1 =
      ((fun _ _ => (0 : ℚ)) (2 + 1) 1 +
        divFreeField_sweep (twoFluidGrid : MACGrid ℚ) (fun _ _ => 0) (2 - 1) 1 +
        (fun _ _ => (0 : ℚ)) 2 (1 + 1) +
        divFreeField_sweep (twoFluidGrid : MACGrid ℚ) (fun _ _ => 0) 2 (1 - 1) -
        (twoFluidGrid : MACGrid ℚ).div 2 1) / 4 :=
  (divFreeField_sweep_in_place (twoFluidGrid : MACGrid ℚ) (fun _ _ => 0) (by decide)
    (by decide)).1 2 1 (by decide) (by simp [twoFluidGrid])

/-! ## The extrapolation rule: symmetry and convexity -/

/-- The coefficients of the two rules, on the same gaps, add up to 1. -/
theorem sweep_coeff_sum (a b : F) : sweepU_coeff a b + sweepV_coeff a b = 1 := by
  unfold sweepU_coeff sweepV_coeff
  by_cases h : a + b = 0
  · rw [if_pos h, if_pos h]; norm_num
  · rw [if_neg h, if_neg h, ← add_div, div_self h]

theorem sweepU_coeff_mem (a b : F) (ha : 0 ≤ a) (hb : 0 ≤ b) :
    0 ≤ sweepU_coeff a b ∧ sweepU_coeff a b ≤ 1 := by
  unfold sweepU_coeff
  by_cases h : a + b = 0
  · rw [if_pos h]; constructor <;> norm_num
  · rw [if_neg h]
    have hp : 0 < a + b := lt_of_le_of_ne (add_nonneg ha hb) (Ne.symm h)
    exact ⟨div_nonneg ha (le_of_lt hp), (div_le_one hp).mpr (by linarith)⟩

theorem sweepV_coeff_mem (a b : F) (ha : 0 ≤ a) (hb : 0 ≤ b) :
    0 ≤ sweepV_coeff a b ∧ sweepV_coeff a b ≤ 1 := by
  unfold sweepV_coeff
  by_cases h : a + b = 0
  · rw [if_pos h]; constructor <;> norm_num
  · rw [if_neg h]
    have hp : 0 < a + b := lt_of_le_of_ne (add_nonneg ha hb) (Ne.symm h)
    exact ⟨div_nonneg hb (le_of_lt hp), (div_le_one hp).mpr (by linarith)⟩

/-- C14. The rule of `sweepV` is the rule of `sweepU` under axis swap: applying
`sweepV`'s per-cell update at `(i, j)` with direction `(di, dj)` and then swapping the
axes gives the same state as swapping the axes first and applying `sweepU`'s per-cell
update at `(j, i)` with direction `(dj, di)`; in particular the written face array is the
same, entry by entry, and one update fires exactly when the other does. -/
theorem sweepV_is_sweepU_transposed (g : MACGrid F) (i j di dj : Int) :
    transposed (sweepV_updateFunc i j di dj g) = sweepU_updateFunc j i dj di (transposed g) ∧
    (∀ a b : Int, (sweepV_updateFunc i j di dj g).v a b =
      (sweepU_updateFunc j i dj di (transposed g)).u b a) := by
  have main : transposed (sweepV_updateFunc i j di dj g) =
      sweepU_updateFunc j i dj di (transposed g) := by
    unfold sweepV_updateFunc sweepU_updateFunc
    simp only [transposed]
    by_cases hg : g.cellTypes i j = cellType.EMPTY_CELL ∧
        g.cellTypes i (j - 1) = cellType.EMPTY_CELL
    · rw [if_pos hg, if_pos hg]
      by_cases h1 : g.distanceField i j - g.distanceField i (j - dj) < 0
      · rw [if_pos h1, if_pos h1]
      · rw [if_neg h1, if_neg h1]
        by_cases h2 : g.distanceField i j - g.distanceField (i - di) j < 0
        · rw [if_pos h2, if_pos h2]
        · rw [if_neg h2, if_neg h2]
          simp only [MACGrid.mk.injEq, true_and, and_true]
          funext a b
          simp only [grid_2D.set_apply]
          have hs := sweep_coeff_sum (g.distanceField i j - g.distanceField i (j - dj))
            (g.distanceField i j - g.distanceField (i - di) j)
          by_cases hab : b = i ∧ a = j
          · rw [if_pos hab, if_pos ⟨hab.2, hab.1⟩]
            have e : sweepU_coeff (g.distanceField i j - g.distanceField i (j - dj))
                (g.distanceField i j - g.distanceField (i - di) j) =
                1 - sweepV_coeff (g.distanceField i j - g.distanceField i (j - dj))
                  (g.distanceField i j - g.distanceField (i - di) j) := by linarith
            rw [e]; ring
          · rw [if_neg hab, if_neg (fun h => hab ⟨h.2, h.1⟩)]
    · rw [if_neg hg, if_neg hg]
  refine ⟨main, ?_⟩
  intro a b
  have h := congrArg (fun s : MACGrid F => s.u b a) main
  exact h

/-- A blend with a coefficient in `[0, 1]` lies between the two blended values. -/
theorem blend_between (c x y : F) (h0 : 0 ≤ c) (h1 : c ≤ 1) :
    min x y ≤ c * x + (1 - c) * y ∧ c * x + (1 - c) * y ≤ max x y := by
  have hc : 0 ≤ 1 - c := by linarith
  constructor
  · have a1 : c * min x y ≤ c * x := mul_le_mul_of_nonneg_left (min_le_left x y) h0
    have a2 : (1 - c) * min x y ≤ (1 - c) * y := mul_le_mul_of_nonneg_left (min_le_right x y) hc
    nlinarith
  · have a1 : c * x ≤ c * max x y := mul_le_mul_of_nonneg_left (le_max_left x y) h0
    have a2 : (1 - c) * y ≤ (1 - c) * max x y := mul_le_mul_of_nonneg_left (le_max_right x y) hc
    nlinarith

/-- What the rule of `sweepU` does to `u`: every entry other than `(i, j)` is unchanged,
and the entry `(i, j)` is unchanged or lies between the two neighbour values. -/
theorem sweepU_updateFunc_between (g : MACGrid F) (i j di dj : Int) :
    (∀ a b : Int, ¬ (a = i ∧ b = j) → (sweepU_updateFunc i j di dj g).u a b = g.u a b) ∧
    ((sweepU_updateFunc i j di dj g).u i j = g.u i j ∨
      (min (g.u (i - di) j) (g.u i (j - dj)) ≤ (sweepU_updateFunc i j di dj g).u i j ∧
        (sweepU_updateFunc i j di dj g).u i j ≤ max (g.u (i - di) j) (g.u i (j - dj)))) := by
  unfold sweepU_updateFunc
  simp only
  split_ifs with hg h1 h2
  · exact ⟨fun _ _ _ => rfl, Or.inl rfl⟩
  · exact ⟨fun _ _ _ => rfl, Or.inl rfl⟩
  · refine ⟨fun a b hab => by simp only [grid_2D.set_apply, if_neg hab], Or.inr ?_⟩
    simp only [grid_2D.set_apply, and_self, if_true]
    have hc := sweepU_coeff_mem _ _ (not_lt.mp h1) (not_lt.mp h2)
    exact blend_between _ _ _ hc.1 hc.2
  · exact ⟨fun _ _ _ => rfl, Or.inl rfl⟩

/-- What the rule of `sweepV` does to `v`: every entry other than `(i, j)` is unchanged,
and the entry `(i, j)` is unchanged or lies between the two neighbour values. -/
theorem sweepV_updateFunc_between (g : MACGrid F) (i j di dj : Int) :
    (∀ a b : Int, ¬ (a = i ∧ b = j) → (sweepV_updateFunc i j di dj g).v a b = g.v a b) ∧
    ((sweepV_updateFunc i j di dj g).v i j = g.v i j ∨
      (min (g.v (i - di) j) (g.v i (j - dj)) ≤ (sweepV_updateFunc i j di dj g).v i j ∧
        (sweepV_updateFunc i j di dj g).v i j ≤ max (g.v (i - di) j) (g.v i (j - dj)))) := by
  unfold sweepV_updateFunc
  simp only
  split_ifs with hg h1 h2
  · exact ⟨fun _ _ _ => rfl, Or.inl rfl⟩
  · exact ⟨fun _ _ _ => rfl, Or.inl rfl⟩
  · refine ⟨fun a b hab => by simp only [grid_2D.set_apply, if_neg hab], Or.inr ?_⟩
    simp only [grid_2D.set_apply, and_self, if_true]
    have hc := sweepV_coeff_mem _ _ (not_lt.mp h1) (not_lt.mp h2)
    exact blend_between _ _ _ hc.1 hc.2
  · exact ⟨fun _ _ _ => rfl, Or.inl rfl⟩

/-- Bounds that hold on a set of faces containing the two neighbours of `(i, j)` still
hold there after the rule of `sweepU`. -/
theorem sweepU_updateFunc_bounds (S : Int → Int → Prop) (lo hi : F) (g : MACGrid F)
    (i j di dj : Int) (hn1 : S (i - di) j) (hn2 : S i (j - dj))
    (h : ∀ a b, S a b → lo ≤ g.u a b ∧ g.u a b ≤ hi) :
    ∀ a b, S a b → lo ≤ (sweepU_updateFunc i j di dj g).u a b ∧
      (sweepU_updateFunc i j di dj g).u a b ≤ hi := by
  obtain ⟨e1, e2⟩ := sweepU_updateFunc_between g i j di dj
  intro a b hab
  by_cases hc : a = i ∧ b = j
  · obtain ⟨rfl, rfl⟩ := hc
    rcases e2 with e | ⟨l, u⟩
    · rw [e]; exact h _ _ hab
    · exact ⟨le_trans (le_min (h _ _ hn1).1 (h _ _ hn2).1) l,
        le_trans u (max_le (h _ _ hn1).2 (h _ _ hn2).2)⟩
  · rw [e1 a b hc]; exact h _ _ hab

/-- Bounds that hold on a set of faces containing the two neighbours of `(i, j)` still
hold there after the rule of `sweepV`. -/
theorem sweepV_updateFunc_bounds (S : Int → Int → Prop) (lo hi : F) (g : MACGrid F)
    (i j di dj : Int) (hn1 : S (i - di) j) (hn2 : S i (j - dj))
    (h : ∀ a b, S a b → lo ≤ g.v a b ∧ g.v a b ≤ hi) :
    ∀ a b, S a b → lo ≤ (sweepV_updateFunc i j di dj g).v a b ∧
      (sweepV_updateFunc i j di dj g).v a b ≤ hi := by
  obtain ⟨e1, e2⟩ := sweepV_updateFunc_between g i j di dj
  intro a b hab
  by_cases hc : a = i ∧ b = j
  · obtain ⟨rfl, rfl⟩ := hc
    rcases e2 with e | ⟨l, u⟩
    · rw [e]; exact h _ _ hab
    · exact ⟨le_trans (le_min (h _ _ hn1).1 (h _ _ hn2).1) l,
        le_trans u (max_le (h _ _ hn1).2 (h _ _ hn2).2)⟩
  · rw [e1 a b hc]; exact h _ _ hab

/-- C19. The extrapolation rules are convex blends. For non-negative gaps the coefficient
of `sweepU` and of `sweepV` lies in `[0, 1]`; whatever the rule does at `(i, j)`, every
other face is unchanged and the face `(i, j)` is unchanged or lies between the minimum and
the maximum of `w(i - di, j)` and `w(i, j - dj)`; so bounds `lo ≤ w ≤ hi` on the faces of
the array (`u` is `(nx+1) × ny`, `v` is `nx × (ny+1)`) are kept by a whole sweep cycle on a
grid with at least two cells per axis, and bounds on all entries are kept by any
`performSweep` pass. -/
theorem sweep_convex_blend (g : MACGrid F) (lo hi : F) :
    (∀ a b : F, 0 ≤ a → 0 ≤ b →
      (0 ≤ sweepU_coeff a b ∧ sweepU_coeff a b ≤ 1) ∧
      (0 ≤ sweepV_coeff a b ∧ sweepV_coeff a b ≤ 1)) ∧
    (∀ i j di dj : Int,
      (∀ a b : Int, ¬ (a = i ∧ b = j) → (sweepU_updateFunc i j di dj g).u a b = g.u a b) ∧
      ((sweepU_updateFunc i j di dj g).u i j = g.u i j ∨
        (min (g.u (i - di) j) (g.u i (j - dj)) ≤ (sweepU_updateFunc i j di dj g).u i j ∧
          (sweepU_updateFunc i j di dj g).u i j ≤ max (g.u (i - di) j) (g.u i (j - dj)))) ∧
      (∀ a b : Int, ¬ (a = i ∧ b = j) → (sweepV_updateFunc i j di dj g).v a b = g.v a b) ∧
      ((sweepV_updateFunc i j di dj g).v i j = g.v i j ∨
        (min (g.v (i - di) j) (g.v i (j - dj)) ≤ (sweepV_updateFunc i j di dj g).v i j ∧
          (sweepV_updateFunc i j di dj g).v i j ≤ max (g.v (i - di) j) (g.v i (j - dj))))) ∧
    (∀ fromX toX fromY toY : Int,
      ((∀ a b : Int, lo ≤ g.u a b ∧ g.u a b ≤ hi) →
        ∀ a b : Int, lo ≤ (performSweep fromX toX fromY toY sweepU_updateFunc g).u a b ∧
          (performSweep fromX toX fromY toY sweepU_updateFunc g).u a b ≤ hi) ∧
      ((∀ a b : Int, lo ≤ g.v a b ∧ g.v a b ≤ hi) →
        ∀ a b : Int, lo ≤ (performSweep fromX toX fromY toY sweepV_updateFunc g).v a b ∧
          (performSweep fromX toX fromY toY sweepV_updateFunc g).v a b ≤ hi)) ∧
    (2 ≤ g.xCellCount → 2 ≤ g.yCellCount →
      ((∀ a b : Int, 0 ≤ a → a ≤ g.xCellCount → 0 ≤ b → b < g.yCellCount →
          lo ≤ g.u a b ∧ g.u a b ≤ hi) →
        ∀ a b : Int, 0 ≤ a → a ≤ g.xCellCount → 0 ≤ b → b < g.yCellCount →
          lo ≤ (sweepCycle sweepU_updateFunc g).u a b ∧
            (sweepCycle sweepU_updateFunc g).u a b ≤ hi) ∧
      ((∀ a b : Int, 0 ≤ a → a < g.xCellCount → 0 ≤ b → b ≤ g.yCellCount →
          lo ≤ g.v a b ∧ g.v a b ≤ hi) →
        ∀ a b : Int, 0 ≤ a → a < g.xCellCount → 0 ≤ b → b ≤ g.yCellCount →
          lo ≤ (sweepCycle sweepV_updateFunc g).v a b ∧
            (sweepCycle sweepV_updateFunc g).v a b ≤ hi)) := by
  refine ⟨fun a b ha hb => ⟨sweepU_coeff_mem a b ha hb, sweepV_coeff_mem a b ha hb⟩, ?_, ?_, ?_⟩
  · intro i j di dj
    exact ⟨(sweepU_updateFunc_between g i j di dj).1, (sweepU_updateFunc_between g i j di dj).2,
      (sweepV_updateFunc_between g i j di dj).1, (sweepV_updateFunc_between g i j di dj).2⟩
  · intro fromX toX fromY toY
    constructor
    · intro h a b
      have := performSweep_preserves
        (fun s : MACGrid F => ∀ a b : Int, True → lo ≤ s.u a b ∧ s.u a b ≤ hi)
        sweepU_updateFunc fromX toX fromY toY g (fun a b _ => h a b)
        (fun i j di dj s _ _ hs =>
          sweepU_updateFunc_bounds (fun _ _ => True) lo hi s i j di dj trivial trivial hs)
      exact this a b trivial
    · intro h a b
      have := performSweep_preserves
        (fun s : MACGrid F => ∀ a b : Int, True → lo ≤ s.v a b ∧ s.v a b ≤ hi)
        sweepV_updateFunc fromX toX fromY toY g (fun a b _ => h a b)
        (fun i j di dj s _ _ hs =>
          sweepV_updateFunc_bounds (fun _ _ => True) lo hi s i j di dj trivial trivial hs)
      exact this a b trivial
  · intro hx hy
    constructor
    · intro h
      have := sweepCycle_preserves
        (fun s : MACGrid F => (s.xCellCount = g.xCellCount ∧ s.yCellCount = g.yCellCount) ∧
          ∀ a b : Int, (0 ≤ a ∧ a ≤ g.xCellCount ∧ 0 ≤ b ∧ b < g.yCellCount) →
            lo ≤ s.u a b ∧ s.u a b ≤ hi)
        sweepU_updateFunc g.xCellCount g.yCellCount hx hy g
        ⟨⟨rfl, rfl⟩, fun a b hab => h a b hab.1 hab.2.1 hab.2.2.1 hab.2.2.2⟩
        (fun s hs => hs.1)
        (fun i j di dj s hv hs =>
          ⟨(sweepU_updateFunc_obs
              (fun t => t.xCellCount = g.xCellCount ∧ t.yCellCount = g.yCellCount)
              (fun _ _ => rfl) i j di dj s).mpr hs.1,
            sweepU_updateFunc_bounds _ lo hi s i j di dj
              (by unfold cycleVisits at hv; omega) (by unfold cycleVisits at hv; omega) hs.2⟩)
      intro a b h1 h2 h3 h4
      exact this.2 a b ⟨h1, h2, h3, h4⟩
    · intro h
      have := sweepCycle_preserves
        (fun s : MACGrid F => (s.xCellCount = g.xCellCount ∧ s.yCellCount = g.yCellCount) ∧
          ∀ a b : Int, (0 ≤ a ∧ a < g.xCellCount ∧ 0 ≤ b ∧ b ≤ g.yCellCount) →
            lo ≤ s.v a b ∧ s.v a b ≤ hi)
        sweepV_updateFunc g.xCellCount g.yCellCount hx hy g
        ⟨⟨rfl, rfl⟩, fun a b hab => h a b hab.1 hab.2.1 hab.2.2.1 hab.2.2.2⟩
        (fun s hs => hs.1)
        (fun i j di dj s hv hs =>
          ⟨(sweepV_updateFunc_obs
              (fun t => t.xCellCount = g.xCellCount ∧ t.yCellCount = g.yCellCount)
              (fun _ _ => rfl) i j di dj s).mpr hs.1,
            sweepV_updateFunc_bounds _ lo hi s i j di dj
              (by unfold cycleVisits at hv; omega) (by unfold cycleVisits at hv; omega) hs.2⟩)
      intro a b h1 h2 h3 h4
      exact this.2 a b ⟨h1, h2, h3, h4⟩

/-- C19, on `flatEmptyGrid` (`u(x, y) = x`): the rule of `sweepU` at `(1, 1)` with
direction `(1, 1)` leaves `u(1, 1)` unchanged or between `u(0, 1)` and `u(1, 0)`, and with
gaps 1 and 3 the coefficient of `sweepU` lies in `[0, 1]`. -/
theorem sweep_convex_blend_witness :
    ((sweepU_updateFunc 1 1 1 1 (flatEmptyGrid : MACGrid ℚ)).u 1 1 =
        (flatEmptyGrid : MACGrid ℚ).u 1 1 ∨
      (min ((flatEmptyGrid : MACGrid ℚ).u (1 - 1) 1) ((flatEmptyGrid : MACGrid ℚ).u 1 (1 - 1)) ≤
          (sweepU_updateFunc 1 1 1 1 (flatEmptyGrid : MACGrid ℚ)).u 1 1 ∧
        (sweepU_updateFunc 1 1 1 1 (flatEmptyGrid : MACGrid ℚ)).u 1 1 ≤
          max ((flatEmptyGrid : MACGrid ℚ).u (1 - 1) 1)
            ((flatEmptyGrid : MACGrid ℚ).u 1 (1 - 1)))) ∧
    (0 ≤ sweepU_coeff (1 : ℚ) 3 ∧ sweepU_coeff (1 : ℚ) 3 ≤ 1) :=
  ⟨((sweep_convex_blend (flatEmptyGrid : MACGrid ℚ) 0 2).2.1 1 1 1 1).2.1,
    ((sweep_convex_blend (flatEmptyGrid : MACGrid ℚ) 0 2).1 1 3 (by norm_num)
      (by norm_num)).1⟩

/-! ## Monotone refinement of the distance field -/

/-- The per-cell rule of `updateDistanceField` never increases a distance. -/
theorem updateDistanceField_updateFunc_le (sqrt : F → F) (i j di dj : Int) (s : MACGrid F)
    (x y : Int) :
    (updateDistanceField_updateFunc sqrt i j di dj s).distanceField x y ≤
      s.distanceField x y := by
  unfold updateDistanceField_updateFunc
  by_cases hT : s.cellTypes i j = cellType.FLUID_CELL
  · rw [if_neg (not_not.mpr hT)]
  · rw [if_pos hT]
    simp only [grid_2D.set_apply]
    by_cases hxy : x = i ∧ y = j
    · obtain ⟨rfl, rfl⟩ := hxy
      rw [if_pos ⟨rfl, rfl⟩]; exact min_le_left _ _
    · rw [if_neg hxy]

/-- A counted loop whose body never increases a distance never increases a distance. -/
theorem loopN_distance_le (body : Int → MACGrid F → MACGrid F)
    (hbody : ∀ k s x y, (body k s).distanceField x y ≤ s.distanceField x y)
    (n : Nat) (k d : Int) (s : MACGrid F) (x y : Int) :
    (loopN n k d body s).distanceField x y ≤ s.distanceField x y :=
  loopN_induction (fun _ t => ∀ x y, t.distanceField x y ≤ s.distanceField x y) body d n k s
    (fun _ _ => le_refl _) (fun _ t _ ht x y => le_trans (hbody _ t x y) (ht x y)) x y

/-- A pass of `performSweep` with the rule of `updateDistanceField` never increases a
distance. -/
theorem performSweep_distance_le (sqrt : F → F) (fromX toX fromY toY : Int) (s : MACGrid F)
    (x y : Int) :
    (performSweep fromX toX fromY toY (updateDistanceField_updateFunc sqrt) s).distanceField x y ≤
      s.distanceField x y :=
  performSweep_preserves (fun t => ∀ x y, t.distanceField x y ≤ s.distanceField x y) _ _ _ _ _ s
    (fun _ _ => le_refl _)
    (fun i j di dj t _ _ ht x y =>
      le_trans (updateDistanceField_updateFunc_le sqrt i j di dj t x y) (ht x y)) x y

/-- A sweep cycle of `updateDistanceField` never increases a distance. -/
theorem sweepCycle_distance_le (sqrt : F → F) (s : MACGrid F) (x y : Int) :
    (sweepCycle (updateDistanceField_updateFunc sqrt) s).distanceField x y ≤
      s.distanceField x y := by
  unfold sweepCycle
  exact le_trans (performSweep_distance_le sqrt _ _ _ _ _ x y)
    (le_trans (performSweep_distance_le sqrt _ _ _ _ _ x y)
      (le_trans (performSweep_distance_le sqrt _ _ _ _ _ x y)
        (performSweep_distance_le sqrt _ _ _ _ _ x y)))

/-- The candidate of the rule of `updateDistanceField`, by the size of `|a - b|`. -/
theorem candidate_eq (sqrt : F → F) (a b : F) :
    (if min a b + 1 > max a b then (a + b + sqrt (2 - (a - b) ^ 2)) / 2 else min a b + 1) =
      (if 1 ≤ |a - b| then min a b + 1 else (a + b + sqrt (2 - (a - b) ^ 2)) / 2) ∧
    (|a - b| < 1 → 1 < 2 - (a - b) ^ 2) := by
  have habs : max a b - min a b = |a - b| := by
    rcases le_total a b with h | h
    · rw [max_eq_right h, min_eq_left h, abs_of_nonpos (by linarith)]; ring
    · rw [max_eq_left h, min_eq_right h, abs_of_nonneg (by linarith)]
  constructor
  · by_cases h : 1 ≤ |a - b|
    · rw [if_pos h, if_neg]
      rw [← habs] at h
      intro hc
      have : max a b < min a b + 1 := hc
      linarith
    · rw [if_neg h, if_pos]
      rw [← habs] at h
      show max a b < min a b + 1
      linarith [not_le.mp h]
  · intro h
    have h2 : (a - b) ^ 2 < 1 := by
      have := abs_lt.mp h
      nlinarith
    linarith

/-- The candidate of the rule of `updateDistanceField` is non-negative when both upwind
neighbours are, for a square root that is non-negative on non-negative arguments. -/
theorem candidate_nonneg (sqrt : F → F) (hsqrt : ∀ x : F, 0 ≤ x → 0 ≤ sqrt x) (a b : F)
    (ha : 0 ≤ a) (hb : 0 ≤ b) :
    0 ≤ (if min a b + 1 > max a b then (a + b + sqrt (2 - (a - b) ^ 2)) / 2
      else min a b + 1) := by
  obtain ⟨e, harg⟩ := candidate_eq sqrt a b
  rw [e]
  split_ifs with h
  · have : 0 ≤ min a b := le_min ha hb
    linarith
  · have h4 : 0 ≤ sqrt (2 - (a - b) ^ 2) := hsqrt _ (by linarith [harg (not_le.mp h)])
    exact div_nonneg (by linarith) (by norm_num)

/-- The per-cell rule of `updateDistanceField`, called at a cell that a sweep cycle
visits, keeps the distances of the grid non-negative. -/
theorem updateDistanceField_updateFunc_nonneg (sqrt : F → F)
    (hsqrt : ∀ x : F, 0 ≤ x → 0 ≤ sqrt x) (g : MACGrid F) (i j di dj : Int) (s : MACGrid F)
    (hv : cycleVisits g.xCellCount g.yCellCount i j di dj)
    (hs : ∀ x y, inBounds g x y → 0 ≤ s.distanceField x y) :
    ∀ x y, inBounds g x y →
      0 ≤ (updateDistanceField_updateFunc sqrt i j di dj s).distanceField x y := by
  unfold updateDistanceField_updateFunc
  unfold cycleVisits at hv
  by_cases hT : s.cellTypes i j = cellType.FLUID_CELL
  · rw [if_neg (not_not.mpr hT)]; exact hs
  · rw [if_pos hT]
    intro x y hb
    simp only [grid_2D.set_apply]
    by_cases hxy : x = i ∧ y = j
    · obtain ⟨rfl, rfl⟩ := hxy
      rw [if_pos ⟨rfl, rfl⟩]
      refine le_min (hs x y hb) (candidate_nonneg sqrt hsqrt _ _ ?_ ?_)
      · exact hs _ _ (by unfold inBounds at hb ⊢; omega)
      · exact hs _ _ (by unfold inBounds at hb ⊢; omega)
    · rw [if_neg hxy]; exact hs x y hb

theorem updateDistanceField_eq (sqrt : F → F) (g : MACGrid F) :
    updateDistanceField sqrt g =
      forLt 0 4 (fun _ g => sweepCycle (updateDistanceField_updateFunc sqrt) g)
        (updateDistanceField_seed g) := rfl

/-- A sweep cycle of `updateDistanceField` keeps the distances of the grid non-negative. -/
theorem sweepCycle_distance_nonneg (sqrt : F → F) (hsqrt : ∀ x : F, 0 ≤ x → 0 ≤ sqrt x)
    (g : MACGrid F) (hx : 2 ≤ g.xCellCount) (hy : 2 ≤ g.yCellCount) (s : MACGrid F)
    (hc : s.xCellCount = g.xCellCount ∧ s.yCellCount = g.yCellCount)
    (hs : ∀ x y, inBounds g x y → 0 ≤ s.distanceField x y) :
    ((sweepCycle (updateDistanceField_updateFunc sqrt) s).xCellCount = g.xCellCount ∧
      (sweepCycle (updateDistanceField_updateFunc sqrt) s).yCellCount = g.yCellCount) ∧
    ∀ x y, inBounds g x y →
      0 ≤ (sweepCycle (updateDistanceField_updateFunc sqrt) s).distanceField x y :=
  sweepCycle_preserves
    (fun t : MACGrid F => (t.xCellCount = g.xCellCount ∧ t.yCellCount = g.yCellCount) ∧
      ∀ x y, inBounds g x y → 0 ≤ t.distanceField x y)
    _ g.xCellCount g.yCellCount hx hy s ⟨hc, hs⟩ (fun _ ht => ht.1)
    (fun i j di dj t hv ht =>
      ⟨(updateDistanceField_updateFunc_obs
          (fun t => t.xCellCount = g.xCellCount ∧ t.yCellCount = g.yCellCount)
          (fun _ _ => rfl) sqrt i j di dj t).mpr ht.1,
        updateDistanceField_updateFunc_nonneg sqrt hsqrt g i j di dj t hv ht.2⟩)

/-- C15. Monotone refinement of the distance field, for a square root that is non-negative
on non-negative arguments and a grid with at least two cells per axis. At a cell that is
not a `FLUID_CELL` the rule stores `min(current, candidate)`, where the candidate is
`min(a, b) + 1` when `|a - b| ≥ 1` and `(a + b + sqrt(2 - (a - b)²)) / 2` otherwise, the
argument of the square root being then above 1. Every application of the rule, every
`performSweep` pass and every sweep cycle gives a field that is pointwise `≤` the field
before it; from a field that is `≥ 0` on the grid, the rule at a visited cell and every
sweep cycle give a field that is `≥ 0` on the grid; the seeded field is `≥ 0`, and the
field after `updateDistanceField` is `≤` the seeded field and `≥ 0` on the grid. -/
theorem updateDistanceField_monotone (sqrt : F → F) (hsqrt : ∀ x : F, 0 ≤ x → 0 ≤ sqrt x)
    (g : MACGrid F) (hx : 2 ≤ g.xCellCount) (hy : 2 ≤ g.yCellCount) :
    (∀ (s : MACGrid F) (i j di dj : Int), s.cellTypes i j ≠ cellType.FLUID_CELL →
      (updateDistanceField_updateFunc sqrt i j di dj s).distanceField i j =
        min (s.distanceField i j)
          (if 1 ≤ |s.distanceField (i - di) j - s.distanceField i (j - dj)| then
            min (s.distanceField (i - di) j) (s.distanceField i (j - dj)) + 1
          else (s.distanceField (i - di) j + s.distanceField i (j - dj) +
            sqrt (2 - (s.distanceField (i - di) j - s.distanceField i (j - dj)) ^ 2)) / 2)) ∧
    (∀ a b : F, |a - b| < 1 → 1 < 2 - (a - b) ^ 2) ∧
    (∀ (s : MACGrid F) (i j di dj x y : Int),
      (updateDistanceField_updateFunc sqrt i j di dj s).distanceField x y ≤
        s.distanceField x y) ∧
    (∀ (s : MACGrid F) (i j di dj : Int), cycleVisits g.xCellCount g.yCellCount i j di dj →
      (∀ x y, inBounds g x y → 0 ≤ s.distanceField x y) →
      ∀ x y, inBounds g x y →
        0 ≤ (updateDistanceField_updateFunc sqrt i j di dj s).distanceField x y) ∧
    (∀ (s : MACGrid F) (fromX toX fromY toY x y : Int),
      (performSweep fromX toX fromY toY
        (updateDistanceField_updateFunc sqrt) s).distanceField x y ≤ s.distanceField x y) ∧
    (∀ s : MACGrid F, s.xCellCount = g.xCellCount → s.yCellCount = g.yCellCount →
      (∀ x y, (sweepCycle (updateDistanceField_updateFunc sqrt) s).distanceField x y ≤
        s.distanceField x y) ∧
      ((∀ x y, inBounds g x y → 0 ≤ s.distanceField x y) →
        ∀ x y, inBounds g x y →
          0 ≤ (sweepCycle (updateDistanceField_updateFunc sqrt) s).distanceField x y)) ∧
    (∀ x y : Int, (updateDistanceField sqrt g).distanceField x y ≤
      (updateDistanceField_seed g).distanceField x y) ∧
    (∀ x y : Int, inBounds g x y →
      0 ≤ (updateDistanceField_seed g).distanceField x y ∧
      0 ≤ (updateDistanceField sqrt g).distanceField x y) := by
  have hseed : ∀ x y : Int, inBounds g x y →
      0 ≤ (updateDistanceField_seed g).distanceField x y := by
    intro x y hb
    rw [updateDistanceField_seed_eq g hx hy]
    simp only
    split_ifs
    · exact le_refl _
    · exact le_of_lt FLT_MAX_pos
  have hcount : (updateDistanceField_seed g).xCellCount = g.xCellCount ∧
      (updateDistanceField_seed g).yCellCount = g.yCellCount :=
    ⟨updateDistanceField_seed_obs (fun t => t.xCellCount) (fun _ _ => rfl) g,
      updateDistanceField_seed_obs (fun t => t.yCellCount) (fun _ _ => rfl) g⟩
  refine ⟨?_, fun a b => (candidate_eq sqrt a b).2, ?_, ?_, ?_, ?_, ?_, ?_⟩
  · intro s i j di dj hT
    unfold updateDistanceField_updateFunc
    rw [if_pos hT]
    simp only [grid_2D.set_apply, and_self, if_true]
    rw [(candidate_eq sqrt _ _).1]
  · intro s i j di dj x y
    exact updateDistanceField_updateFunc_le sqrt i j di dj s x y
  · intro s i j di dj hv hs
    exact updateDistanceField_updateFunc_nonneg sqrt hsqrt g i j di dj s hv hs
  · intro s fromX toX fromY toY x y
    exact performSweep_distance_le sqrt fromX toX fromY toY s x y
  · intro s h1 h2
    exact ⟨fun x y => sweepCycle_distance_le sqrt s x y,
      fun hs => (sweepCycle_distance_nonneg sqrt hsqrt g hx hy s ⟨h1, h2⟩ hs).2⟩
  · intro x y
    have h := forLt_preserves
      (fun t : MACGrid F => ∀ x y, t.distanceField x y ≤
        (updateDistanceField_seed g).distanceField x y)
      (fun _ g => sweepCycle (updateDistanceField_updateFunc sqrt) g) 0 4
      (updateDistanceField_seed g) (fun _ _ => le_refl _)
      (fun _ t _ _ ht x y => le_trans (sweepCycle_distance_le sqrt t x y) (ht x y))
    rw [updateDistanceField_eq]
    exact h x y
  · intro x y hb
    refine ⟨hseed x y hb, ?_⟩
    have h := forLt_preserves
      (fun t : MACGrid F => (t.xCellCount = g.xCellCount ∧ t.yCellCount = g.yCellCount) ∧
        ∀ x y, inBounds g x y → 0 ≤ t.distanceField x y)
      (fun _ g => sweepCycle (updateDistanceField_updateFunc sqrt) g) 0 4
      (updateDistanceField_seed g) ⟨hcount, hseed⟩
      (fun _ t _ _ ht => sweepCycle_distance_nonneg sqrt hsqrt g hx hy t ht.1 ht.2)
    rw [updateDistanceField_eq]
    exact h.2 x y hb

/-- C15, on the scenario grid with the real square root: after `updateDistanceField` the
distance at `(2, 2)` is at most the seeded one and non-negative. -/
theorem updateDistanceField_monotone_witness :
    (updateDistanceField Real.sqrt (scenarioGrid : MACGrid ℝ)).distanceField 2 2 ≤
      (updateDistanceField_seed (scenarioGrid : MACGrid ℝ)).distanceField 2 2 ∧
    0 ≤ (updateDistanceField Real.sqrt (scenarioGrid : MACGrid ℝ)).distanceField 2 2 :=
  ⟨(updateDistanceField_monotone Real.sqrt (fun x _ => Real.sqrt_nonneg x)
      (scenarioGrid : MACGrid ℝ) (by decide) (by decide)).2.2.2.2.2.2.1 2 2,
    ((updateDistanceField_monotone Real.sqrt (fun x _ => Real.sqrt_nonneg x)
      (scenarioGrid : MACGrid ℝ) (by decide) (by decide)).2.2.2.2.2.2.2 2 2 (by decide)).2⟩

theorem loopN_succ {σ : Type} (n : Nat) (k d : Int) (body : Int → σ → σ) (s : σ) :
    loopN (n + 1) k d body s = loopN n (k + d) d body (body k s) := rfl

/-- The rule of `updateDistanceField` at one cell: the cell types and every other distance
are unchanged; at a cell that is not a `FLUID_CELL`, with upwind neighbours at least 1
apart, the stored distance is `min(current, min(a, b) + 1)`. -/
theorem updateDistanceField_updateFunc_at (sqrt : F → F) (i j di dj : Int) (s : MACGrid F) :
    (updateDistanceField_updateFunc sqrt i j di dj s).cellTypes = s.cellTypes ∧
    (∀ x y : Int, ¬ (x = i ∧ y = j) →
      (updateDistanceField_updateFunc sqrt i j di dj s).distanceField x y =
        s.distanceField x y) ∧
    (s.cellTypes i j = cellType.FLUID_CELL →
      updateDistanceField_updateFunc sqrt i j di dj s = s) ∧
    (s.cellTypes i j ≠ cellType.FLUID_CELL →
      ¬ (min (s.distanceField (i - di) j) (s.distanceField i (j - dj)) + 1 >
        max (s.distanceField (i - di) j) (s.distanceField i (j - dj))) →
      (updateDistanceField_updateFunc sqrt i j di dj s).distanceField i j =
        min (s.distanceField i j)
          (min (s.distanceField (i - di) j) (s.distanceField i (j - dj)) + 1)) := by
  refine ⟨updateDistanceField_updateFunc_obs (fun t => t.cellTypes) (fun _ _ => rfl) sqrt
    i j di dj s, ?_, ?_, ?_⟩
  · intro x y hxy
    unfold updateDistanceField_updateFunc
    by_cases hT : s.cellTypes i j = cellType.FLUID_CELL
    · rw [if_neg (not_not.mpr hT)]
    · rw [if_pos hT]
      simp only [grid_2D.set_apply, if_neg hxy]
  · intro hT
    unfold updateDistanceField_updateFunc
    rw [if_neg (not_not.mpr hT)]
  · intro hT hfar
    unfold updateDistanceField_updateFunc
    rw [if_pos hT]
    simp only [grid_2D.set_apply, and_self, if_true]
    rw [if_neg hfar]

/-- The first three calls of the rule in `updateDistanceField` on the scenario grid (cells
`(1, 1)`, `(2, 1)`, `(3, 1)` of the first pass) leave the distance 2 at the border cell
`(3, 1)`. -/
theorem scenario_first_row (sqrt : ℝ → ℝ) :
    (updateDistanceField_updateFunc sqrt 3 1 1 1
      (updateDistanceField_updateFunc sqrt 2 1 1 1
        (updateDistanceField_updateFunc sqrt 1 1 1 1
          (updateDistanceField_seed (scenarioGrid : MACGrid ℝ))))).distanceField 3 1 = 2 := by
  have hM : (2 : ℝ) ≤ FLT_MAX := by unfold FLT_MAX; norm_num
  have hT : (updateDistanceField_seed (scenarioGrid : MACGrid ℝ)).cellTypes =
      (scenarioGrid : MACGrid ℝ).cellTypes :=
    updateDistanceField_seed_obs (fun t => t.cellTypes) (fun _ _ => rfl) _
  have d11 : (updateDistanceField_seed (scenarioGrid : MACGrid ℝ)).distanceField 1 1 = 0 := by
    rw [updateDistanceField_seed_eq _ (by decide) (by decide)]
    simp only
    rw [if_pos ⟨by decide, by simp [scenarioGrid]⟩]
  have dM : ∀ x y : Int, inBounds (scenarioGrid : MACGrid ℝ) x y → ¬ (x = 1 ∧ y = 1) →
      (updateDistanceField_seed (scenarioGrid : MACGrid ℝ)).distanceField x y = FLT_MAX := by
    intro x y hb hxy
    rw [updateDistanceField_seed_eq _ (by decide) (by decide)]
    simp only
    rw [if_neg (by rintro ⟨_, h⟩; simp [scenarioGrid, hxy] at h), if_pos hb]
  generalize updateDistanceField_seed (scenarioGrid : MACGrid ℝ) = s0 at hT d11 dM ⊢
  have one : (2 : Int) - 1 = 1 := by norm_num
  have zero : (1 : Int) - 1 = 0 := by norm_num
  have two : (3 : Int) - 1 = 2 := by norm_num
  -- first call, at the fluid cell (1, 1): nothing changes
  have e1 : updateDistanceField_updateFunc sqrt 1 1 1 1 s0 = s0 :=
    (updateDistanceField_updateFunc_at sqrt 1 1 1 1 s0).2.2.1
      (by rw [hT]; simp [scenarioGrid])
  rw [e1]
  -- second call, at (2, 1): neighbours 0 and FLT_MAX
  obtain ⟨t2, f2, _, c2⟩ := updateDistanceField_updateFunc_at sqrt 2 1 1 1 s0
  have v2 : (updateDistanceField_updateFunc sqrt 2 1 1 1 s0).distanceField 2 1 = 1 := by
    rw [c2 (by rw [hT]; simp [scenarioGrid])
      (by
        rw [one, zero, d11, dM 2 0 (by decide) (by decide)]
        rw [min_eq_left (by linarith), max_eq_right (by linarith)]
        linarith)]
    rw [one, zero, d11, dM 2 0 (by decide) (by decide), dM 2 1 (by decide) (by decide)]
    rw [min_eq_left (show (0 : ℝ) ≤ FLT_MAX by linarith), min_eq_right (by linarith)]
    norm_num
  have w2 : (updateDistanceField_updateFunc sqrt 2 1 1 1 s0).distanceField 3 0 = FLT_MAX := by
    rw [f2 3 0 (by decide), dM 3 0 (by decide) (by decide)]
  have x2 : (updateDistanceField_updateFunc sqrt 2 1 1 1 s0).distanceField 3 1 = FLT_MAX := by
    rw [f2 3 1 (by decide), dM 3 1 (by decide) (by decide)]
  generalize updateDistanceField_updateFunc sqrt 2 1 1 1 s0 = s2 at t2 v2 w2 x2 ⊢
  -- third call, at the border cell (3, 1): neighbours 1 and FLT_MAX
  obtain ⟨_, _, _, c3⟩ := updateDistanceField_updateFunc_at sqrt 3 1 1 1 s2
  rw [c3 (by rw [t2, hT]; simp [scenarioGrid])
    (by
      rw [two, zero, v2, w2]
      rw [min_eq_left (by linarith), max_eq_right (by linarith)]
      linarith)]
  rw [two, zero, v2, w2, x2]
  rw [min_eq_left (show (1 : ℝ) ≤ FLT_MAX by linarith), min_eq_right (by linarith)]
  norm_num

/-- C12. Evaluation on the scenario grid (4 × 4, `FLUID_CELL` at `(1, 1)`): the cell
`(3, 1)` lies on the outer ring, is not a `FLUID_CELL` and is seeded with `FLT_MAX`, but
after `updateDistanceField` its distance is at most 2: the first pass of each cycle runs
over `1 ≤ i < dimension[0]` and writes the ring cells with `i = dimension[0] - 1`. -/
theorem updateDistanceField_writes_ring_cell :
    outerRing (scenarioGrid : MACGrid ℝ) 3 1 ∧
    (scenarioGrid : MACGrid ℝ).cellTypes 3 1 ≠ cellType.FLUID_CELL ∧
    (updateDistanceField_seed (scenarioGrid : MACGrid ℝ)).distanceField 3 1 = FLT_MAX ∧
    (updateDistanceField Real.sqrt (scenarioGrid : MACGrid ℝ)).distanceField 3 1 ≤ 2 ∧
    (updateDistanceField Real.sqrt (scenarioGrid : MACGrid ℝ)).distanceField 3 1 ≠
      (updateDistanceField_seed (scenarioGrid : MACGrid ℝ)).distanceField 3 1 := by
  have hseed : (updateDistanceField_seed (scenarioGrid : MACGrid ℝ)).distanceField 3 1 =
      FLT_MAX := by
    rw [updateDistanceField_seed_eq _ (by decide) (by decide)]
    simp only
    rw [if_neg (by rintro ⟨h, _⟩; revert h; decide), if_pos (by decide)]
  have hnx : (updateDistanceField_seed (scenarioGrid : MACGrid ℝ)).xCellCount = 4 :=
    updateDistanceField_seed_obs (fun t => t.xCellCount) (fun _ _ => rfl) _
  have hny : (updateDistanceField_seed (scenarioGrid : MACGrid ℝ)).yCellCount = 4 :=
    updateDistanceField_seed_obs (fun t => t.yCellCount) (fun _ _ => rfl) _
  have hrule : ∀ (k : Int) (s : MACGrid ℝ) (x y : Int),
      (updateDistanceField_updateFunc Real.sqrt k 1 1 1 s).distanceField x y ≤
        s.distanceField x y :=
    fun k s x y => updateDistanceField_updateFunc_le Real.sqrt k 1 1 1 s x y
  have hrow : ∀ (j : Int) (s : MACGrid ℝ) (x y : Int),
      (loopN 3 1 1 (fun i s => updateDistanceField_updateFunc Real.sqrt i j 1 1 s)
        s).distanceField x y ≤ s.distanceField x y :=
    fun j s x y => loopN_distance_le _
      (fun k s x y => updateDistanceField_updateFunc_le Real.sqrt k j 1 1 s x y) 3 1 1 s x y
  have hle : (updateDistanceField Real.sqrt (scenarioGrid : MACGrid ℝ)).distanceField 3 1 ≤ 2 := by
    rw [updateDistanceField_eq]
    generalize hs0 : updateDistanceField_seed (scenarioGrid : MACGrid ℝ) = s0 at hnx hny
    have hfirst := scenario_first_row Real.sqrt
    rw [hs0] at hfirst
    -- the three cycles after the first
    have e0 : forLt 0 4 (fun _ g => sweepCycle (updateDistanceField_updateFunc Real.sqrt) g) s0 =
        loopN 3 (((0 : Nat) : Int) + 1) 1
          (fun _ g => sweepCycle (updateDistanceField_updateFunc Real.sqrt) g)
          (sweepCycle (updateDistanceField_updateFunc Real.sqrt) s0) := by
      unfold forLt
      rw [show (4 - 0 : Nat) = 3 + 1 from rfl, loopN_succ]
    have c1 : (forLt 0 4 (fun _ g => sweepCycle (updateDistanceField_updateFunc Real.sqrt) g)
        s0).distanceField 3 1 ≤
        (sweepCycle (updateDistanceField_updateFunc Real.sqrt) s0).distanceField 3 1 := by
      rw [e0]
      exact loopN_distance_le
        (fun _ g => sweepCycle (updateDistanceField_updateFunc Real.sqrt) g)
        (fun _ s x y => sweepCycle_distance_le Real.sqrt s x y) 3 _ 1 _ 3 1
    -- the three passes after the first
    have c2 : (sweepCycle (updateDistanceField_updateFunc Real.sqrt) s0).distanceField 3 1 ≤
        (performSweep 1 s0.xCellCount 1 s0.yCellCount
          (updateDistanceField_updateFunc Real.sqrt) s0).distanceField 3 1 := by
      unfold sweepCycle
      exact le_trans (performSweep_distance_le Real.sqrt _ _ _ _ _ 3 1)
        (le_trans (performSweep_distance_le Real.sqrt _ _ _ _ _ 3 1)
          (performSweep_distance_le Real.sqrt _ _ _ _ _ 3 1))
    rw [hnx, hny] at c2
    -- the rows after the first
    have e1 : performSweep 1 ((4 : Nat) : Int) 1 ((4 : Nat) : Int)
          (updateDistanceField_updateFunc Real.sqrt) s0 =
        loopN 2 (1 + 1) 1
          (fun j s => loopN 3 1 1
            (fun i s => updateDistanceField_updateFunc Real.sqrt i j 1 1 s) s)
          (loopN 3 1 1 (fun i s => updateDistanceField_updateFunc Real.sqrt i 1 1 1 s) s0) := by
      unfold performSweep
      have n3 : (((4 : Nat) : Int) - 1).natAbs = 2 + 1 := by decide
      have d1 : (if (1 : Int) ≤ ((4 : Nat) : Int) then (1 : Int) else -1) = 1 := by decide
      simp only [n3, d1]
      rw [loopN_succ]
    have c3 : (performSweep 1 ((4 : Nat) : Int) 1 ((4 : Nat) : Int)
          (updateDistanceField_updateFunc Real.sqrt) s0).distanceField 3 1 ≤
        (loopN 3 1 1 (fun i s => updateDistanceField_updateFunc Real.sqrt i 1 1 1 s)
          s0).distanceField 3 1 := by
      rw [e1]
      exact loopN_distance_le
        (fun j s => loopN 3 1 1 (fun i s => updateDistanceField_updateFunc Real.sqrt i j 1 1 s) s)
        (fun j s x y => hrow j s x y) 2 _ 1 _ 3 1
    have e2 : loopN 3 1 1 (fun i s => updateDistanceField_updateFunc Real.sqrt i 1 1 1 s) s0 =
        updateDistanceField_updateFunc Real.sqrt 3 1 1 1
          (updateDistanceField_updateFunc Real.sqrt 2 1 1 1
            (updateDistanceField_updateFunc Real.sqrt 1 1 1 1 s0)) := by
      rw [loopN_succ, loopN_succ, loopN_succ]
      rfl
    have c4 : (loopN 3 1 1 (fun i s => updateDistanceField_updateFunc Real.sqrt i 1 1 1 s)
          s0).distanceField 3 1 = 2 := by
      rw [e2]; exact hfirst
    linarith
  refine ⟨by decide, by simp [scenarioGrid], hseed, hle, ?_⟩
  rw [hseed]
  have hM : (2 : ℝ) < FLT_MAX := by unfold FLT_MAX; norm_num
  exact ne_of_lt (lt_of_le_of_lt hle hM)

/-! ## Extrapolation and the no-flow band -/

/-- With a `SOLID_CELL` ring, the rule of `sweepU` at a visited cell does not write a face
of the band. -/
theorem sweepU_updateFunc_band (g : MACGrid F) (hring : ringSolid g) (i j di dj : Int)
    (hv : cycleVisits g.xCellCount g.yCellCount i j di dj) (s : MACGrid F)
    (hs : (s.cellTypes = g.cellTypes ∧ s.xCellCount = g.xCellCount ∧
      s.yCellCount = g.yCellCount) ∧ uBandZero s) :
    ((sweepU_updateFunc i j di dj s).cellTypes = g.cellTypes ∧
      (sweepU_updateFunc i j di dj s).xCellCount = g.xCellCount ∧
      (sweepU_updateFunc i j di dj s).yCellCount = g.yCellCount) ∧
    uBandZero (sweepU_updateFunc i j di dj s) := by
  obtain ⟨hf, hb⟩ := hs
  have hf' := (sweepU_updateFunc_obs
    (fun t => t.cellTypes = g.cellTypes ∧ t.xCellCount = g.xCellCount ∧
      t.yCellCount = g.yCellCount) (fun _ _ => rfl) i j di dj s).mpr hf
  refine ⟨hf', ?_⟩
  unfold uBandZero
  rw [hf'.2.1, hf'.2.2]
  unfold uBandZero at hb
  rw [hf.2.1, hf.2.2] at hb
  intro a b h1 h2 h3
  unfold cycleVisits at hv
  by_cases hg : s.cellTypes i j = cellType.EMPTY_CELL ∧
      s.cellTypes (i - 1) j = cellType.EMPTY_CELL
  · rw [hf.1] at hg
    have i1 := interior_of_not_solid g hring i j (by unfold inBounds; omega)
      (by rw [hg.1]; decide)
    have i2 := interior_of_not_solid g hring (i - 1) j (by unfold inBounds; omega)
      (by rw [hg.2]; decide)
    unfold interior at i1 i2
    rw [(sweepU_updateFunc_between s i j di dj).1 a b (by omega)]
    exact hb a b h1 h2 h3
  · have e : sweepU_updateFunc i j di dj s = s := by
      unfold sweepU_updateFunc; rw [if_neg hg]
    rw [e]; exact hb a b h1 h2 h3

/-- The first replication loop of `sweepU` keeps the band of `u` at 0. -/
theorem sweepU_replicateRows_band (s : MACGrid F) (hy : 2 ≤ s.yCellCount) (hb : uBandZero s) :
    ((sweepU_replicateRows s).cellTypes = s.cellTypes ∧
      (sweepU_replicateRows s).xCellCount = s.xCellCount ∧
      (sweepU_replicateRows s).yCellCount = s.yCellCount) ∧
    uBandZero (sweepU_replicateRows s) := by
  unfold sweepU_replicateRows
  refine forLt_preserves
    (fun t : MACGrid F => (t.cellTypes = s.cellTypes ∧ t.xCellCount = s.xCellCount ∧
      t.yCellCount = s.yCellCount) ∧ uBandZero t) _ _ _ s ⟨⟨rfl, rfl, rfl⟩, hb⟩ ?_
  intro i t _ _ ht
  obtain ⟨hf, hb⟩ := ht
  refine ⟨hf, ?_⟩
  unfold uBandZero at hb ⊢
  simp only [grid_2D.set_apply]
  rw [hf.2.1, hf.2.2] at hb ⊢
  intro a b h1 h2 h3
  have z1 : ∀ a, (a = 0 ∨ a = 1 ∨ a = (s.xCellCount : Int) - 1 ∨ a = s.xCellCount) →
      t.u a 1 = 0 := fun a ha => hb a 1 (by omega) (by omega) ha
  have z2 : ∀ a, (a = 0 ∨ a = 1 ∨ a = (s.xCellCount : Int) - 1 ∨ a = s.xCellCount) →
      t.u a ((s.yCellCount - 2 : Nat) : Int) = 0 := fun a ha => hb a _ (by omega) (by omega) ha
  split_ifs with c1 c2 c3
  · exact z1 _ (c1.1 ▸ h3)
  · exact z2 _ (c1.1 ▸ h3)
  · exact z1 _ (c3.1 ▸ h3)
  · exact hb a b h1 h2 h3

/-- The second replication loop of `sweepU` keeps the band of `u` at 0. -/
theorem sweepU_replicateColumns_band (s : MACGrid F) (hx : 2 ≤ s.xCellCount)
    (hb : uBandZero s) :
    ((sweepU_replicateColumns s).cellTypes = s.cellTypes ∧
      (sweepU_replicateColumns s).xCellCount = s.xCellCount ∧
      (sweepU_replicateColumns s).yCellCount = s.yCellCount) ∧
    uBandZero (sweepU_replicateColumns s) := by
  unfold sweepU_replicateColumns
  refine forLt_preserves
    (fun t : MACGrid F => (t.cellTypes = s.cellTypes ∧ t.xCellCount = s.xCellCount ∧
      t.yCellCount = s.yCellCount) ∧ uBandZero t) _ _ _ s ⟨⟨rfl, rfl, rfl⟩, hb⟩ ?_
  intro i t _ _ ht
  obtain ⟨hf, hb⟩ := ht
  refine ⟨hf, ?_⟩
  unfold uBandZero at hb ⊢
  simp only [grid_2D.set_apply]
  rw [hf.2.1, hf.2.2] at hb ⊢
  intro a b h1 h2 h3
  have z1 : ∀ b, 0 ≤ b → b < (s.yCellCount : Int) → t.u 1 b = 0 :=
    fun b hb1 hb2 => hb 1 b hb1 hb2 (by omega)
  have z2 : ∀ b, 0 ≤ b → b < (s.yCellCount : Int) →
      t.u ((s.xCellCount + 1 - 2 : Nat) : Int) b = 0 :=
    fun b hb1 hb2 => hb _ b hb1 hb2 (by omega)
  split_ifs with c1 c2 c3
  · exact z1 _ (c1.2 ▸ h1) (c1.2 ▸ h2)
  · exact z2 _ (c1.2 ▸ h1) (c1.2 ▸ h2)
  · exact z1 _ (c3.2 ▸ h1) (c3.2 ▸ h2)
  · exact hb a b h1 h2 h3

/-- With a `SOLID_CELL` ring, the rule of `sweepV` at a visited cell does not write a face
of the band. -/
theorem sweepV_updateFunc_band (g : MACGrid F) (hring : ringSolid g) (i j di dj : Int)
    (hv : cycleVisits g.xCellCount g.yCellCount i j di dj) (s : MACGrid F)
    (hs : (s.cellTypes = g.cellTypes ∧ s.xCellCount = g.xCellCount ∧
      s.yCellCount = g.yCellCount) ∧ vBandZero s) :
    ((sweepV_updateFunc i j di dj s).cellTypes = g.cellTypes ∧
      (sweepV_updateFunc i j di dj s).xCellCount = g.xCellCount ∧
      (sweepV_updateFunc i j di dj s).yCellCount = g.yCellCount) ∧
    vBandZero (sweepV_updateFunc i j di dj s) := by
  obtain ⟨hf, hb⟩ := hs
  have hf' := (sweepV_updateFunc_obs
    (fun t => t.cellTypes = g.cellTypes ∧ t.xCellCount = g.xCellCount ∧
      t.yCellCount = g.yCellCount) (fun _ _ => rfl) i j di dj s).mpr hf
  refine ⟨hf', ?_⟩
  unfold vBandZero
  rw [hf'.2.1, hf'.2.2]
  unfold vBandZero at hb
  rw [hf.2.1, hf.2.2] at hb
  intro a b h1 h2 h3
  unfold cycleVisits at hv
  by_cases hg : s.cellTypes i j = cellType.EMPTY_CELL ∧
      s.cellTypes i (j - 1) = cellType.EMPTY_CELL
  · rw [hf.1] at hg
    have i1 := interior_of_not_solid g hring i j (by unfold inBounds; omega)
      (by rw [hg.1]; decide)
    have i2 := interior_of_not_solid g hring i (j - 1) (by unfold inBounds; omega)
      (by rw [hg.2]; decide)
    unfold interior at i1 i2
    rw [(sweepV_updateFunc_between s i j di dj).1 a b (by omega)]
    exact hb a b h1 h2 h3
  · have e : sweepV_updateFunc i j di dj s = s := by
      unfold sweepV_updateFunc; rw [if_neg hg]
    rw [e]; exact hb a b h1 h2 h3

/-- The first replication loop of `sweepV` keeps the band of `v` at 0. -/
theorem sweepV_replicateRows_band (s : MACGrid F) (hy : 2 ≤ s.yCellCount) (hb : vBandZero s) :
    ((sweepV_replicateRows s).cellTypes = s.cellTypes ∧
      (sweepV_replicateRows s).xCellCount = s.xCellCount ∧
      (sweepV_replicateRows s).yCellCount = s.yCellCount) ∧
    vBandZero (sweepV_replicateRows s) := by
  unfold sweepV_replicateRows
  refine forLt_preserves
    (fun t : MACGrid F => (t.cellTypes = s.cellTypes ∧ t.xCellCount = s.xCellCount ∧
      t.yCellCount = s.yCellCount) ∧ vBandZero t) _ _ _ s ⟨⟨rfl, rfl, rfl⟩, hb⟩ ?_
  intro i t _ _ ht
  obtain ⟨hf, hb⟩ := ht
  refine ⟨hf, ?_⟩
  unfold vBandZero at hb ⊢
  simp only [grid_2D.set_apply]
  rw [hf.2.1, hf.2.2] at hb ⊢
  intro a b h1 h2 h3
  have z1 : ∀ a, 0 ≤ a → a < (s.xCellCount : Int) → t.v a 1 = 0 :=
    fun a ha1 ha2 => hb a 1 ha1 ha2 (by omega)
  have z2 : ∀ a, 0 ≤ a → a < (s.xCellCount : Int) →
      t.v a ((s.yCellCount + 1 - 2 : Nat) : Int) = 0 :=
    fun a ha1 ha2 => hb a _ ha1 ha2 (by omega)
  split_ifs with c1 c2 c3
  · exact z1 _ (c1.1 ▸ h1) (c1.1 ▸ h2)
  · exact z2 _ (c1.1 ▸ h1) (c1.1 ▸ h2)
  · exact z1 _ (c3.1 ▸ h1) (c3.1 ▸ h2)
  · exact hb a b h1 h2 h3

/-- The second replication loop of `sweepV` keeps the band of `v` at 0. -/
theorem sweepV_replicateColumns_band (s : MACGrid F) (hx : 2 ≤ s.xCellCount)
    (hb : vBandZero s) :
    ((sweepV_replicateColumns s).cellTypes = s.cellTypes ∧
      (sweepV_replicateColumns s).xCellCount = s.xCellCount ∧
      (sweepV_replicateColumns s).yCellCount = s.yCellCount) ∧
    vBandZero (sweepV_replicateColumns s) := by
  unfold sweepV_replicateColumns
  refine forLt_preserves
    (fun t : MACGrid F => (t.cellTypes = s.cellTypes ∧ t.xCellCount = s.xCellCount ∧
      t.yCellCount = s.yCellCount) ∧ vBandZero t) _ _ _ s ⟨⟨rfl, rfl, rfl⟩, hb⟩ ?_
  intro i t _ _ ht
  obtain ⟨hf, hb⟩ := ht
  refine ⟨hf, ?_⟩
  unfold vBandZero at hb ⊢
  simp only [grid_2D.set_apply]
  rw [hf.2.1, hf.2.2] at hb ⊢
  intro a b h1 h2 h3
  have z1 : ∀ b, (b = 0 ∨ b = 1 ∨ b = (s.yCellCount : Int) - 1 ∨ b = s.yCellCount) →
      t.v 1 b = 0 := fun b hb3 => hb 1 b (by omega) (by omega) hb3
  have z2 : ∀ b, (b = 0 ∨ b = 1 ∨ b = (s.yCellCount : Int) - 1 ∨ b = s.yCellCount) →
      t.v ((s.xCellCount - 2 : Nat) : Int) b = 0 :=
    fun b hb3 => hb _ b (by omega) (by omega) hb3
  split_ifs with c1 c2 c3
  · exact z1 _ (c1.2 ▸ h3)
  · exact z2 _ (c1.2 ▸ h3)
  · exact z1 _ (c3.2 ▸ h3)
  · exact hb a b h1 h2 h3

/-- The four sweep cycles of `sweepU` keep the band of `u` at 0 when the ring is solid. -/
theorem sweepU_cycles_band (g : MACGrid F) (hx : 2 ≤ g.xCellCount) (hy : 2 ≤ g.yCellCount)
    (hring : ringSolid g) (hb : uBandZero g) :
    ((forLt 0 4 (fun _ g => sweepCycle sweepU_updateFunc g) g).cellTypes = g.cellTypes ∧
      (forLt 0 4 (fun _ g => sweepCycle sweepU_updateFunc g) g).xCellCount = g.xCellCount ∧
      (forLt 0 4 (fun _ g => sweepCycle sweepU_updateFunc g) g).yCellCount = g.yCellCount) ∧
    uBandZero (forLt 0 4 (fun _ g => sweepCycle sweepU_updateFunc g) g) := by
  refine forLt_preserves
    (fun t : MACGrid F => (t.cellTypes = g.cellTypes ∧ t.xCellCount = g.xCellCount ∧
      t.yCellCount = g.yCellCount) ∧ uBandZero t) _ _ _ g ⟨⟨rfl, rfl, rfl⟩, hb⟩ ?_
  intro _ t _ _ ht
  exact sweepCycle_preserves
    (fun t : MACGrid F => (t.cellTypes = g.cellTypes ∧ t.xCellCount = g.xCellCount ∧
      t.yCellCount = g.yCellCount) ∧ uBandZero t) sweepU_updateFunc
    g.xCellCount g.yCellCount hx hy t ht (fun s hs => ⟨hs.1.2.1, hs.1.2.2⟩)
    (fun i j di dj s hv hs => sweepU_updateFunc_band g hring i j di dj hv s hs)

/-- The two sweep cycles of `sweepV` keep the band of `v` at 0 when the ring is solid. -/
theorem sweepV_cycles_band (g : MACGrid F) (hx : 2 ≤ g.xCellCount) (hy : 2 ≤ g.yCellCount)
    (hring : ringSolid g) (hb : vBandZero g) :
    ((forLt 0 2 (fun _ g => sweepCycle sweepV_updateFunc g) g).cellTypes = g.cellTypes ∧
      (forLt 0 2 (fun _ g => sweepCycle sweepV_updateFunc g) g).xCellCount = g.xCellCount ∧
      (forLt 0 2 (fun _ g => sweepCycle sweepV_updateFunc g) g).yCellCount = g.yCellCount) ∧
    vBandZero (forLt 0 2 (fun _ g => sweepCycle sweepV_updateFunc g) g) := by
  refine forLt_preserves
    (fun t : MACGrid F => (t.cellTypes = g.cellTypes ∧ t.xCellCount = g.xCellCount ∧
      t.yCellCount = g.yCellCount) ∧ vBandZero t) _ _ _ g ⟨⟨rfl, rfl, rfl⟩, hb⟩ ?_
  intro _ t _ _ ht
  exact sweepCycle_preserves
    (fun t : MACGrid F => (t.cellTypes = g.cellTypes ∧ t.xCellCount = g.xCellCount ∧
      t.yCellCount = g.yCellCount) ∧ vBandZero t) sweepV_updateFunc
    g.xCellCount g.yCellCount hx hy t ht (fun s hs => ⟨hs.1.2.1, hs.1.2.2⟩)
    (fun i j di dj s hv hs => sweepV_updateFunc_band g hring i j di dj hv s hs)

/-- The function `sweepU` keeps the band of `u` at 0 when the ring is solid. -/
theorem sweepU_band (g : MACGrid F) (hx : 2 ≤ g.xCellCount) (hy : 2 ≤ g.yCellCount)
    (hring : ringSolid g) (hb : uBandZero g) : uBandZero (sweepU g) := by
  obtain ⟨f1, b1⟩ := sweepU_cycles_band g hx hy hring hb
  unfold sweepU
  generalize forLt 0 4 (fun _ g => sweepCycle sweepU_updateFunc g) g = s1 at f1 b1
  obtain ⟨f2, b2⟩ := sweepU_replicateRows_band s1 (by rw [f1.2.2]; exact hy) b1
  show uBandZero (sweepU_replicateColumns (sweepU_replicateRows s1))
  generalize sweepU_replicateRows s1 = s2 at f2 b2
  exact (sweepU_replicateColumns_band s2 (by rw [f2.2.1, f1.2.1]; exact hx) b2).2

/-- The function `sweepV` keeps the band of `v` at 0 when the ring is solid. -/
theorem sweepV_band (g : MACGrid F) (hx : 2 ≤ g.xCellCount) (hy : 2 ≤ g.yCellCount)
    (hring : ringSolid g) (hb : vBandZero g) : vBandZero (sweepV g) := by
  obtain ⟨f1, b1⟩ := sweepV_cycles_band g hx hy hring hb
  unfold sweepV
  generalize forLt 0 2 (fun _ g => sweepCycle sweepV_updateFunc g) g = s1 at f1 b1
  obtain ⟨f2, b2⟩ := sweepV_replicateRows_band s1 (by rw [f1.2.2]; exact hy) b1
  show vBandZero (sweepV_replicateColumns (sweepV_replicateRows s1))
  generalize sweepV_replicateRows s1 = s2 at f2 b2
  exact (sweepV_replicateColumns_band s2 (by rw [f2.2.1, f1.2.1]; exact hx) b2).2

/-- Both bands survive `interpolateVelocities` when the ring is solid. -/
theorem interpolateVelocities_band (g : MACGrid F) (hx : 2 ≤ g.xCellCount)
    (hy : 2 ≤ g.yCellCount) (hring : ringSolid g) (hu : uBandZero g) (hv : vBandZero g) :
    uBandZero (interpolateVelocities g) ∧ vBandZero (interpolateVelocities g) := by
  have fU := sweepU_obs (fun t : MACGrid F => (t.cellTypes, t.xCellCount, t.yCellCount, t.v))
    (fun _ _ => rfl) g
  simp only [Prod.mk.injEq] at fU
  obtain ⟨c1, c2, c3, c4⟩ := fU
  have bu := sweepU_band g hx hy hring hu
  have fV := sweepV_obs (fun t : MACGrid F => (t.xCellCount, t.yCellCount, t.u))
    (fun _ _ => rfl) (sweepU g)
  simp only [Prod.mk.injEq] at fV
  obtain ⟨d1, d2, d3⟩ := fV
  unfold interpolateVelocities
  constructor
  · unfold uBandZero at bu ⊢
    rw [d1, d2, d3]; exact bu
  · refine sweepV_band (sweepU g) (by rw [c2]; exact hx) (by rw [c3]; exact hy) ?_ ?_
    · unfold ringSolid outerRing inBounds at hring ⊢
      rw [c1, c2, c3]; exact hring
    · unfold vBandZero at hv ⊢
      rw [c2, c3, c4]; exact hv

/-- C18. Extrapolation preserves the no-flow boundary: on a grid with `nx, ny ≥ 2` whose
outer ring of cells is `SOLID_CELL`, if `u(i, j) = 0` for every row `j` and
`i ∈ {0, 1, nx - 1, nx}` and `v(i, j) = 0` for every column `i` and
`j ∈ {0, 1, ny - 1, ny}`, then after `interpolateVelocities` (`sweepU` then `sweepV`) the
same faces are still exactly 0, whatever the distance field and the interior
classification are. -/
theorem interpolateVelocities_preserves_zero_band (g : MACGrid F)
    (hx : 2 ≤ g.xCellCount) (hy : 2 ≤ g.yCellCount) (hring : ringSolid g)
    (hu : uBandZero g) (hv : vBandZero g) :
    (∀ i j : Int, 0 ≤ j → j < g.yCellCount →
      (i = 0 ∨ i = 1 ∨ i = (g.xCellCount : Int) - 1 ∨ i = g.xCellCount) →
      (interpolateVelocities g).u i j = 0) ∧
    (∀ i j : Int, 0 ≤ i → i < g.xCellCount →
      (j = 0 ∨ j = 1 ∨ j = (g.yCellCount : Int) - 1 ∨ j = g.yCellCount) →
      (interpolateVelocities g).v i j = 0) := by
  obtain ⟨bu, bv⟩ := interpolateVelocities_band g hx hy hring hu hv
  have c := interpolateVelocities_obs (fun t : MACGrid F => (t.xCellCount, t.yCellCount))
    (fun _ _ => rfl) (fun _ _ => rfl) g
  simp only [Prod.mk.injEq] at c
  unfold uBandZero at bu
  unfold vBandZero at bv
  rw [c.1, c.2] at bu bv
  exact ⟨bu, bv⟩

/-- The walled grid has a solid ring. -/
theorem walledGrid_ringSolid : ringSolid (walledGrid : MACGrid F) :=
  fun i j h => walledGrid_ring i j h

/-- The band of `u` is 0 on the walled grid. -/
theorem walledGrid_uBandZero : uBandZero (walledGrid : MACGrid F) := by
  intro i j _ _ h
  have h' : i = 0 ∨ i = 1 ∨ i = 4 ∨ i = 5 := by
    simpa [walledGrid] using h
  show (if i = 2 ∧ j = 2 then (1 : F) else 0) = 0
  rw [if_neg (by omega)]

/-- The band of `v` is 0 on the walled grid. -/
theorem walledGrid_vBandZero : vBandZero (walledGrid : MACGrid F) :=
  fun _ _ _ _ _ => rfl

/-- Witness for C18 on the walled grid. -/
theorem interpolateVelocities_preserves_zero_band_witness :
    (interpolateVelocities (walledGrid : MACGrid ℚ)).u 1 2 = 0 ∧
    (interpolateVelocities (walledGrid : MACGrid ℚ)).u 4 3 = 0 ∧
    (interpolateVelocities (walledGrid : MACGrid ℚ)).v 2 1 = 0 ∧
    (interpolateVelocities (walledGrid : MACGrid ℚ)).v 3 5 = 0 :=
  have h := interpolateVelocities_preserves_zero_band (walledGrid : MACGrid ℚ)
    (by decide) (by decide) walledGrid_ringSolid walledGrid_uBandZero walledGrid_vBandZero
  ⟨h.1 1 2 (by decide) (by decide) (by decide),
   h.1 4 3 (by decide) (by decide) (by decide),
   h.2 2 1 (by decide) (by decide) (by decide),
   h.2 3 5 (by decide) (by decide) (by decide)⟩

/-! ## The conversion to `int` -/

/-- The conversion to `int` is defined exactly when the truncated quotient fits; for a
quotient strictly between `-2^31 - 1` and `2^31` it returns the truncated value. -/
theorem floatToInt_in_range [FloorRing F] (c : F)
    (h1 : -2147483649 < c) (h2 : c < 2147483648) :
    floatToInt c = some (truncate c) := by
  have t1 : -2147483648 ≤ truncate c := by
    unfold truncate
    by_cases h : 0 ≤ c
    · rw [if_pos h]
      have := Int.floor_nonneg.mpr h
      omega
    · rw [if_neg h]
      have : (-2147483649 : Int) < ⌈c⌉ := by
        rw [Int.lt_ceil]; push_cast; exact h1
      omega
  have t2 : truncate c ≤ 2147483647 := by
    unfold truncate
    by_cases h : 0 ≤ c
    · rw [if_pos h]
      have : ⌊c⌋ < 2147483648 := by
        rw [Int.floor_lt]; push_cast; exact h2
      omega
    · rw [if_neg h]
      have : ⌈c⌉ ≤ 0 := by
        rw [Int.ceil_le]; push_cast; exact le_of_lt (not_le.mp h)
      omega
  unfold floatToInt
  rw [if_pos ⟨t1, t2⟩]

/-! ## Index safety: the checked loops -/

/-- A checked counted loop whose body succeeds and agrees with the unchecked body on every
state of an invariant succeeds and agrees with the unchecked loop. -/
theorem loopNChecked_eq {σ : Type} (P : σ → Prop) (bodyC : Int → σ → Option σ)
    (body : Int → σ → σ) (d : Int) :
    ∀ (n : Nat) (k : Int) (s : σ), P s →
      (∀ (m : Nat) (t : σ), m < n → P t →
        bodyC (k + m * d) t = some (body (k + m * d) t) ∧ P (body (k + m * d) t)) →
      loopNChecked n k d bodyC s = some (loopN n k d body s) ∧ P (loopN n k d body s) := by
  intro n
  induction n with
  | zero => intro k s h0 _; exact ⟨rfl, h0⟩
  | succ n ih =>
    intro k s h0 hstep
    have h1 := hstep 0 s (Nat.succ_pos n) h0
    simp only [Nat.cast_zero, zero_mul, add_zero] at h1
    unfold loopNChecked loopN
    rw [h1.1, Option.some_bind]
    refine ih (k + d) (body k s) h1.2 ?_
    intro m t hm ht
    have := hstep (m + 1) t (Nat.succ_lt_succ hm) ht
    have e : k + d + (m : Int) * d = k + ((m + 1 : Nat) : Int) * d := by push_cast; ring
    rw [e]; exact this

/-- The rule of `loopNChecked_eq` for `for (i = lo; i < hi; i++)`. -/
theorem forLtChecked_eq {σ : Type} (P : σ → Prop) (bodyC : Int → σ → Option σ)
    (body : Int → σ → σ) (lo hi : Nat) (s : σ) (h0 : P s)
    (hstep : ∀ (i : Int) (t : σ), (lo : Int) ≤ i → i < hi → P t →
      bodyC i t = some (body i t) ∧ P (body i t)) :
    forLtChecked lo hi bodyC s = some (forLt lo hi body s) ∧ P (forLt lo hi body s) := by
  unfold forLtChecked forLt
  refine loopNChecked_eq P bodyC body 1 _ _ s h0 ?_
  intro m t hm ht
  exact hstep _ t (by omega) (by omega) ht

theorem forNeChecked_steps {σ : Type} (P : σ → Prop) (bodyC : Int → σ → Option σ)
    (body : Int → σ → σ) (stop d : Int) (hd : d ≠ 0) :
    ∀ (n : Nat) (k : Int) (s : σ) (fuel : Nat), stop = k + n * d → n < fuel → P s →
      (∀ (m : Nat) (t : σ), m < n → P t →
        bodyC (k + m * d) t = some (body (k + m * d) t) ∧ P (body (k + m * d) t)) →
      forNeChecked fuel k stop d bodyC s = some (loopN n k d body s) ∧
        P (loopN n k d body s) := by
  intro n
  induction n with
  | zero =>
    intro k s fuel hk hf h0 _
    obtain ⟨f, rfl⟩ : ∃ f, fuel = f + 1 := ⟨fuel - 1, by omega⟩
    have : k = stop := by rw [hk]; simp
    unfold forNeChecked loopN
    rw [if_pos this]
    exact ⟨rfl, h0⟩
  | succ n ih =>
    intro k s fuel hk hf h0 hstep
    obtain ⟨f, rfl⟩ : ∃ f, fuel = f + 1 := ⟨fuel - 1, by omega⟩
    have hne : k ≠ stop := by
      intro h
      rw [← h] at hk
      have h0 : ((n + 1 : Nat) : Int) * d = 0 := by linarith
      rcases mul_eq_zero.mp h0 with h1 | h1
      · omega
      · exact hd h1
    have h1 := hstep 0 s (Nat.succ_pos n) h0
    simp only [Nat.cast_zero, zero_mul, add_zero] at h1
    unfold forNeChecked loopN
    rw [if_neg hne, h1.1, Option.some_bind]
    refine ih (k + d) (body k s) f (by rw [hk]; push_cast; ring) (by omega) h1.2 ?_
    intro m t hm ht
    have := hstep (m + 1) t (Nat.succ_lt_succ hm) ht
    have e : k + d + (m : Int) * d = k + ((m + 1 : Nat) : Int) * d := by push_cast; ring
    rw [e]; exact this

/-- The literal loop `for (k = start; k != stop; k += d)` of `performSweep` with a checked
body: with any fuel above `|stop - start|` it stops, and it succeeds and agrees with the
counted loop when the body does at every visited index. -/
theorem forNeChecked_eq {σ : Type} (P : σ → Prop) (bodyC : Int → σ → Option σ)
    (body : Int → σ → σ) (start stop : Int) (s : σ) (fuel : Nat)
    (hf : (stop - start).natAbs < fuel) (h0 : P s)
    (hstep : ∀ (k : Int) (t : σ), sweepVisits start stop k (if start ≤ stop then 1 else -1) →
      P t → bodyC k t = some (body k t) ∧ P (body k t)) :
    forNeChecked fuel start stop (if start ≤ stop then 1 else -1) bodyC s =
        some (loopN (stop - start).natAbs start (if start ≤ stop then 1 else -1) body s) ∧
      P (loopN (stop - start).natAbs start (if start ≤ stop then 1 else -1) body s) := by
  refine forNeChecked_steps P bodyC body stop _ ?_ _ start s fuel ?_ hf h0 ?_
  · split_ifs <;> decide
  · split_ifs with h
    · omega
    · omega
  · intro m t hm ht
    refine hstep _ t ?_ ht
    unfold sweepVisits
    by_cases h : start ≤ stop
    · left; rw [if_pos h]; exact ⟨h, rfl, by omega, by omega⟩
    · right; rw [if_neg h]; exact ⟨by omega, rfl, by omega, by omega⟩

/-- The function `performSweep` with a checked rule: with enough fuel both loops stop, and
the pass succeeds and agrees with the unchecked pass when the rule does at every visited
cell. -/
theorem performSweep_checked_eq {σ : Type} (P : σ → Prop)
    (functionC : Int → Int → Int → Int → σ → Option σ)
    (function : Int → Int → Int → Int → σ → σ) (fromX toX fromY toY : Int) (s : σ)
    (fuel : Nat) (hfx : (toX - fromX).natAbs < fuel) (hfy : (toY - fromY).natAbs < fuel)
    (h0 : P s)
    (hstep : ∀ i j di dj t, sweepVisits fromX toX i di → sweepVisits fromY toY j dj → P t →
      functionC i j di dj t = some (function i j di dj t) ∧ P (function i j di dj t)) :
    performSweep_checked fuel fromX toX fromY toY functionC s =
        some (performSweep fromX toX fromY toY function s) ∧
      P (performSweep fromX toX fromY toY function s) := by
  unfold performSweep_checked performSweep
  refine forNeChecked_eq P _ _ fromY toY s fuel hfy h0 ?_
  intro j t hj ht
  refine forNeChecked_eq P _ _ fromX toX t fuel hfx ht ?_
  intro i t' hi ht'
  exact hstep i j _ _ t' hi hj ht'

/-- A sweep cycle with a checked rule: on a grid with at least two cells per axis and with
fuel above both cell counts, the four passes stop, and the cycle succeeds and agrees with
the unchecked cycle when the rule does at every cell that the passes visit. -/
theorem sweepCycle_checked_eq (P : MACGrid F → Prop)
    (functionC : Int → Int → Int → Int → MACGrid F → Option (MACGrid F))
    (function : Int → Int → Int → Int → MACGrid F → MACGrid F) (nx ny fuel : Nat)
    (hx : 2 ≤ nx) (hy : 2 ≤ ny) (hfx : nx < fuel) (hfy : ny < fuel) (g : MACGrid F) (h0 : P g)
    (hcount : ∀ s, P s → s.xCellCount = nx ∧ s.yCellCount = ny)
    (hstep : ∀ i j di dj s, cycleVisits nx ny i j di dj → P s →
      functionC i j di dj s = some (function i j di dj s) ∧ P (function i j di dj s)) :
    sweepCycle_checked fuel functionC g = some (sweepCycle function g) ∧
      P (sweepCycle function g) := by
  have step : ∀ (fromX toX fromY toY : Int) (s : MACGrid F),
      (toX - fromX).natAbs < fuel → (toY - fromY).natAbs < fuel →
      (∀ i j di dj, sweepVisits fromX toX i di → sweepVisits fromY toY j dj →
        cycleVisits nx ny i j di dj) →
      P s → performSweep_checked fuel fromX toX fromY toY functionC s =
          some (performSweep fromX toX fromY toY function s) ∧
        P (performSweep fromX toX fromY toY function s) := by
    intro fromX toX fromY toY s f1 f2 hv hs
    exact performSweep_checked_eq P functionC function _ _ _ _ s fuel f1 f2 hs
      (fun i j di dj s h1 h2 hs => hstep i j di dj s (hv i j di dj h1 h2) hs)
  have pass1 : ∀ s, P s → performSweep_checked fuel 1 s.xCellCount 1 s.yCellCount functionC s =
        some (performSweep 1 s.xCellCount 1 s.yCellCount function s) ∧
      P (performSweep 1 s.xCellCount 1 s.yCellCount function s) := by
    intro s hs
    obtain ⟨e1, e2⟩ := hcount s hs
    refine step _ _ _ _ s (by omega) (by omega) ?_ hs
    intro i j di dj a b
    unfold sweepVisits at a b; unfold cycleVisits; omega
  have pass2 : ∀ s, P s →
      performSweep_checked fuel 1 s.xCellCount ((s.yCellCount - 2 : Nat) : Int) 0 functionC s =
        some (performSweep 1 s.xCellCount ((s.yCellCount - 2 : Nat) : Int) 0 function s) ∧
      P (performSweep 1 s.xCellCount ((s.yCellCount - 2 : Nat) : Int) 0 function s) := by
    intro s hs
    obtain ⟨e1, e2⟩ := hcount s hs
    refine step _ _ _ _ s (by omega) (by omega) ?_ hs
    intro i j di dj a b
    unfold sweepVisits at a b; unfold cycleVisits; omega
  have pass3 : ∀ s, P s →
      performSweep_checked fuel ((s.xCellCount - 2 : Nat) : Int) 0 1 s.yCellCount functionC s =
        some (performSweep ((s.xCellCount - 2 : Nat) : Int) 0 1 s.yCellCount function s) ∧
      P (performSweep ((s.xCellCount - 2 : Nat) : Int) 0 1 s.yCellCount function s) := by
    intro s hs
    obtain ⟨e1, e2⟩ := hcount s hs
    refine step _ _ _ _ s (by omega) (by omega) ?_ hs
    intro i j di dj a b
    unfold sweepVisits at a b; unfold cycleVisits; omega
  have pass4 : ∀ s, P s →
      performSweep_checked fuel ((s.xCellCount - 2 : Nat) : Int) 0
          ((s.yCellCount - 2 : Nat) : Int) 0 functionC s =
        some (performSweep ((s.xCellCount - 2 : Nat) : Int) 0 ((s.yCellCount - 2 : Nat) : Int) 0
          function s) ∧
      P (performSweep ((s.xCellCount - 2 : Nat) : Int) 0 ((s.yCellCount - 2 : Nat) : Int) 0
        function s) := by
    intro s hs
    obtain ⟨e1, e2⟩ := hcount s hs
    refine step _ _ _ _ s (by omega) (by omega) ?_ hs
    intro i j di dj a b
    unfold sweepVisits at a b; unfold cycleVisits; omega
  unfold sweepCycle_checked sweepCycle
  obtain ⟨a1, b1⟩ := pass1 g h0
  obtain ⟨a2, b2⟩ := pass2 _ b1
  obtain ⟨a3, b3⟩ := pass3 _ b2
  obtain ⟨a4, b4⟩ := pass4 _ b3
  simp only [Option.bind_eq_bind, a1, Option.some_bind, a2, a3]
  exact ⟨a4, b4⟩

/-! ## Index safety: accesses inside the dimension succeed -/

theorem grid_2D.read_eq {α : Type} (g : grid_2D α) (dimX dimY : Nat) (x y : Int)
    (h1 : 0 ≤ x) (h2 : x < dimX) (h3 : 0 ≤ y) (h4 : y < dimY) :
    g.read dimX dimY x y = some (g x y) := by
  unfold grid_2D.read; rw [if_pos ⟨h1, h2, h3, h4⟩]

theorem grid_2D.write_eq {α : Type} (g : grid_2D α) (dimX dimY : Nat) (x y : Int) (a : α)
    (h1 : 0 ≤ x) (h2 : x < dimX) (h3 : 0 ≤ y) (h4 : y < dimY) :
    g.write dimX dimY x y a = some (g.set x y a) := by
  unfold grid_2D.write; rw [if_pos ⟨h1, h2, h3, h4⟩]

theorem MACGrid.readCellTypes_eq (g : MACGrid F) (x y : Int)
    (h1 : 0 ≤ x) (h2 : x < g.xCellCount) (h3 : 0 ≤ y) (h4 : y < g.yCellCount) :
    g.readCellTypes x y = some (g.cellTypes x y) :=
  grid_2D.read_eq _ _ _ x y h1 h2 h3 h4

theorem MACGrid.cellIs_eq (g : MACGrid F) (x y : Int) (c : cellType)
    (h1 : 0 ≤ x) (h2 : x < g.xCellCount) (h3 : 0 ≤ y) (h4 : y < g.yCellCount) :
    g.cellIs x y c = some (decide (g.cellTypes x y = c)) := by
  unfold MACGrid.cellIs; rw [MACGrid.readCellTypes_eq g x y h1 h2 h3 h4]; rfl

theorem MACGrid.cellIsNot_eq (g : MACGrid F) (x y : Int) (c : cellType)
    (h1 : 0 ≤ x) (h2 : x < g.xCellCount) (h3 : 0 ≤ y) (h4 : y < g.yCellCount) :
    g.cellIsNot x y c = some (decide (g.cellTypes x y ≠ c)) := by
  unfold MACGrid.cellIsNot; rw [MACGrid.readCellTypes_eq g x y h1 h2 h3 h4]; rfl

theorem MACGrid.readDistanceField_eq (g : MACGrid F) (x y : Int)
    (h1 : 0 ≤ x) (h2 : x < g.xCellCount) (h3 : 0 ≤ y) (h4 : y < g.yCellCount) :
    g.readDistanceField x y = some (g.distanceField x y) :=
  grid_2D.read_eq _ _ _ x y h1 h2 h3 h4

theorem MACGrid.readDiv_eq (g : MACGrid F) (x y : Int)
    (h1 : 0 ≤ x) (h2 : x < g.xCellCount) (h3 : 0 ≤ y) (h4 : y < g.yCellCount) :
    g.readDiv x y = some (g.div x y) :=
  grid_2D.read_eq _ _ _ x y h1 h2 h3 h4

theorem MACGrid.readU_eq (g : MACGrid F) (x y : Int)
    (h1 : 0 ≤ x) (h2 : x ≤ g.xCellCount) (h3 : 0 ≤ y) (h4 : y < g.yCellCount) :
    g.readU x y = some (g.u x y) :=
  grid_2D.read_eq _ _ _ x y h1 (by push_cast; omega) h3 h4

theorem MACGrid.readV_eq (g : MACGrid F) (x y : Int)
    (h1 : 0 ≤ x) (h2 : x < g.xCellCount) (h3 : 0 ≤ y) (h4 : y ≤ g.yCellCount) :
    g.readV x y = some (g.v x y) :=
  grid_2D.read_eq _ _ _ x y h1 h2 h3 (by push_cast; omega)

theorem MACGrid.writeCellTypes_eq (g : MACGrid F) (x y : Int) (a : cellType)
    (h1 : 0 ≤ x) (h2 : x < g.xCellCount) (h3 : 0 ≤ y) (h4 : y < g.yCellCount) :
    g.writeCellTypes x y a = some { g with cellTypes := g.cellTypes.set x y a } := by
  unfold MACGrid.writeCellTypes; rw [grid_2D.write_eq _ _ _ x y a h1 h2 h3 h4]; rfl

theorem MACGrid.writeDistanceField_eq (g : MACGrid F) (x y : Int) (a : F)
    (h1 : 0 ≤ x) (h2 : x < g.xCellCount) (h3 : 0 ≤ y) (h4 : y < g.yCellCount) :
    g.writeDistanceField x y a = some { g with distanceField := g.distanceField.set x y a } := by
  unfold MACGrid.writeDistanceField; rw [grid_2D.write_eq _ _ _ x y a h1 h2 h3 h4]; rfl

theorem MACGrid.writeDiv_eq (g : MACGrid F) (x y : Int) (a : F)
    (h1 : 0 ≤ x) (h2 : x < g.xCellCount) (h3 : 0 ≤ y) (h4 : y < g.yCellCount) :
    g.writeDiv x y a = some { g with div := g.div.set x y a } := by
  unfold MACGrid.writeDiv; rw [grid_2D.write_eq _ _ _ x y a h1 h2 h3 h4]; rfl

theorem MACGrid.writeU_eq (g : MACGrid F) (x y : Int) (a : F)
    (h1 : 0 ≤ x) (h2 : x ≤ g.xCellCount) (h3 : 0 ≤ y) (h4 : y < g.yCellCount) :
    g.writeU x y a = some { g with u := g.u.set x y a } := by
  unfold MACGrid.writeU
  rw [grid_2D.write_eq _ _ _ x y a h1 (by push_cast; omega) h3 h4]; rfl

theorem MACGrid.writeV_eq (g : MACGrid F) (x y : Int) (a : F)
    (h1 : 0 ≤ x) (h2 : x < g.xCellCount) (h3 : 0 ≤ y) (h4 : y ≤ g.yCellCount) :
    g.writeV x y a = some { g with v := g.v.set x y a } := by
  unfold MACGrid.writeV
  rw [grid_2D.write_eq _ _ _ x y a h1 h2 h3 (by push_cast; omega)]; rfl

theorem andChecked_some (a b : Bool) : andChecked (some a) (some b) = some (a && b) := by
  cases a <;> rfl

theorem orChecked_some (a b : Bool) : orChecked (some a) (some b) = some (a || b) := by
  cases a <;> rfl

/-! ## Index safety: the per-cell rules and the loops -/

/-- The rule of `updateDistanceField` at a visited cell stays inside the dimension. -/
theorem updateDistanceField_updateFunc_checked_eq (sqrt : F → F) (i j di dj : Int)
    (g : MACGrid F) (hv : cycleVisits g.xCellCount g.yCellCount i j di dj) :
    updateDistanceField_updateFunc_checked sqrt i j di dj g =
      some (updateDistanceField_updateFunc sqrt i j di dj g) := by
  unfold cycleVisits at hv
  unfold updateDistanceField_updateFunc_checked updateDistanceField_updateFunc
  simp (disch := (first | omega | (dsimp only; omega))) only [MACGrid.cellIsNot_eq, MACGrid.readDistanceField_eq,
    MACGrid.writeDistanceField_eq, Option.bind_eq_bind, Option.some_bind, Option.pure_def,
    decide_eq_true_eq]
  split_ifs <;> rfl

/-- The rule of `sweepU` at a visited cell stays inside every dimension. -/
theorem sweepU_updateFunc_checked_eq (i j di dj : Int) (g : MACGrid F)
    (hv : cycleVisits g.xCellCount g.yCellCount i j di dj) :
    sweepU_updateFunc_checked i j di dj g = some (sweepU_updateFunc i j di dj g) := by
  unfold cycleVisits at hv
  unfold sweepU_updateFunc_checked sweepU_updateFunc
  simp (disch := (first | omega | (dsimp only; omega))) only [MACGrid.cellIs_eq, MACGrid.readDistanceField_eq,
    MACGrid.readU_eq, MACGrid.writeU_eq, andChecked_some, Option.bind_eq_bind,
    Option.some_bind, Option.pure_def, Bool.and_eq_true, decide_eq_true_eq]
  split_ifs <;> rfl

/-- The rule of `sweepV` at a visited cell stays inside every dimension. -/
theorem sweepV_updateFunc_checked_eq (i j di dj : Int) (g : MACGrid F)
    (hv : cycleVisits g.xCellCount g.yCellCount i j di dj) :
    sweepV_updateFunc_checked i j di dj g = some (sweepV_updateFunc i j di dj g) := by
  unfold cycleVisits at hv
  unfold sweepV_updateFunc_checked sweepV_updateFunc
  simp (disch := (first | omega | (dsimp only; omega))) only [MACGrid.cellIs_eq, MACGrid.readDistanceField_eq,
    MACGrid.readV_eq, MACGrid.writeV_eq, andChecked_some, Option.bind_eq_bind,
    Option.some_bind, Option.pure_def, Bool.and_eq_true, decide_eq_true_eq]
  split_ifs <;> rfl

/-- Cycles of checked passes: with at least two cells per axis and fuel above both cell
counts they stop, succeed and agree with the unchecked cycles, when the rule does at every
visited cell and keeps the cell counts. -/
theorem sweepCycles_checked_eq (n fuel : Nat)
    (functionC : Int → Int → Int → Int → MACGrid F → Option (MACGrid F))
    (function : Int → Int → Int → Int → MACGrid F → MACGrid F) (g : MACGrid F)
    (hx : 2 ≤ g.xCellCount) (hy : 2 ≤ g.yCellCount)
    (hfx : g.xCellCount < fuel) (hfy : g.yCellCount < fuel)
    (hrule : ∀ i j di dj (s : MACGrid F), cycleVisits s.xCellCount s.yCellCount i j di dj →
      functionC i j di dj s = some (function i j di dj s) ∧
      (function i j di dj s).xCellCount = s.xCellCount ∧
      (function i j di dj s).yCellCount = s.yCellCount) :
    forLtChecked 0 n (fun _ g => sweepCycle_checked fuel functionC g) g =
        some (forLt 0 n (fun _ g => sweepCycle function g) g) ∧
      (forLt 0 n (fun _ g => sweepCycle function g) g).xCellCount = g.xCellCount ∧
      (forLt 0 n (fun _ g => sweepCycle function g) g).yCellCount = g.yCellCount := by
  refine forLtChecked_eq
    (fun t : MACGrid F => t.xCellCount = g.xCellCount ∧ t.yCellCount = g.yCellCount)
    _ _ 0 n g ⟨rfl, rfl⟩ ?_
  intro _ t _ _ ht
  refine sweepCycle_checked_eq
    (fun t : MACGrid F => t.xCellCount = g.xCellCount ∧ t.yCellCount = g.yCellCount)
    functionC function g.xCellCount g.yCellCount fuel hx hy hfx hfy t ht (fun s hs => hs) ?_
  intro i j di dj s hv hs
  obtain ⟨r1, r2, r3⟩ := hrule i j di dj s (by rw [hs.1, hs.2]; exact hv)
  exact ⟨r1, r2.trans hs.1, r3.trans hs.2⟩

theorem updateBoundaries_cellRows_checked_eq (g : MACGrid F) (hy : 2 ≤ g.yCellCount) :
    updateBoundaries_cellRows_checked g = some (updateBoundaries_cellRows g) ∧
      (updateBoundaries_cellRows g).xCellCount = g.xCellCount ∧
      (updateBoundaries_cellRows g).yCellCount = g.yCellCount := by
  unfold updateBoundaries_cellRows_checked updateBoundaries_cellRows
  refine forLtChecked_eq
    (fun t : MACGrid F => t.xCellCount = g.xCellCount ∧ t.yCellCount = g.yCellCount)
    _ _ _ _ g ⟨rfl, rfl⟩ ?_
  intro i t h1 h2 ht
  obtain ⟨e1, e2⟩ := ht
  refine ⟨?_, e1, e2⟩
  simp (disch := (first | omega | (dsimp only; omega))) only [MACGrid.writeCellTypes_eq, Option.bind_eq_bind,
    Option.some_bind]

theorem updateBoundaries_cellColumns_checked_eq (g : MACGrid F) (hx : 2 ≤ g.xCellCount) :
    updateBoundaries_cellColumns_checked g = some (updateBoundaries_cellColumns g) ∧
      (updateBoundaries_cellColumns g).xCellCount = g.xCellCount ∧
      (updateBoundaries_cellColumns g).yCellCount = g.yCellCount := by
  unfold updateBoundaries_cellColumns_checked updateBoundaries_cellColumns
  refine forLtChecked_eq
    (fun t : MACGrid F => t.xCellCount = g.xCellCount ∧ t.yCellCount = g.yCellCount)
    _ _ _ _ g ⟨rfl, rfl⟩ ?_
  intro i t h1 h2 ht
  obtain ⟨e1, e2⟩ := ht
  refine ⟨?_, e1, e2⟩
  simp (disch := (first | omega | (dsimp only; omega))) only [MACGrid.writeCellTypes_eq, Option.bind_eq_bind,
    Option.some_bind]

theorem updateBoundaries_u_checked_eq (g : MACGrid F) (hx : 2 ≤ g.xCellCount) :
    updateBoundaries_u_checked g = some (updateBoundaries_u g) ∧
      (updateBoundaries_u g).xCellCount = g.xCellCount ∧
      (updateBoundaries_u g).yCellCount = g.yCellCount := by
  unfold updateBoundaries_u_checked updateBoundaries_u
  refine forLtChecked_eq
    (fun t : MACGrid F => t.xCellCount = g.xCellCount ∧ t.yCellCount = g.yCellCount)
    _ _ _ _ g ⟨rfl, rfl⟩ ?_
  intro i t h1 h2 ht
  obtain ⟨e1, e2⟩ := ht
  refine ⟨?_, e1, e2⟩
  simp (disch := (first | omega | (dsimp only; omega))) only [MACGrid.writeU_eq, Option.bind_eq_bind, Option.some_bind]

theorem updateBoundaries_v_checked_eq (g : MACGrid F) (hy : 2 ≤ g.yCellCount) :
    updateBoundaries_v_checked g = some (updateBoundaries_v g) ∧
      (updateBoundaries_v g).xCellCount = g.xCellCount ∧
      (updateBoundaries_v g).yCellCount = g.yCellCount := by
  unfold updateBoundaries_v_checked updateBoundaries_v
  refine forLtChecked_eq
    (fun t : MACGrid F => t.xCellCount = g.xCellCount ∧ t.yCellCount = g.yCellCount)
    _ _ _ _ g ⟨rfl, rfl⟩ ?_
  intro i t h1 h2 ht
  obtain ⟨e1, e2⟩ := ht
  refine ⟨?_, e1, e2⟩
  simp (disch := (first | omega | (dsimp only; omega))) only [MACGrid.writeV_eq, Option.bind_eq_bind, Option.some_bind]

/-- Every access of `updateBoundaries` stays inside its dimension. -/
theorem updateBoundaries_checked_eq (g : MACGrid F)
    (hx : 2 ≤ g.xCellCount) (hy : 2 ≤ g.yCellCount) :
    updateBoundaries_checked g = some (updateBoundaries g) := by
  unfold updateBoundaries_checked updateBoundaries
  obtain ⟨a1, b1, c1⟩ := updateBoundaries_cellRows_checked_eq g hy
  obtain ⟨a2, b2, c2⟩ := updateBoundaries_cellColumns_checked_eq (updateBoundaries_cellRows g)
    (by rw [b1]; exact hx)
  obtain ⟨a3, b3, c3⟩ := updateBoundaries_u_checked_eq
    (updateBoundaries_cellColumns (updateBoundaries_cellRows g)) (by rw [b2, b1]; exact hx)
  obtain ⟨a4, _, _⟩ := updateBoundaries_v_checked_eq
    (updateBoundaries_u (updateBoundaries_cellColumns (updateBoundaries_cellRows g)))
    (by rw [c3, c2, c1]; exact hy)
  simp only [Option.bind_eq_bind, a1, a2, a3, Option.some_bind]
  exact a4

/-- Every access of the seeding loop of `updateDistanceField` stays inside the dimension. -/
theorem updateDistanceField_seed_checked_eq (g : MACGrid F) :
    updateDistanceField_seed_checked g = some (updateDistanceField_seed g) ∧
      (updateDistanceField_seed g).xCellCount = g.xCellCount ∧
      (updateDistanceField_seed g).yCellCount = g.yCellCount := by
  unfold updateDistanceField_seed_checked updateDistanceField_seed
  dsimp only
  refine forLtChecked_eq
    (fun t : MACGrid F => t.xCellCount = g.xCellCount ∧ t.yCellCount = g.yCellCount)
    _ _ _ _ _ ⟨rfl, rfl⟩ ?_
  intro j t hj1 hj2 ht
  refine forLtChecked_eq
    (fun t : MACGrid F => t.xCellCount = g.xCellCount ∧ t.yCellCount = g.yCellCount)
    _ _ _ _ t ht ?_
  intro i s hi1 hi2 hs
  obtain ⟨e1, e2⟩ := hs
  obtain ⟨f1, f2⟩ := ht
  constructor
  · simp (disch := omega) only [MACGrid.cellIs_eq, MACGrid.writeDistanceField_eq,
      Option.bind_eq_bind, Option.some_bind, Option.pure_def, decide_eq_true_eq]
    split_ifs <;> rfl
  · dsimp only
    split_ifs
    · exact ⟨e1, e2⟩
    · exact ⟨e1, e2⟩

/-- Every access of `updateDistanceField` stays inside the dimension, and its sixteen passes
stop. -/
theorem updateDistanceField_checked_eq (fuel : Nat) (sqrt : F → F) (g : MACGrid F)
    (hx : 2 ≤ g.xCellCount) (hy : 2 ≤ g.yCellCount)
    (hfx : g.xCellCount < fuel) (hfy : g.yCellCount < fuel) :
    updateDistanceField_checked fuel sqrt g = some (updateDistanceField sqrt g) := by
  obtain ⟨a1, b1, c1⟩ := updateDistanceField_seed_checked_eq g
  obtain ⟨a2, _, _⟩ := sweepCycles_checked_eq 4 fuel
    (updateDistanceField_updateFunc_checked sqrt) (updateDistanceField_updateFunc sqrt)
    (updateDistanceField_seed g) (by rw [b1]; exact hx) (by rw [c1]; exact hy)
    (by rw [b1]; exact hfx) (by rw [c1]; exact hfy)
    (fun i j di dj s hv => ⟨updateDistanceField_updateFunc_checked_eq sqrt i j di dj s hv,
      updateDistanceField_updateFunc_obs (fun t => t.xCellCount) (fun _ _ => rfl) sqrt i j di dj s,
      updateDistanceField_updateFunc_obs (fun t => t.yCellCount) (fun _ _ => rfl) sqrt i j di dj
        s⟩)
  unfold updateDistanceField_checked
  rw [updateDistanceField_eq]
  simp only [Option.bind_eq_bind, a1, Option.some_bind]
  exact a2

theorem sweepU_replicateRows_checked_eq (g : MACGrid F) (hy : 2 ≤ g.yCellCount) :
    sweepU_replicateRows_checked g = some (sweepU_replicateRows g) ∧
      (sweepU_replicateRows g).xCellCount = g.xCellCount ∧
      (sweepU_replicateRows g).yCellCount = g.yCellCount := by
  unfold sweepU_replicateRows_checked sweepU_replicateRows
  refine forLtChecked_eq
    (fun t : MACGrid F => t.xCellCount = g.xCellCount ∧ t.yCellCount = g.yCellCount)
    _ _ _ _ g ⟨rfl, rfl⟩ ?_
  intro i t h1 h2 ht
  obtain ⟨e1, e2⟩ := ht
  refine ⟨?_, e1, e2⟩
  simp (disch := (first | omega | (dsimp only; omega))) only [MACGrid.readU_eq,
    MACGrid.writeU_eq, Option.bind_eq_bind, Option.some_bind]

theorem sweepU_replicateColumns_checked_eq (g : MACGrid F) (hx : 2 ≤ g.xCellCount) :
    sweepU_replicateColumns_checked g = some (sweepU_replicateColumns g) ∧
      (sweepU_replicateColumns g).xCellCount = g.xCellCount ∧
      (sweepU_replicateColumns g).yCellCount = g.yCellCount := by
  unfold sweepU_replicateColumns_checked sweepU_replicateColumns
  refine forLtChecked_eq
    (fun t : MACGrid F => t.xCellCount = g.xCellCount ∧ t.yCellCount = g.yCellCount)
    _ _ _ _ g ⟨rfl, rfl⟩ ?_
  intro i t h1 h2 ht
  obtain ⟨e1, e2⟩ := ht
  refine ⟨?_, e1, e2⟩
  simp (disch := (first | omega | (dsimp only; omega))) only [MACGrid.readU_eq,
    MACGrid.writeU_eq, Option.bind_eq_bind, Option.some_bind]

/-- Every access of `sweepU` stays inside its dimension, and its sixteen passes stop. -/
theorem sweepU_checked_eq (fuel : Nat) (g : MACGrid F)
    (hx : 2 ≤ g.xCellCount) (hy : 2 ≤ g.yCellCount)
    (hfx : g.xCellCount < fuel) (hfy : g.yCellCount < fuel) :
    sweepU_checked fuel g = some (sweepU g) := by
  obtain ⟨a1, b1, c1⟩ := sweepCycles_checked_eq 4 fuel sweepU_updateFunc_checked
    sweepU_updateFunc g hx hy hfx hfy
    (fun i j di dj s hv => ⟨sweepU_updateFunc_checked_eq i j di dj s hv,
      sweepU_updateFunc_obs (fun t => t.xCellCount) (fun _ _ => rfl) i j di dj s,
      sweepU_updateFunc_obs (fun t => t.yCellCount) (fun _ _ => rfl) i j di dj s⟩)
  unfold sweepU_checked sweepU
  generalize forLt 0 4 (fun _ g => sweepCycle sweepU_updateFunc g) g = s1 at a1 b1 c1
  obtain ⟨a2, b2, c2⟩ := sweepU_replicateRows_checked_eq s1 (by rw [c1]; exact hy)
  obtain ⟨a3, _, _⟩ := sweepU_replicateColumns_checked_eq (sweepU_replicateRows s1)
    (by rw [b2, b1]; exact hx)
  simp only [Option.bind_eq_bind, a1, a2, Option.some_bind]
  exact a3

theorem sweepV_replicateRows_checked_eq (g : MACGrid F) (hy : 2 ≤ g.yCellCount) :
    sweepV_replicateRows_checked g = some (sweepV_replicateRows g) ∧
      (sweepV_replicateRows g).xCellCount = g.xCellCount ∧
      (sweepV_replicateRows g).yCellCount = g.yCellCount := by
  unfold sweepV_replicateRows_checked sweepV_replicateRows
  refine forLtChecked_eq
    (fun t : MACGrid F => t.xCellCount = g.xCellCount ∧ t.yCellCount = g.yCellCount)
    _ _ _ _ g ⟨rfl, rfl⟩ ?_
  intro i t h1 h2 ht
  obtain ⟨e1, e2⟩ := ht
  refine ⟨?_, e1, e2⟩
  simp (disch := (first | omega | (dsimp only; omega))) only [MACGrid.readV_eq,
    MACGrid.writeV_eq, Option.bind_eq_bind, Option.some_bind]

theorem sweepV_replicateColumns_checked_eq (g : MACGrid F) (hx : 2 ≤ g.xCellCount) :
    sweepV_replicateColumns_checked g = some (sweepV_replicateColumns g) ∧
      (sweepV_replicateColumns g).xCellCount = g.xCellCount ∧
      (sweepV_replicateColumns g).yCellCount = g.yCellCount := by
  unfold sweepV_replicateColumns_checked sweepV_replicateColumns
  refine forLtChecked_eq
    (fun t : MACGrid F => t.xCellCount = g.xCellCount ∧ t.yCellCount = g.yCellCount)
    _ _ _ _ g ⟨rfl, rfl⟩ ?_
  intro i t h1 h2 ht
  obtain ⟨e1, e2⟩ := ht
  refine ⟨?_, e1, e2⟩
  simp (disch := (first | omega | (dsimp only; omega))) only [MACGrid.readV_eq,
    MACGrid.writeV_eq, Option.bind_eq_bind, Option.some_bind]

/-- Every access of `sweepV` stays inside its dimension, and its eight passes stop. -/
theorem sweepV_checked_eq (fuel : Nat) (g : MACGrid F)
    (hx : 2 ≤ g.xCellCount) (hy : 2 ≤ g.yCellCount)
    (hfx : g.xCellCount < fuel) (hfy : g.yCellCount < fuel) :
    sweepV_checked fuel g = some (sweepV g) := by
  obtain ⟨a1, b1, c1⟩ := sweepCycles_checked_eq 2 fuel sweepV_updateFunc_checked
    sweepV_updateFunc g hx hy hfx hfy
    (fun i j di dj s hv => ⟨sweepV_updateFunc_checked_eq i j di dj s hv,
      sweepV_updateFunc_obs (fun t => t.xCellCount) (fun _ _ => rfl) i j di dj s,
      sweepV_updateFunc_obs (fun t => t.yCellCount) (fun _ _ => rfl) i j di dj s⟩)
  unfold sweepV_checked sweepV
  generalize forLt 0 2 (fun _ g => sweepCycle sweepV_updateFunc g) g = s1 at a1 b1 c1
  obtain ⟨a2, b2, c2⟩ := sweepV_replicateRows_checked_eq s1 (by rw [c1]; exact hy)
  obtain ⟨a3, _, _⟩ := sweepV_replicateColumns_checked_eq (sweepV_replicateRows s1)
    (by rw [b2, b1]; exact hx)
  simp only [Option.bind_eq_bind, a1, a2, Option.some_bind]
  exact a3

/-- Every access of `calculateDiv` stays inside its dimension. -/
theorem calculateDiv_checked_eq (g : MACGrid F) :
    calculateDiv_checked g = some (calculateDiv g) ∧
      (calculateDiv g).xCellCount = g.xCellCount ∧
      (calculateDiv g).yCellCount = g.yCellCount := by
  unfold calculateDiv_checked calculateDiv
  dsimp only
  refine forLtChecked_eq
    (fun t : MACGrid F => t.xCellCount = g.xCellCount ∧ t.yCellCount = g.yCellCount)
    _ _ _ _ _ ⟨rfl, rfl⟩ ?_
  intro j t hj1 hj2 ht
  refine forLtChecked_eq
    (fun t : MACGrid F => t.xCellCount = g.xCellCount ∧ t.yCellCount = g.yCellCount)
    _ _ _ _ t ht ?_
  intro i s hi1 hi2 hs
  obtain ⟨e1, e2⟩ := hs
  obtain ⟨f1, f2⟩ := ht
  constructor
  · simp (disch := omega) only [MACGrid.cellIs_eq, MACGrid.readU_eq, MACGrid.readV_eq,
      MACGrid.writeDiv_eq, Option.bind_eq_bind, Option.some_bind, Option.pure_def,
      decide_eq_true_eq]
    split_ifs <;> rfl
  · dsimp only
    split_ifs
    · exact ⟨e1, e2⟩
    · exact ⟨e1, e2⟩

/-- Every access of a relaxation sweep of `divFreeField` stays inside the dimension. -/
theorem divFreeField_sweep_checked_eq (g : MACGrid F) (q : grid_2D F) :
    divFreeField_sweep_checked g q = some (divFreeField_sweep g q) := by
  unfold divFreeField_sweep_checked divFreeField_sweep
  refine (forLtChecked_eq (fun _ : grid_2D F => True) _ _ _ _ q trivial ?_).1
  intro x t hx1 hx2 _
  refine ⟨?_, trivial⟩
  refine (forLtChecked_eq (fun _ : grid_2D F => True) _ _ _ _ t trivial ?_).1
  intro y s hy1 hy2 _
  refine ⟨?_, trivial⟩
  simp (disch := omega) only [MACGrid.cellIs_eq, MACGrid.readDiv_eq, grid_2D.read_eq,
    grid_2D.write_eq, Option.bind_eq_bind, Option.some_bind, Option.pure_def,
    decide_eq_true_eq]
  split_ifs <;> rfl

/-- Every access of the relaxation loop of `divFreeField` stays inside the dimension. -/
theorem divFreeField_relax_checked_eq (sb : BoundaryRules F) (g : MACGrid F) (n : Nat) :
    divFreeField_relax_checked sb g n = some (divFreeField_relax sb g n) := by
  unfold divFreeField_relax_checked divFreeField_relax
  dsimp only
  refine (forLtChecked_eq (fun _ : grid_2D F => True) _ _ _ _ _ trivial ?_).1
  intro _ q _ _ _
  refine ⟨?_, trivial⟩
  simp only [Option.bind_eq_bind, divFreeField_sweep_checked_eq, Option.some_bind,
    Option.pure_def]

/-- Every access of the `u` correction loop of `divFreeField` stays inside its dimension. -/
theorem divFreeField_correctU_checked_eq (q : grid_2D F) (g : MACGrid F) :
    divFreeField_correctU_checked q g = some (divFreeField_correctU q g) ∧
      (divFreeField_correctU q g).xCellCount = g.xCellCount ∧
      (divFreeField_correctU q g).yCellCount = g.yCellCount := by
  unfold divFreeField_correctU_checked divFreeField_correctU
  refine forLtChecked_eq
    (fun t : MACGrid F => t.xCellCount = g.xCellCount ∧ t.yCellCount = g.yCellCount)
    _ _ _ _ _ ⟨rfl, rfl⟩ ?_
  intro x t hx1 hx2 ht
  refine forLtChecked_eq
    (fun t : MACGrid F => t.xCellCount = g.xCellCount ∧ t.yCellCount = g.yCellCount)
    _ _ _ _ t ht ?_
  intro y s hy1 hy2 hs
  obtain ⟨e1, e2⟩ := hs
  obtain ⟨f1, f2⟩ := ht
  constructor
  · simp (disch := omega) only [MACGrid.cellIs_eq, MACGrid.cellIsNot_eq, MACGrid.readU_eq,
      MACGrid.writeU_eq, grid_2D.read_eq, andChecked_some, orChecked_some,
      Option.bind_eq_bind, Option.some_bind, Option.pure_def, Bool.and_eq_true,
      Bool.or_eq_true, decide_eq_true_eq]
    split_ifs <;> rfl
  · dsimp only
    split_ifs
    · exact ⟨e1, e2⟩
    · exact ⟨e1, e2⟩

/-- Every access of the `v` correction loop of `divFreeField` stays inside its dimension. -/
theorem divFreeField_correctV_checked_eq (q : grid_2D F) (g : MACGrid F) :
    divFreeField_correctV_checked q g = some (divFreeField_correctV q g) ∧
      (divFreeField_correctV q g).xCellCount = g.xCellCount ∧
      (divFreeField_correctV q g).yCellCount = g.yCellCount := by
  unfold divFreeField_correctV_checked divFreeField_correctV
  refine forLtChecked_eq
    (fun t : MACGrid F => t.xCellCount = g.xCellCount ∧ t.yCellCount = g.yCellCount)
    _ _ _ _ _ ⟨rfl, rfl⟩ ?_
  intro x t hx1 hx2 ht
  refine forLtChecked_eq
    (fun t : MACGrid F => t.xCellCount = g.xCellCount ∧ t.yCellCount = g.yCellCount)
    _ _ _ _ t ht ?_
  intro y s hy1 hy2 hs
  obtain ⟨e1, e2⟩ := hs
  obtain ⟨f1, f2⟩ := ht
  constructor
  · simp (disch := omega) only [MACGrid.cellIs_eq, MACGrid.cellIsNot_eq, MACGrid.readV_eq,
      MACGrid.writeV_eq, grid_2D.read_eq, andChecked_some, orChecked_some,
      Option.bind_eq_bind, Option.some_bind, Option.pure_def, Bool.and_eq_true,
      Bool.or_eq_true, decide_eq_true_eq]
    split_ifs <;> rfl
  · dsimp only
    split_ifs
    · exact ⟨e1, e2⟩
    · exact ⟨e1, e2⟩

/-- Every access of the loops of `divFreeField` stays inside its dimension. -/
theorem divFreeField_checked_eq (sb : BoundaryRules F) (g : MACGrid F) :
    divFreeField_checked sb g = some (divFreeField sb g) := by
  obtain ⟨a1, _, _⟩ := calculateDiv_checked_eq g
  unfold divFreeField_checked divFreeField
  simp only [Option.bind_eq_bind, a1, Option.some_bind, divFreeField_relax_checked_eq,
    (divFreeField_correctU_checked_eq _ _).1, (divFreeField_correctV_checked_eq _ _).1,
    Option.pure_def]

/-- The checked rule does fail outside the visited range: at `(0, 1)` on the all-`EMPTY_CELL`
3 × 3 grid the rule of `sweepU` reads `cellTypes(-1, 1)`. -/
theorem sweepU_updateFunc_checked_outside :
    sweepU_updateFunc_checked 0 1 1 1 (flatEmptyGrid : MACGrid ℚ) = none := by
  have a : (flatEmptyGrid : MACGrid ℚ).cellIs 0 1 cellType.EMPTY_CELL = some true := by
    rw [MACGrid.cellIs_eq _ _ _ _ (by decide) (by decide) (by decide) (by decide)]
    rfl
  have b : (flatEmptyGrid : MACGrid ℚ).cellIs (0 - 1) 1 cellType.EMPTY_CELL = none := by
    unfold MACGrid.cellIs MACGrid.readCellTypes grid_2D.read
    rw [if_neg (by decide)]
    rfl
  unfold sweepU_updateFunc_checked
  rw [a, b]
  rfl

/-- The literal loop does fail when the fuel runs out: three iterations do not fit in a
fuel of 2. -/
theorem forNeChecked_out_of_fuel :
    forNeChecked 2 0 3 1 (fun _ (s : Nat) => some s) 0 = none := by
  decide

/-- C17. Index safety of the pipeline, with every array read and write checked against the
dimension of its grid (`cellTypes`, `distanceField`, `div`, `q`: `nx × ny`; `u`:
`(nx + 1) × ny`; `v`: `nx × (ny + 1)`) and the loops of `performSweep` written literally
with fuel. On every grid with `nx ≥ 2` and `ny ≥ 2`, for every classification and with any
fuel above both cell counts, `updateDistanceField`, `sweepU`, `sweepV`, `updateBoundaries`,
`calculateDiv` and the loops of `divFreeField` (relaxation sweep, both gradient corrections)
return a result, so no access leaves its dimension and every `performSweep` call stops; the
result is the one of the unchecked functions. -/
theorem pipeline_index_safe (sb : BoundaryRules F) (sqrt : F → F) (g : MACGrid F) (fuel : Nat)
    (hx : 2 ≤ g.xCellCount) (hy : 2 ≤ g.yCellCount)
    (hfx : g.xCellCount < fuel) (hfy : g.yCellCount < fuel) :
    updateDistanceField_checked fuel sqrt g = some (updateDistanceField sqrt g) ∧
    sweepU_checked fuel g = some (sweepU g) ∧
    sweepV_checked fuel g = some (sweepV g) ∧
    updateBoundaries_checked g = some (updateBoundaries g) ∧
    calculateDiv_checked g = some (calculateDiv g) ∧
    (∀ q : grid_2D F, divFreeField_sweep_checked g q = some (divFreeField_sweep g q)) ∧
    (∀ q : grid_2D F, divFreeField_correctU_checked q g = some (divFreeField_correctU q g)) ∧
    (∀ q : grid_2D F, divFreeField_correctV_checked q g = some (divFreeField_correctV q g)) ∧
    divFreeField_checked sb g = some (divFreeField sb g) :=
  ⟨updateDistanceField_checked_eq fuel sqrt g hx hy hfx hfy,
   sweepU_checked_eq fuel g hx hy hfx hfy,
   sweepV_checked_eq fuel g hx hy hfx hfy,
   updateBoundaries_checked_eq g hx hy,
   (calculateDiv_checked_eq g).1,
   fun q => divFreeField_sweep_checked_eq g q,
   fun q => (divFreeField_correctU_checked_eq q g).1,
   fun q => (divFreeField_correctV_checked_eq q g).1,
   divFreeField_checked_eq sb g⟩

/-- Witness for C17 on the scenario grid (4 × 4), with fuel 5. -/
theorem pipeline_index_safe_witness :
    updateDistanceField_checked 5 (fun x => x) (scenarioGrid : MACGrid ℚ) =
      some (updateDistanceField (fun x => x) (scenarioGrid : MACGrid ℚ)) ∧
    sweepU_checked 5 (scenarioGrid : MACGrid ℚ) = some (sweepU (scenarioGrid : MACGrid ℚ)) ∧
    sweepV_checked 5 (scenarioGrid : MACGrid ℚ) = some (sweepV (scenarioGrid : MACGrid ℚ)) ∧
    updateBoundaries_checked (scenarioGrid : MACGrid ℚ) =
      some (updateBoundaries (scenarioGrid : MACGrid ℚ)) ∧
    calculateDiv_checked (scenarioGrid : MACGrid ℚ) =
      some (calculateDiv (scenarioGrid : MACGrid ℚ)) ∧
    (∀ q : grid_2D ℚ, divFreeField_sweep_checked (scenarioGrid : MACGrid ℚ) q =
      some (divFreeField_sweep (scenarioGrid : MACGrid ℚ) q)) ∧
    (∀ q : grid_2D ℚ, divFreeField_correctU_checked q (scenarioGrid : MACGrid ℚ) =
      some (divFreeField_correctU q (scenarioGrid : MACGrid ℚ))) ∧
    (∀ q : grid_2D ℚ, divFreeField_correctV_checked q (scenarioGrid : MACGrid ℚ) =
      some (divFreeField_correctV q (scenarioGrid : MACGrid ℚ))) ∧
    divFreeField_checked specBoundary (scenarioGrid : MACGrid ℚ) =
      some (divFreeField specBoundary (scenarioGrid : MACGrid ℚ)) :=
  pipeline_index_safe specBoundary (fun x => x) (scenarioGrid : MACGrid ℚ) 5
    (by decide) (by decide) (by decide) (by decide)

/-! ## Sampling coordinates in `float` arithmetic -/

theorem roundFloat_zero : roundFloat 0 = 0 := by
  unfold roundFloat; rw [if_pos rfl]

/-- Evaluation of `roundFloat`: a positive `q` in the binade `[2^e, 2^(e+1))` that is less
than half a unit in the last place away from `n * 2^(e-23)` rounds to it. -/
theorem roundFloat_eq (q : ℚ) (e n : Int) (h1 : (2 : ℚ) ^ e ≤ q) (h2 : q < (2 : ℚ) ^ (e + 1))
    (h3 : (n : ℚ) - 1 / 2 < q / 2 ^ (e - 23)) (h4 : q / 2 ^ (e - 23) < n + 1 / 2) :
    roundFloat q = n * 2 ^ (e - 23) := by
  have hq : 0 < q := lt_of_lt_of_le (zpow_pos (by norm_num) e) h1
  have hlog : Int.log 2 |q| = e := by
    rw [abs_of_pos hq]
    apply le_antisymm
    · have := (Int.lt_zpow_iff_log_lt (b := 2) (by norm_num) hq).mp (by exact_mod_cast h2)
      omega
    · exact (Int.zpow_le_iff_le_log (b := 2) (by norm_num) hq).mp (by exact_mod_cast h1)
  unfold roundFloat
  rw [if_neg hq.ne']
  simp only [hlog]
  generalize q / 2 ^ (e - 23) = m at h3 h4
  by_cases hm : (n : ℚ) ≤ m
  · have hf : ⌊m⌋ = n := by
      rw [Int.floor_eq_iff]; constructor <;> linarith
    rw [hf, if_pos (by linarith)]
  · have hf : ⌊m⌋ = n - 1 := by
      rw [Int.floor_eq_iff]; push_cast; constructor <;> linarith
    rw [hf, if_neg (by push_cast; linarith), if_pos (by push_cast; linarith)]
    norm_num

/-- Evaluation of `roundFloat` at a tie: a positive `q` in the binade `[2^e, 2^(e+1))`
half-way between `f * 2^(e-23)` and the next `float`, with `f` even, rounds to
`f * 2^(e-23)`. -/
theorem roundFloat_eq_tie (q : ℚ) (e f : Int) (h1 : (2 : ℚ) ^ e ≤ q)
    (h2 : q < (2 : ℚ) ^ (e + 1)) (h3 : q / 2 ^ (e - 23) = f + 1 / 2) (hf : f % 2 = 0) :
    roundFloat q = f * 2 ^ (e - 23) := by
  have hq : 0 < q := lt_of_lt_of_le (zpow_pos (by norm_num) e) h1
  have hlog : Int.log 2 |q| = e := by
    rw [abs_of_pos hq]
    apply le_antisymm
    · have := (Int.lt_zpow_iff_log_lt (b := 2) (by norm_num) hq).mp (by exact_mod_cast h2)
      omega
    · exact (Int.zpow_le_iff_le_log (b := 2) (by norm_num) hq).mp (by exact_mod_cast h1)
  unfold roundFloat
  rw [if_neg hq.ne']
  simp only [hlog, h3]
  have hfl : ⌊(f : ℚ) + 1 / 2⌋ = f := by
    rw [Int.floor_eq_iff]; constructor <;> linarith
  rw [hfl, if_neg (by linarith), if_neg (by linarith), if_pos hf]

/-- Rounding keeps the unit interval: `0` and `1` are `float`s. -/
theorem roundFloat_unit (w : ℚ) (h0 : 0 ≤ w) (h1 : w ≤ 1) :
    0 ≤ roundFloat w ∧ roundFloat w ≤ 1 := by
  unfold roundFloat
  by_cases hw : w = 0
  · rw [if_pos hw]; exact ⟨le_refl _, zero_le_one⟩
  · rw [if_neg hw]
    have hpos : 0 < w := lt_of_le_of_ne h0 (Ne.symm hw)
    have he : Int.log 2 |w| ≤ 0 := by
      rw [abs_of_pos hpos]
      have := (Int.lt_zpow_iff_log_lt (b := 2) (x := 1) (by norm_num) hpos).mp
        (by norm_num; linarith)
      omega
    generalize Int.log 2 |w| = e at he
    obtain ⟨k, hk⟩ : ∃ k : Nat, 23 - e = k := ⟨(23 - e).toNat, by omega⟩
    have hulp : (2 : ℚ) ^ (e - 23) = ((2 : ℚ) ^ k)⁻¹ := by
      have : e - 23 = -(k : Int) := by omega
      rw [this, zpow_neg, zpow_natCast]
    simp only [hulp, div_inv_eq_mul]
    have hKint : (2 : ℚ) ^ k = (((2 : Int) ^ k : Int) : ℚ) := by push_cast; rfl
    have hK : (0 : ℚ) < 2 ^ k := by positivity
    generalize (2 : ℚ) ^ k = K at hK hKint
    have hm0 : 0 ≤ w * K := by positivity
    have hmK : w * K ≤ K := by nlinarith
    have hf0 : 0 ≤ ⌊w * K⌋ := Int.floor_nonneg.mpr hm0
    have hfle : (⌊w * K⌋ : ℚ) ≤ w * K := Int.floor_le _
    have hf0q : (0 : ℚ) ≤ (⌊w * K⌋ : ℚ) := by exact_mod_cast hf0
    have low : ∀ n : Int, 0 ≤ n → (0 : ℚ) ≤ (n : ℚ) * K⁻¹ := by
      intro n hn
      have : (0 : ℚ) ≤ (n : ℚ) := by exact_mod_cast hn
      positivity
    have up : ∀ n : Int, (n : ℚ) ≤ K → (n : ℚ) * K⁻¹ ≤ 1 := by
      intro n hn
      rw [← div_eq_mul_inv, div_le_one hK]; exact hn
    have succ : (⌊w * K⌋ : ℚ) < w * K → ((⌊w * K⌋ + 1 : Int) : ℚ) ≤ K := by
      intro hlt
      have h2 : (⌊w * K⌋ : ℚ) < K := lt_of_lt_of_le hlt hmK
      have h2' : (⌊w * K⌋ : ℚ) < (((2 : Int) ^ k : Int) : ℚ) := lt_of_lt_of_eq h2 hKint
      have h3 : ⌊w * K⌋ < (2 : Int) ^ k := by exact_mod_cast h2'
      have h4 : ((⌊w * K⌋ + 1 : Int) : ℚ) ≤ (((2 : Int) ^ k : Int) : ℚ) := by
        exact_mod_cast Int.add_one_le_iff.mpr h3
      exact le_of_le_of_eq h4 hKint.symm
    split_ifs with a b c
    · exact ⟨low _ hf0, up _ (le_trans hfle hmK)⟩
    · exact ⟨low _ (by omega), up _ (succ (by linarith))⟩
    · exact ⟨low _ hf0, up _ (le_trans hfle hmK)⟩
    · exact ⟨low _ (by omega), up _ (succ (by linarith))⟩

/-- On a value whose truncation fits in an `int` the x86-64 conversion is the truncation. -/
theorem floatToInt_x86_in_range [FloorRing F] (c : F)
    (h1 : -2147483649 < c) (h2 : c < 2147483648) : floatToInt_x86 c = truncate c := by
  have h := floatToInt_in_range c h1 h2
  unfold floatToInt at h
  unfold floatToInt_x86
  split_ifs at h with hc
  rw [if_pos hc]

/-- The x86-64 conversion returns the truncation or `INT_MIN`. -/
theorem floatToInt_x86_cases [FloorRing F] (c : F) :
    floatToInt_x86 c = truncate c ∨ floatToInt_x86 c = -2147483648 := by
  unfold floatToInt_x86
  split_ifs
  · left; rfl
  · right; rfl

/-- Where the exact-arithmetic function is defined, the `float` function without rounding
returns the same coordinate. -/
theorem barycentricOnAxis_float_exact [FloorRing F] (n : Nat) (h x : F)
    (b : barycentricCoords F) (hb : barycentricOnAxis n h x = some b) :
    barycentricOnAxis_float (fun w => w) n h x = b := by
  unfold barycentricOnAxis floatToInt at hb
  unfold barycentricOnAxis_float floatToInt_x86
  by_cases hc : -2147483648 ≤ truncate (x / h) ∧ truncate (x / h) ≤ 2147483647
  · simp only [if_pos hc] at hb ⊢
    split_ifs at hb ⊢ <;> exact Option.some.inj hb
  · simp only [if_neg hc] at hb
    exact absurd hb (by simp)

/-- In `float` arithmetic, with `c` the rounded quotient `x / cellSize`: for `0 ≤ c < n - 1`
the sampling coordinate is `(floor(c), c - floor(c))`, the difference rounded. -/
theorem barycentricOnAxis_float_inside [FloorRing F] (rnd : F → F) (n : Nat) (h x : F)
    (hn : 2 ≤ n) (hmax : n ≤ 2147483647)
    (h0 : 0 ≤ rnd (x / h)) (h1 : rnd (x / h) < (n : F) - 1) :
    barycentricOnAxis_float rnd n h x =
      ⟨⌊rnd (x / h)⌋.toNat, rnd (rnd (x / h) - (⌊rnd (x / h)⌋ : Int))⟩ := by
  have f0 : 0 ≤ ⌊rnd (x / h)⌋ := Int.floor_nonneg.mpr h0
  have f1 : ⌊rnd (x / h)⌋ < (n : Int) - 1 := by
    rw [Int.floor_lt]; push_cast; exact h1
  have ht : truncate (rnd (x / h)) = ⌊rnd (x / h)⌋ := by unfold truncate; rw [if_pos h0]
  have hc : floatToInt_x86 (rnd (x / h)) = ⌊rnd (x / h)⌋ := by
    unfold floatToInt_x86
    rw [ht, if_pos ⟨by omega, by omega⟩]
  unfold barycentricOnAxis_float
  simp only [hc, ht]
  rw [if_neg (by omega), if_neg (by omega)]

/-- In `float` arithmetic the sampling coordinate always has an index at most `n - 2` and an
offset in `[0, 1]`, for a rounding that keeps the unit interval. -/
theorem barycentricOnAxis_float_usable [FloorRing F] (rnd : F → F)
    (hr : ∀ w : F, 0 ≤ w → w ≤ 1 → 0 ≤ rnd w ∧ rnd w ≤ 1) (n : Nat) (h x : F) (hn : 2 ≤ n) :
    (barycentricOnAxis_float rnd n h x).index ≤ n - 2 ∧
    (barycentricOnAxis_float rnd n h x).index + 1 < n ∧
    0 ≤ (barycentricOnAxis_float rnd n h x).weight ∧
    (barycentricOnAxis_float rnd n h x).weight ≤ 1 := by
  unfold barycentricOnAxis_float
  dsimp only
  by_cases c1 : floatToInt_x86 (rnd (x / h)) < 0
  · rw [if_pos c1]
    exact ⟨Nat.zero_le _, by show 0 + 1 < n; omega, le_refl _, zero_le_one⟩
  · rw [if_neg c1]
    by_cases c2 : floatToInt_x86 (rnd (x / h)) > ((n - 2 : Nat) : Int)
    · rw [if_pos c2]
      exact ⟨le_refl _, by show n - 2 + 1 < n; omega, zero_le_one, le_refl _⟩
    · rw [if_neg c2]
      have ht : floatToInt_x86 (rnd (x / h)) = truncate (rnd (x / h)) := by
        rcases floatToInt_x86_cases (rnd (x / h)) with e | e
        · exact e
        · rw [e] at c1; exact absurd (by decide) c1
      rw [ht] at c1 c2
      have w := hr (rnd (x / h) - ((⌊rnd (x / h)⌋ : Int) : F))
        (sub_nonneg.mpr (Int.floor_le _))
        (by have := Int.lt_floor_add_one (rnd (x / h)); linarith)
      refine ⟨?_, ?_, w.1, w.2⟩
      · show (truncate (rnd (x / h))).toNat ≤ n - 2
        omega
      · show (truncate (rnd (x / h))).toNat + 1 < n
        omega

/-- The model reproduces the compiled function beyond the `int` range: at `x = 2^31` on the
scenario grid (`cellSize = 1`) the conversion gives `INT_MIN` and the result is `(0, 0)`. -/
theorem barycentric_float_beyond_int_range :
    barycentricOnX_float roundFloat (scenarioGrid : MACGrid ℚ) 2147483648 = ⟨0, 0⟩ ∧
    barycentricOnY_float roundFloat (scenarioGrid : MACGrid ℚ) 2147483648 = ⟨0, 0⟩ := by
  have r : roundFloat ((2147483648 : ℚ) / 1) = 2147483648 := by
    rw [roundFloat_eq ((2147483648 : ℚ) / 1) 31 8388608 (by norm_num) (by norm_num)
      (by norm_num) (by norm_num)]
    norm_num
  have t : truncate (2147483648 : ℚ) = 2147483648 := by
    unfold truncate
    rw [if_pos (by norm_num)]
    rw [Int.floor_eq_iff]; norm_num
  have c : floatToInt_x86 (2147483648 : ℚ) = -2147483648 := by
    unfold floatToInt_x86
    rw [t, if_neg (by omega)]
  have e : barycentricOnAxis_float roundFloat 4 (1 : ℚ) 2147483648 = ⟨0, 0⟩ := by
    unfold barycentricOnAxis_float
    simp only [r, c]
    rfl
  exact ⟨e, e⟩

/-- The `float` operations at the third cell boundary of `fineGrid`: `0.003f * 3` is a tie and
rounds to the even neighbour `2415919 / 2^28`, whose quotient by `0.003f` rounds to
`3 - 2^-22`; the offset `1 - 2^-22` is a `float`. -/
theorem fineGrid_third_boundary :
    roundFloat (3 * (fineGrid).cellSize) = 2415919 / 268435456 ∧
    roundFloat ((2415919 / 268435456) / (fineGrid).cellSize) = 12582911 / 4194304 ∧
    roundFloat (12582911 / 4194304 - 2) = 4194303 / 4194304 := by
  have cs : (fineGrid).cellSize = 6442451 / 2147483648 := rfl
  rw [cs]
  refine ⟨?_, ?_, ?_⟩
  · rw [roundFloat_eq_tie _ (-7) 9663676 (by norm_num) (by norm_num) (by norm_num) (by decide)]
    norm_num
  · rw [roundFloat_eq _ 1 12582911 (by norm_num) (by norm_num) (by norm_num) (by norm_num)]
    norm_num
  · rw [roundFloat_eq _ (-1) 16777212 (by norm_num) (by norm_num) (by norm_num) (by norm_num)]
    norm_num

/-- C6, as stated, fails in `float` arithmetic: on an 8 × 8 grid with `cellSize = 0.003f`
and `k = 3` (inside the valid range, `3 < 8 - 2`), the product `k * cellSize` rounds to
`2415919 / 2^28`, its quotient by `cellSize` rounds to `3 - 2^-22`, and `barycentricOnX`,
`barycentricOnY` return cell index 2 with offset `1 - 2^-22` (about 0.9999998), not
`(3, 0.0)`. -/
theorem barycentric_float_boundary_not_zero :
    3 + 2 < (fineGrid).xCellCount ∧ 0 < (fineGrid).cellSize ∧
    barycentricOnX_float roundFloat fineGrid (roundFloat (3 * (fineGrid).cellSize)) =
      ⟨2, 4194303 / 4194304⟩ ∧
    barycentricOnY_float roundFloat fineGrid (roundFloat (3 * (fineGrid).cellSize)) =
      ⟨2, 4194303 / 4194304⟩ ∧
    barycentricOnX_float roundFloat fineGrid (roundFloat (3 * (fineGrid).cellSize)) ≠
      ⟨3, 0⟩ := by
  obtain ⟨r1, r2, r3⟩ := fineGrid_third_boundary
  have fl : ⌊(12582911 / 4194304 : ℚ)⌋ = 2 := by
    rw [Int.floor_eq_iff]; norm_num
  have e : barycentricOnAxis_float roundFloat 8 (fineGrid).cellSize
      (roundFloat (3 * (fineGrid).cellSize)) = ⟨2, 4194303 / 4194304⟩ := by
    rw [barycentricOnAxis_float_inside roundFloat 8 _ _ (by decide) (by decide)
      (by rw [r1, r2]; norm_num) (by rw [r1, r2]; norm_num)]
    rw [r1, r2, fl]
    have : ((12582911 / 4194304 : ℚ) - ((2 : Int) : ℚ)) = 12582911 / 4194304 - 2 := by
      norm_num
    rw [this, r3]
    rfl
  refine ⟨by decide, by norm_num [fineGrid], e, e, ?_⟩
  show barycentricOnAxis_float roundFloat 8 (fineGrid).cellSize
      (roundFloat (3 * (fineGrid).cellSize)) ≠ ⟨3, 0⟩
  rw [e]
  intro h
  have := congrArg barycentricCoords.index h
  revert this
  decide

/-- C6, amended. With `xCellCount, yCellCount ≥ 2` (cell counts are `int`s) and
`cellSize > 0`, in `float` arithmetic with any rounding `rnd`, writing `c` for the quotient
`x / cellSize` as the code computes it (rounded): for every `x` with `0 ≤ c < n - 1`,
`barycentricOnX` and `barycentricOnY` return `(floor(c), c - floor(c))`; so they return cell
index `k` with offset exactly `0.0` whenever `c` is exactly the integer `k` (`0 ≤ k < n - 2`).
When no operation rounds, `x = k * cellSize` gives `(k, 0.0)` for every `0 ≤ k < n - 2`, and
every `0 ≤ x < (n - 2) * cellSize` gives `(floor(x / cellSize), x / cellSize -
floor(x / cellSize))`. -/
theorem barycentric_inside_range_float [FloorRing F] (rnd : F → F) (g : MACGrid F)
    (hx : 2 ≤ g.xCellCount) (hy : 2 ≤ g.yCellCount)
    (hxmax : g.xCellCount ≤ 2147483647) (hymax : g.yCellCount ≤ 2147483647)
    (hh : 0 < g.cellSize) :
    (∀ x : F, 0 ≤ rnd (x / g.cellSize) → rnd (x / g.cellSize) < (g.xCellCount : F) - 1 →
      barycentricOnX_float rnd g x =
        ⟨⌊rnd (x / g.cellSize)⌋.toNat,
          rnd (rnd (x / g.cellSize) - (⌊rnd (x / g.cellSize)⌋ : Int))⟩) ∧
    (∀ x : F, 0 ≤ rnd (x / g.cellSize) → rnd (x / g.cellSize) < (g.yCellCount : F) - 1 →
      barycentricOnY_float rnd g x =
        ⟨⌊rnd (x / g.cellSize)⌋.toNat,
          rnd (rnd (x / g.cellSize) - (⌊rnd (x / g.cellSize)⌋ : Int))⟩) ∧
    (rnd 0 = 0 → ∀ (k : Nat) (x : F), k + 2 < g.xCellCount → rnd (x / g.cellSize) = k →
      barycentricOnX_float rnd g x = ⟨k, 0⟩) ∧
    (rnd 0 = 0 → ∀ (k : Nat) (x : F), k + 2 < g.yCellCount → rnd (x / g.cellSize) = k →
      barycentricOnY_float rnd g x = ⟨k, 0⟩) ∧
    (∀ k : Nat, k + 2 < g.xCellCount →
      barycentricOnX_float (fun w => w) g ((k : F) * g.cellSize) = ⟨k, 0⟩) ∧
    (∀ k : Nat, k + 2 < g.yCellCount →
      barycentricOnY_float (fun w => w) g ((k : F) * g.cellSize) = ⟨k, 0⟩) ∧
    (∀ x : F, 0 ≤ x → x < ((g.xCellCount : F) - 2) * g.cellSize →
      barycentricOnX_float (fun w => w) g x =
        ⟨⌊x / g.cellSize⌋.toNat, x / g.cellSize - (⌊x / g.cellSize⌋ : Int)⟩) ∧
    (∀ x : F, 0 ≤ x → x < ((g.yCellCount : F) - 2) * g.cellSize →
      barycentricOnY_float (fun w => w) g x =
        ⟨⌊x / g.cellSize⌋.toNat, x / g.cellSize - (⌊x / g.cellSize⌋ : Int)⟩) := by
  have integer : ∀ (r : F → F) (n : Nat), 2 ≤ n → n ≤ 2147483647 → r 0 = 0 →
      ∀ (k : Nat) (x : F), k + 2 < n → r (x / g.cellSize) = k →
      barycentricOnAxis_float r n g.cellSize x = ⟨k, 0⟩ := by
    intro r n hn hmax hr k x hk hc
    have hkn : (k : F) < (n : F) - 1 := by
      have : ((k + 2 : Nat) : F) < (n : F) := by exact_mod_cast hk
      push_cast at this; linarith
    rw [barycentricOnAxis_float_inside r n g.cellSize x hn hmax
      (by rw [hc]; exact Nat.cast_nonneg k) (by rw [hc]; exact hkn)]
    have fl : ⌊(k : F)⌋ = (k : Int) := by
      have : ((k : Int) : F) = (k : F) := by push_cast; rfl
      rw [← this, Int.floor_intCast]
    rw [hc, fl]
    have z : (k : F) - ((k : Int) : F) = 0 := by push_cast; ring
    rw [z, hr]
    rfl
  have exact : ∀ n : Nat, 2 ≤ n → n ≤ 2147483647 → ∀ x : F, 0 ≤ x →
      x < ((n : F) - 2) * g.cellSize →
      barycentricOnAxis_float (fun w => w) n g.cellSize x =
        ⟨⌊x / g.cellSize⌋.toNat, x / g.cellSize - (⌊x / g.cellSize⌋ : Int)⟩ := by
    intro n hn hmax x h0 h1
    have c1 : x / g.cellSize < (n : F) - 2 := by rw [div_lt_iff₀ hh]; exact h1
    exact barycentricOnAxis_float_inside (fun w => w) n g.cellSize x hn hmax
      (div_nonneg h0 (le_of_lt hh)) (by show x / g.cellSize < (n : F) - 1; linarith)
  refine ⟨?_, ?_, ?_, ?_, ?_, ?_, ?_, ?_⟩
  · intro x h0 h1
    exact barycentricOnAxis_float_inside rnd g.xCellCount g.cellSize x hx hxmax h0 h1
  · intro x h0 h1
    exact barycentricOnAxis_float_inside rnd g.yCellCount g.cellSize x hy hymax h0 h1
  · intro hr k x hk hc
    exact integer rnd g.xCellCount hx hxmax hr k x hk hc
  · intro hr k x hk hc
    exact integer rnd g.yCellCount hy hymax hr k x hk hc
  · intro k hk
    exact integer (fun w => w) g.xCellCount hx hxmax rfl k _ hk
      (by show (k : F) * g.cellSize / g.cellSize = k; field_simp)
  · intro k hk
    exact integer (fun w => w) g.yCellCount hy hymax rfl k _ hk
      (by show (k : F) * g.cellSize / g.cellSize = k; field_simp)
  · intro x h0 h1
    exact exact g.xCellCount hx hxmax x h0 h1
  · intro x h0 h1
    exact exact g.yCellCount hy hymax x h0 h1

/-- Witness for C6, amended, on `fineGrid` (`cellSize = 0.003f`) with `float` rounding:
the product `0.003f * 4` is a `float` and its quotient by `0.003f` is exactly 4, so the
result is `(4, 0)`. -/
theorem barycentric_inside_range_float_witness :
    barycentricOnX_float roundFloat fineGrid (6442451 / 536870912) = ⟨4, 0⟩ :=
  (barycentric_inside_range_float roundFloat fineGrid (by decide) (by decide) (by decide)
    (by decide) (by norm_num [fineGrid])).2.2.1 roundFloat_zero 4 (6442451 / 536870912)
    (by decide)
    (by
      have cs : (fineGrid).cellSize = 6442451 / 2147483648 := rfl
      rw [cs, roundFloat_eq _ 2 8388608 (by norm_num) (by norm_num) (by norm_num)
        (by norm_num)]
      norm_num)

/-- C20. The sampling coordinate is always usable: with `xCellCount, yCellCount ≥ 2` and
`cellSize > 0`, for every coordinate `x` (negative, in range or beyond the grid, also beyond
the range of `int`, where the compiled conversion yields `INT_MIN`), in `float` arithmetic
with a rounding that keeps the unit interval, `barycentricOnX` and `barycentricOnY` return a
cell index `k` with `k ≤ n - 2` and an offset `t` with `0 ≤ t ≤ 1`, and `k + 1` is still a
valid cell index. -/
theorem barycentric_always_usable [FloorRing F] (rnd : F → F)
    (hr : ∀ w : F, 0 ≤ w → w ≤ 1 → 0 ≤ rnd w ∧ rnd w ≤ 1) (g : MACGrid F)
    (hx : 2 ≤ g.xCellCount) (hy : 2 ≤ g.yCellCount) (_ : 0 < g.cellSize) (x : F) :
    ((barycentricOnX_float rnd g x).index ≤ g.xCellCount - 2 ∧
      (barycentricOnX_float rnd g x).index + 1 < g.xCellCount ∧
      0 ≤ (barycentricOnX_float rnd g x).weight ∧
      (barycentricOnX_float rnd g x).weight ≤ 1) ∧
    ((barycentricOnY_float rnd g x).index ≤ g.yCellCount - 2 ∧
      (barycentricOnY_float rnd g x).index + 1 < g.yCellCount ∧
      0 ≤ (barycentricOnY_float rnd g x).weight ∧
      (barycentricOnY_float rnd g x).weight ≤ 1) :=
  ⟨barycentricOnAxis_float_usable rnd hr g.xCellCount g.cellSize x hx,
   barycentricOnAxis_float_usable rnd hr g.yCellCount g.cellSize x hy⟩

/-- Witness for C20 on `fineGrid` with `float` rounding, at a coordinate just below 0
(`x = -2^-30`, whose offset `x / cellSize + 1` is rounded). -/
theorem barycentric_always_usable_witness :
    ((barycentricOnX_float roundFloat fineGrid (-1 / 1073741824)).index ≤
        (fineGrid).xCellCount - 2 ∧
      (barycentricOnX_float roundFloat fineGrid (-1 / 1073741824)).index + 1 <
        (fineGrid).xCellCount ∧
      0 ≤ (barycentricOnX_float roundFloat fineGrid (-1 / 1073741824)).weight ∧
      (barycentricOnX_float roundFloat fineGrid (-1 / 1073741824)).weight ≤ 1) ∧
    ((barycentricOnY_float roundFloat fineGrid (-1 / 1073741824)).index ≤
        (fineGrid).yCellCount - 2 ∧
      (barycentricOnY_float roundFloat fineGrid (-1 / 1073741824)).index + 1 <
        (fineGrid).yCellCount ∧
      0 ≤ (barycentricOnY_float roundFloat fineGrid (-1 / 1073741824)).weight ∧
      (barycentricOnY_float roundFloat fineGrid (-1 / 1073741824)).weight ≤ 1) :=
  barycentric_always_usable roundFloat roundFloat_unit fineGrid (by decide) (by decide)
    (by norm_num [fineGrid]) (-1 / 1073741824)

end MACGridModel
